import Mathlib

/-!
# sec-lsm-manager: SELinux module artefacts and their lifecycle

A shallow embedding of `src/selinux-template.c`: the derivation of the SELinux
labels of an application, the layout of the module artefacts, the generation of
the `te`/`if`/`fc` sources with its rollback, the policy-store handle, and the
entry points `create_selinux_rules`, `remove_selinux_rules`,
`check_module_files_exist` and `check_module_in_policy`.

Conventions of the embedding.

* A C string is the list of its characters before the terminating NUL.
* The limits of `limits.h`, the compiled-in defaults and the values returned by
  `secure_getenv` are fields of `Config`.
* Everything outside the C file (libc streams, the helpers of `utils.c`,
  `template.c` and `selinux-compile.c`, libsemanage) is driven by an `Env`
  record that fixes the result of each call; the effect of a call on the
  file system and on the policy store is applied to a `World` value, which also
  records the calls in `World.trace`.
* A library call that reports failure through `errno` yields an `Outcome`: the
  returned value and the value `errno` holds right after the call.
* A stream opened for writing is buffered: the text handed to `fputs` reaches
  the file when the stream is closed, whole if `fclose` succeeds.
* A function that dereferences a NULL or destroyed policy-store handle has no
  result (`none`).
-/

namespace SecLsmManager

/-! ## Strings and bounded formatting -/

/-- A C string, without its terminating NUL. -/
abbrev CStr := List Char

/-- The C call `snprintf(buf, size, fmt, ...)`, given the complete formatted text:
at most `size - 1` characters are stored (then a NUL); nothing is stored when
`size` is zero, the buffer keeps its content `buf`. -/
def snprintf (buf : CStr) (size : Nat) (formatted : CStr) : CStr :=
  if size = 0 then buf else formatted.take (size - 1)

/-- Modelled from the spec: `secure_strncpy` of `utils.c` (only declared in
`utils.h`), the bounded string copy that always terminates the destination:
at most `n - 1` characters of `src` are copied. -/
def secure_strncpy (dest : CStr) (src : CStr) (n : Nat) : CStr :=
  if n = 0 then dest else src.take (n - 1)

/-! ## Configuration -/

/-- Build-time and process-wide configuration: the limits of `limits.h`, the three
compiled-in defaults and the values `secure_getenv` returns (`none` for NULL). -/
structure Config where
  SEC_LSM_MANAGER_MAX_SIZE_LABEL : Nat
  SEC_LSM_MANAGER_MAX_SIZE_PATH : Nat
  SEC_LSM_MANAGER_MAX_SIZE_DIR : Nat
  SEC_LSM_MANAGER_MAX_SIZE_LINE_MODULE : Nat
  default_selinux_rules_dir : CStr
  default_selinux_te_template_file : CStr
  default_selinux_if_template_file : CStr
  getenv_SELINUX_RULES_DIR : Option CStr
  getenv_SELINUX_TE_TEMPLATE_FILE : Option CStr
  getenv_SELINUX_IF_TEMPLATE_FILE : Option CStr

/-! The macros and string constants of `selinux-template.c`, at their values when
no `-D` option of the build overrides them. -/

def SEC_LSM_MANAGER_DATADIR : CStr := "/usr/share/sec-lsm-manager".toList

def TE_EXTENSION : CStr := "te".toList

def FC_EXTENSION : CStr := "fc".toList

def IF_EXTENSION : CStr := "if".toList

def PP_EXTENSION : CStr := "pp".toList

def TE_TEMPLATE_FILE : CStr := "app-template.te".toList

def IF_TEMPLATE_FILE : CStr := "app-template.if".toList

def SELINUX_TE_TEMPLATE_FILE : CStr :=
  SEC_LSM_MANAGER_DATADIR ++ "/".toList ++ TE_TEMPLATE_FILE

def SELINUX_IF_TEMPLATE_FILE : CStr :=
  SEC_LSM_MANAGER_DATADIR ++ "/".toList ++ IF_TEMPLATE_FILE

def SELINUX_RULES_DIR : CStr := SEC_LSM_MANAGER_DATADIR ++ "/selinux-rules".toList

def suffix_id : CStr := "_t".toList

def suffix_lib : CStr := "_lib_t".toList

def suffix_conf : CStr := "_conf_t".toList

def suffix_exec : CStr := "_exec_t".toList

def suffix_icon : CStr := "_icon_t".toList

def suffix_data : CStr := "_data_t".toList

def suffix_http : CStr := "_http_t".toList

def public_app : CStr := "redpesk_public_t".toList

/-! ## Data model -/

/-- Modelled from the spec: `enum path_type` of `paths.h` (not among the sources),
the closed enumeration `conf`, `data`, `exec`, `http`, `icon`, `id`, `lib`,
`public`. -/
inductive path_type where
  | type_conf
  | type_data
  | type_exec
  | type_http
  | type_icon
  | type_id
  | type_lib
  | type_public
  deriving DecidableEq, Repr

/-- Modelled from the spec: `path_t` of `paths.h`, a path with its type. -/
structure path_t where
  path : CStr
  path_type : SecLsmManager.path_type
  deriving DecidableEq, Repr

/-- The struct `path_type_definitions_t` of `selinux-label.h`. -/
structure path_type_definitions_t where
  label : CStr
  deriving DecidableEq, Repr

/-- The array `path_type_definitions[number_path_type]`, indexed by path type. -/
abbrev label_table := path_type → path_type_definitions_t

/-- Assignment to the `label` buffer of one slot of the table. -/
def set_label (tbl : label_table) (t : path_type) (label : CStr) : label_table :=
  fun u => if u = t then { label := label } else tbl u

/-- The struct `secure_app_t` of `secure-app.h`; the two sets are kept as the
ordered sequences of their elements. -/
structure secure_app_t where
  id : CStr
  id_underscore : CStr
  label : CStr
  permission_set : List CStr
  path_set : List path_t
  error_flag : Bool
  deriving DecidableEq, Repr

/-- The struct `selinux_module_t`. -/
structure selinux_module_t where
  selinux_te_file : CStr
  selinux_if_file : CStr
  selinux_fc_file : CStr
  selinux_pp_file : CStr
  selinux_rules_dir : CStr
  selinux_te_template_file : CStr
  selinux_if_template_file : CStr
  deriving DecidableEq, Repr

/-! ## Label derivation -/

/-- The text `system_u:object_r:%s%s` formatted with `id` and a suffix. -/
def format_label (id suffix : CStr) : CStr :=
  "system_u:object_r:".toList ++ id ++ suffix

/-- The text `system_u:object_r:%s` formatted with `public_app`. -/
def format_public_label : CStr :=
  "system_u:object_r:".toList ++ public_app

/-- The function `init_path_type_definitions` of `selinux-template.c`: eight
`snprintf` calls bounded by `SEC_LSM_MANAGER_MAX_SIZE_LABEL`, in source order. -/
def init_path_type_definitions (cfg : Config) (path_type_definitions : label_table)
    (id : CStr) : label_table :=
  let n := cfg.SEC_LSM_MANAGER_MAX_SIZE_LABEL
  let t1 := set_label path_type_definitions .type_conf
    (snprintf (path_type_definitions .type_conf).label n (format_label id suffix_conf))
  let t2 := set_label t1 .type_data
    (snprintf (t1 .type_data).label n (format_label id suffix_data))
  let t3 := set_label t2 .type_exec
    (snprintf (t2 .type_exec).label n (format_label id suffix_exec))
  let t4 := set_label t3 .type_http
    (snprintf (t3 .type_http).label n (format_label id suffix_http))
  let t5 := set_label t4 .type_icon
    (snprintf (t4 .type_icon).label n (format_label id suffix_icon))
  let t6 := set_label t5 .type_id
    (snprintf (t5 .type_id).label n (format_label id suffix_id))
  let t7 := set_label t6 .type_lib
    (snprintf (t6 .type_lib).label n (format_label id suffix_lib))
  set_label t7 .type_public
    (snprintf (t7 .type_public).label n format_public_label)

/-- The text formatted into the slot of each path type, before the bound of
`snprintf` applies. -/
def formatted_label (id : CStr) : path_type → CStr
  | .type_conf => format_label id suffix_conf
  | .type_data => format_label id suffix_data
  | .type_exec => format_label id suffix_exec
  | .type_http => format_label id suffix_http
  | .type_icon => format_label id suffix_icon
  | .type_id => format_label id suffix_id
  | .type_lib => format_label id suffix_lib
  | .type_public => format_public_label

/-- The label table in the words of the specification: `system_u:object_r:<id><suffix>`
with the fixed suffix of each path type, and the constant public label. -/
def spec_label (id : CStr) : path_type → CStr
  | .type_id => "system_u:object_r:".toList ++ id ++ "_t".toList
  | .type_lib => "system_u:object_r:".toList ++ id ++ "_lib_t".toList
  | .type_conf => "system_u:object_r:".toList ++ id ++ "_conf_t".toList
  | .type_exec => "system_u:object_r:".toList ++ id ++ "_exec_t".toList
  | .type_icon => "system_u:object_r:".toList ++ id ++ "_icon_t".toList
  | .type_data => "system_u:object_r:".toList ++ id ++ "_data_t".toList
  | .type_http => "system_u:object_r:".toList ++ id ++ "_http_t".toList
  | .type_public => "system_u:object_r:redpesk_public_t".toList

/-! ## Configuration lookup and module layout -/

/-- The function `get_selinux_te_template_file`. -/
def get_selinux_te_template_file (cfg : Config) (value : Option CStr) : CStr :=
  ((value.orElse fun _ => cfg.getenv_SELINUX_TE_TEMPLATE_FILE).getD
    cfg.default_selinux_te_template_file)

/-- The function `get_selinux_if_template_file`. -/
def get_selinux_if_template_file (cfg : Config) (value : Option CStr) : CStr :=
  ((value.orElse fun _ => cfg.getenv_SELINUX_IF_TEMPLATE_FILE).getD
    cfg.default_selinux_if_template_file)

/-- The function `get_selinux_rules_dir`: `value ?: secure_getenv(..) ?: default`,
then NULL (`none`) when `strlen(value) >= SEC_LSM_MANAGER_MAX_SIZE_DIR`. -/
def get_selinux_rules_dir (cfg : Config) (value : Option CStr) : Option CStr :=
  let value := (value.orElse fun _ => cfg.getenv_SELINUX_RULES_DIR).getD
    cfg.default_selinux_rules_dir
  if value.length ≥ cfg.SEC_LSM_MANAGER_MAX_SIZE_DIR then none else some value

/-- The text `%s/%s.%s` formatted with a directory, an id and an extension. -/
def format_module_path (rules_dir id ext : CStr) : CStr :=
  rules_dir ++ "/".toList ++ id ++ ".".toList ++ ext

/-- The function `init_selinux_module`. The struct is zeroed first, so every
buffer starts empty. When `get_selinux_rules_dir(NULL)` returns NULL the
pointer is handed to `secure_strncpy`, whose source argument is declared
non-null: the function has no result then. -/
def init_selinux_module (cfg : Config) (secure_app : secure_app_t) : Option selinux_module_t :=
  match get_selinux_rules_dir cfg none with
  | none => none
  | some dir =>
    let rules_dir := secure_strncpy [] dir cfg.SEC_LSM_MANAGER_MAX_SIZE_DIR
    let te_template := secure_strncpy [] (get_selinux_te_template_file cfg none)
      cfg.SEC_LSM_MANAGER_MAX_SIZE_PATH
    let if_template := secure_strncpy [] (get_selinux_if_template_file cfg none)
      cfg.SEC_LSM_MANAGER_MAX_SIZE_PATH
    let te := snprintf [] cfg.SEC_LSM_MANAGER_MAX_SIZE_PATH
      (format_module_path rules_dir secure_app.id TE_EXTENSION)
    let fc := snprintf [] cfg.SEC_LSM_MANAGER_MAX_SIZE_PATH
      (format_module_path rules_dir secure_app.id FC_EXTENSION)
    let if_file := snprintf [] cfg.SEC_LSM_MANAGER_MAX_SIZE_PATH
      (format_module_path rules_dir secure_app.id IF_EXTENSION)
    let pp := snprintf [] cfg.SEC_LSM_MANAGER_MAX_SIZE_PATH
      (format_module_path rules_dir secure_app.id PP_EXTENSION)
    some {
      selinux_te_file := te
      selinux_if_file := if_file
      selinux_fc_file := fc
      selinux_pp_file := pp
      selinux_rules_dir := rules_dir
      selinux_te_template_file := te_template
      selinux_if_template_file := if_template }

/-! ## The environment of the C file -/

/-- Result of a library call that reports failure through `errno`: the returned
value and the value of `errno` right after the call. -/
structure Outcome where
  ret : Int
  errno : Int
  deriving DecidableEq, Repr

/-- An operation queued in the transaction of a policy-store handle. -/
inductive store_op where
  | install (name : CStr)
  | remove (name : CStr)
  deriving DecidableEq, Repr

/-- The state behind a `semanage_handle_t *` that is neither NULL nor destroyed. -/
structure semanage_handle_t where
  create_store : Bool
  is_connected : Bool
  default_priority : Option Nat
  pending : List store_op
  deriving DecidableEq, Repr

/-- The calls made to the outside of the C file, with their results. -/
inductive Event where
  | process_template (template dest : CStr) (rc : Int)
  | fopen (path : CStr) (opened : Bool)
  | fputs (line : CStr) (ret : Int)
  | fclose (ret : Int)
  | remove_file (path : CStr) (rc : Int)
  | launch_compile (id : CStr) (rc : Int)
  | semanage_handle_create (created : Bool)
  | semanage_set_create_store (create_store : Nat)
  | semanage_connect (ret : Int)
  | semanage_set_default_priority (priority : Nat) (ret : Int)
  | semanage_disconnect (ret : Int)
  | semanage_handle_destroy
  | semanage_module_install_file (pp_file : CStr) (ret : Int)
  | semanage_commit (ret : Int)
  | semanage_module_remove (module_name : CStr) (ret : Int)
  | semanage_module_list (ret : Int)
  | semanage_module_info_get_name (index : Nat) (ret : Int)
  | semanage_module_info_destroy (index : Nat)
  | free_module_info_list
  deriving DecidableEq, Repr

/-- File system, policy store and policy-store handle, with the record of the
calls made so far. `files` maps a path to the content of the file there;
`modules` lists the names of the modules committed in the store; `handle` is
the object the handle pointer of the running entry point refers to, `none` when
that pointer is NULL or the object was destroyed. -/
structure World where
  files : CStr → Option CStr
  modules : List CStr
  handle : Option semanage_handle_t
  trace : List Event

/-- The results the outside gives to each call during one run. -/
structure Env where
  /-- return code of `process_template(template, dest, ..)` -/
  process_template : CStr → CStr → Int
  /-- text the template engine writes for a template and an application -/
  expansion : CStr → secure_app_t → CStr
  /-- result of `fopen(path, "w")`: `none` when the stream opens, else the `errno`
  of the failure -/
  fopen : CStr → Option Int
  /-- result of the `fputs` of the line with the given index -/
  fputs : Nat → Outcome
  /-- result of the `fclose` of the stream -/
  fclose : Outcome
  /-- number of characters of the stream that reached the file when its
  `fclose` fails -/
  fclose_flushed : Nat
  /-- return code of `remove_file(path)` when the file is there -/
  remove_file : CStr → Int
  /-- return code of `launch_compile(id)` -/
  launch_compile : CStr → Int
  /-- whether `semanage_handle_create` returns a handle (not NULL) -/
  semanage_handle_create : Bool
  semanage_connect : Outcome
  semanage_set_default_priority : Outcome
  semanage_disconnect : Outcome
  /-- result of `semanage_module_install_file` for a pp file that is there -/
  semanage_module_install_file : CStr → Outcome
  semanage_commit : Outcome
  /-- whether `strdupa` returns a copy (not NULL) -/
  strdupa : Bool
  /-- result of `semanage_module_remove` for a module that is in the store -/
  semanage_module_remove : CStr → Outcome
  semanage_module_list : Outcome
  /-- result of `semanage_module_info_get_name` on the entry with the given index -/
  semanage_module_info_get_name : Nat → Outcome

/-- The `errno` value for a missing file. -/
def ENOENT : Int := 2

/-- The `errno` value for an exhausted memory. -/
def ENOMEM : Int := 12

/-- Appends a call to the record. -/
def World.log (w : World) (e : Event) : World :=
  { w with trace := w.trace ++ [e] }

/-- Creates or replaces the file at `path`. -/
def World.write_file (w : World) (path content : CStr) : World :=
  { w with files := fun p => if p = path then some content else w.files p }

/-- Deletes the file at `path`, if any. -/
def World.delete_file (w : World) (path : CStr) : World :=
  { w with files := fun p => if p = path then none else w.files p }

/-- Whether a file is present at `path`. -/
def World.file_exists (w : World) (path : CStr) : Bool :=
  (w.files path).isSome

/-- Paths handed to `remove_file`, in call order. -/
def removals : List Event → List CStr
  | [] => []
  | .remove_file path _ :: es => path :: removals es
  | _ :: es => removals es

/-- Paths whose `remove_file` call reported a failure, in call order. -/
def failed_removals : List Event → List CStr
  | [] => []
  | .remove_file path rc :: es =>
    if rc < 0 then path :: failed_removals es else failed_removals es
  | _ :: es => failed_removals es

/-- Lines handed to `fputs`, in call order. -/
def written_lines : List Event → List CStr
  | [] => []
  | .fputs line _ :: es => line :: written_lines es
  | _ :: es => written_lines es

/-! ## Calls to the outside -/

/-- Modelled from the spec: `process_template` of `template.c` (absent). It
either leaves `dest` holding the full expansion, or reports a negative code and
no file at `dest`. -/
def process_template (env : Env) (template dest : CStr) (secure_app : secure_app_t)
    (w : World) : Int × World :=
  let rc := env.process_template template dest
  let w1 := w.log (.process_template template dest rc)
  if rc < 0 then (rc, w1.delete_file dest)
  else (rc, w1.write_file dest (env.expansion template secure_app))

/-- Modelled from the spec: `remove_file` of `utils.c` (declared in `utils.h`:
0 in case of success or a negative -errno value). A missing file gives
`-ENOENT`; a negative code leaves the file in place. -/
def remove_file (env : Env) (path : CStr) (w : World) : Int × World :=
  let rc := if w.file_exists path then env.remove_file path else -ENOENT
  let w1 := w.log (.remove_file path rc)
  if rc < 0 then (rc, w1) else (rc, w1.delete_file path)

/-- Modelled from the spec: `get_file_informations` of `utils.c` (declared in
`utils.h`), restricted to its `exists` output. -/
def get_file_informations (path : CStr) (w : World) : Bool :=
  w.file_exists path

/-- Modelled from the spec: `launch_compile` of `selinux-compile.c` (absent). The
compiler either produces the pp file of the module, or fails and produces nothing.
The C call passes the id only; the path of the pp file the compiler writes is
passed along here. The compiled package is represented by the name of the module
it holds. -/
def launch_compile (env : Env) (selinux_pp_file id : CStr) (w : World) : Int × World :=
  let rc := env.launch_compile id
  let w1 := w.log (.launch_compile id rc)
  if rc < 0 then (rc, w1) else (rc, w1.write_file selinux_pp_file id)

/-- Applies a committed operation to the module list of the store. -/
def apply_store_op (modules : List CStr) : store_op → List CStr
  | .install name => if name ∈ modules then modules else modules ++ [name]
  | .remove name => modules.filter (fun m => m ≠ name)

/-- The libsemanage call `semanage_handle_create`. -/
def semanage_handle_create (env : Env) (w : World) : World :=
  let h : Option semanage_handle_t :=
    if env.semanage_handle_create then
      some { create_store := false, is_connected := false, default_priority := none,
             pending := [] }
    else none
  { w with handle := h }.log (.semanage_handle_create env.semanage_handle_create)

/-- The libsemanage call `semanage_set_create_store`. -/
def semanage_set_create_store (create_store : Nat) (w : World) : Option World :=
  match w.handle with
  | none => none
  | some h =>
    some ({ w with handle := some { h with create_store := decide (create_store ≠ 0) } }.log
      (.semanage_set_create_store create_store))

/-- The libsemanage call `semanage_connect`. -/
def semanage_connect (env : Env) (w : World) : Option (Outcome × World) :=
  match w.handle with
  | none => none
  | some h =>
    let o := env.semanage_connect
    let w1 := w.log (.semanage_connect o.ret)
    if o.ret < 0 then some (o, w1)
    else some (o, { w1 with handle := some { h with is_connected := true } })

/-- The libsemanage call `semanage_set_default_priority`. -/
def semanage_set_default_priority (env : Env) (priority : Nat) (w : World) :
    Option (Outcome × World) :=
  match w.handle with
  | none => none
  | some h =>
    let o := env.semanage_set_default_priority
    let w1 := w.log (.semanage_set_default_priority priority o.ret)
    if o.ret ≠ 0 then some (o, w1)
    else some (o, { w1 with handle := some { h with default_priority := some priority } })

/-- The libsemanage call `semanage_disconnect`; the open transaction is dropped. -/
def semanage_disconnect (env : Env) (h : semanage_handle_t) (w : World) : Outcome × World :=
  let o := env.semanage_disconnect
  let w1 := w.log (.semanage_disconnect o.ret)
  if o.ret < 0 then (o, w1)
  else (o, { w1 with handle := some { h with is_connected := false, pending := [] } })

/-- The libsemanage call `semanage_handle_destroy`. -/
def semanage_handle_destroy (w : World) : World :=
  { w with handle := none }.log .semanage_handle_destroy

/-- The libsemanage call `semanage_module_install_file`: queues the install of the
module held by the pp file. -/
def semanage_module_install_file (env : Env) (selinux_pp_file : CStr) (w : World) :
    Option (Outcome × World) :=
  match w.handle with
  | none => none
  | some h =>
    match w.files selinux_pp_file with
    | none =>
      let o : Outcome := { ret := -1, errno := ENOENT }
      some (o, w.log (.semanage_module_install_file selinux_pp_file o.ret))
    | some name =>
      let o := env.semanage_module_install_file selinux_pp_file
      let w1 := w.log (.semanage_module_install_file selinux_pp_file o.ret)
      if o.ret < 0 then some (o, w1)
      else some (o, { w1 with handle := some { h with pending := h.pending ++ [.install name] } })

/-- The libsemanage call `semanage_commit`: on success the queued operations
reach the store; the transaction ends either way. -/
def semanage_commit (env : Env) (w : World) : Option (Outcome × World) :=
  match w.handle with
  | none => none
  | some h =>
    let o := env.semanage_commit
    let w1 := w.log (.semanage_commit o.ret)
    if o.ret < 0 then some (o, { w1 with handle := some { h with pending := [] } })
    else some (o, { w1 with
      handle := some { h with pending := [] }
      modules := h.pending.foldl apply_store_op w.modules })

/-! ## The functions of `selinux-template.c` -/

/-- The text of one fc line, formatted from a path and the label of its type. -/
def format_fc_line (path label : CStr) : CStr :=
  path ++ "(/.*)? gen_context(".toList ++ label ++ ",s0)\n".toList

/-- The libc call `fclose` on the stream opened on `path`, which has received
the text `stream`: the stream is buffered, so the text reaches the file when
the stream is closed; when `fclose` fails only the first `fclose_flushed`
characters of the text are in the file. -/
def fclose (env : Env) (path stream : CStr) (w : World) : Outcome × World :=
  let o := env.fclose
  let w1 := w.log (.fclose o.ret)
  if o.ret < 0 then (o, w1.write_file path (stream.take env.fclose_flushed))
  else (o, w1.write_file path stream)

/-- The `for` loop of `generate_app_module_fc`, from index `i` over the remaining
paths, `stream` being the text the stream `f_module_fc` has received so far:
each line is formatted into the `line` buffer of
`SEC_LSM_MANAGER_MAX_SIZE_LINE_MODULE` bytes and handed to `fputs`, which adds
it to the stream; the first failing `fputs` ends the loop with `-errno`. -/
def generate_app_module_fc_loop (env : Env) (cfg : Config)
    (path_type_definitions : label_table) :
    Nat → List path_t → CStr → World → Int × CStr × World
  | _, [], stream, w => (0, stream, w)
  | i, path :: rest, stream, w =>
    let line := snprintf [] cfg.SEC_LSM_MANAGER_MAX_SIZE_LINE_MODULE
      (format_fc_line path.path (path_type_definitions path.path_type).label)
    let o := env.fputs i
    let w1 := w.log (.fputs line o.ret)
    if o.ret < 0 then (-o.errno, stream, w1)
    else generate_app_module_fc_loop env cfg path_type_definitions (i + 1) rest
      (stream ++ line) w1

/-- The function `generate_app_module_fc`: `fopen` with mode `w` leaves an empty
file at the path; the value of `fclose` (`rc2`) is only logged, `rc` is
returned. -/
def generate_app_module_fc (env : Env) (cfg : Config) (selinux_fc_file : CStr)
    (secure_app : secure_app_t) (path_type_definitions : label_table) (w : World) :
    Int × World :=
  match env.fopen selinux_fc_file with
  | some errno => (-errno, w.log (.fopen selinux_fc_file false))
  | none =>
    let w1 := (w.log (.fopen selinux_fc_file true)).write_file selinux_fc_file []
    let r := generate_app_module_fc_loop env cfg path_type_definitions 0
      secure_app.path_set [] w1
    (r.1, (fclose env selinux_fc_file r.2.1 r.2.2).2)

/-- The function `generate_app_module_files`, with its labels `remove_if`,
`remove_te` and `ret`. -/
def generate_app_module_files (env : Env) (cfg : Config) (selinux_module : selinux_module_t)
    (secure_app : secure_app_t) (path_type_definitions : label_table) (w : World) :
    Int × World :=
  let r1 := process_template env selinux_module.selinux_te_template_file
    selinux_module.selinux_te_file secure_app w
  if r1.1 < 0 then r1
  else
    let r2 := process_template env selinux_module.selinux_if_template_file
      selinux_module.selinux_if_file secure_app r1.2
    if r2.1 < 0 then
      -- remove_te
      (r2.1, (remove_file env selinux_module.selinux_te_file r2.2).2)
    else
      let r3 := generate_app_module_fc env cfg selinux_module.selinux_fc_file secure_app
        path_type_definitions r2.2
      if r3.1 < 0 then
        -- remove_if, then remove_te
        let w4 := (remove_file env selinux_module.selinux_if_file r3.2).2
        (r3.1, (remove_file env selinux_module.selinux_te_file w4).2)
      else r3

/-- The function `check_app_module_files_exists`: the three `exists` flags are
summed and the sum is compared with 3. -/
def check_app_module_files_exists (selinux_module : selinux_module_t) (w : World) : Bool :=
  let sum : Nat := 0
  let sum := sum + (get_file_informations selinux_module.selinux_te_file w).toNat
  let sum := sum + (get_file_informations selinux_module.selinux_fc_file w).toNat
  let sum := sum + (get_file_informations selinux_module.selinux_if_file w).toNat
  if sum ≠ 3 then false else true

/-- The function `remove_app_module_files`. -/
def remove_app_module_files (env : Env) (selinux_module : selinux_module_t) (w : World) :
    Int × World :=
  let r1 := remove_file env selinux_module.selinux_te_file w
  if r1.1 < 0 then r1
  else
    let r2 := remove_file env selinux_module.selinux_if_file r1.2
    if r2.1 < 0 then r2
    else remove_file env selinux_module.selinux_fc_file r2.2

/-- The function `remove_pp_file`. -/
def remove_pp_file (env : Env) (selinux_module : selinux_module_t) (w : World) : Int × World :=
  remove_file env selinux_module.selinux_pp_file w

/-- The function `destroy_semanage_handle`. -/
def destroy_semanage_handle (env : Env) (w : World) : Option (Int × World) :=
  match w.handle with
  | none => none
  | some h =>
    if h.is_connected then
      let d := semanage_disconnect env h w
      let rc := if d.1.ret < 0 then -d.1.errno else d.1.ret
      some (rc, semanage_handle_destroy d.2)
    else some (0, semanage_handle_destroy w)

/-- The label `error` of `create_semanage_handle`: the handle is destroyed and
the code of the failed step is returned. -/
def create_semanage_handle_error (env : Env) (rc : Int) (w : World) : Option (Int × World) :=
  match destroy_semanage_handle env w with
  | none => none
  | some r => some (rc, r.2)

/-- The function `create_semanage_handle`. The test after `semanage_handle_create`
compares the address of the caller's variable with NULL and never holds, so the
created pointer is used as it is. -/
def create_semanage_handle (env : Env) (w : World) : Option (Int × World) :=
  let w1 := semanage_handle_create env w
  match semanage_set_create_store 1 w1 with
  | none => none
  | some w2 =>
    match semanage_connect env w2 with
    | none => none
    | some c =>
      if c.1.ret < 0 then create_semanage_handle_error env (-c.1.errno) c.2
      else
        match semanage_set_default_priority env 400 c.2 with
        | none => none
        | some p =>
          if p.1.ret ≠ 0 then create_semanage_handle_error env (-p.1.errno) p.2
          else some (p.1.ret, p.2)

/-- The function `install_module`. -/
def install_module (env : Env) (selinux_pp_file : CStr) (w : World) : Option (Int × World) :=
  match semanage_module_install_file env selinux_pp_file w with
  | none => none
  | some i =>
    if i.1.ret < 0 then some (-i.1.errno, i.2)
    else
      match semanage_commit env i.2 with
      | none => none
      | some c =>
        if c.1.ret < 0 then some (-c.1.errno, c.2)
        else some (c.1.ret, c.2)

/-- The label `end2` of `create_selinux_rules`: the handle is destroyed, `rc` is
returned. -/
def create_selinux_rules_end2 (env : Env) (rc : Int) (w : World) : Option (Int × World) :=
  match destroy_semanage_handle env w with
  | none => none
  | some r => some (rc, r.2)

/-- The label `error3` of `create_selinux_rules`. -/
def create_selinux_rules_error3 (env : Env) (selinux_module : selinux_module_t) (rc : Int)
    (w : World) : Option (Int × World) :=
  create_selinux_rules_end2 env rc (remove_app_module_files env selinux_module w).2

/-- The label `error4` of `create_selinux_rules`. -/
def create_selinux_rules_error4 (env : Env) (selinux_module : selinux_module_t) (rc : Int)
    (w : World) : Option (Int × World) :=
  create_selinux_rules_error3 env selinux_module rc (remove_pp_file env selinux_module w).2

/-- The steps of `create_selinux_rules` that follow the creation of the handle:
generation, compilation, install, and the labels they jump to. -/
def create_selinux_rules_steps (env : Env) (cfg : Config) (selinux_module : selinux_module_t)
    (secure_app : secure_app_t) (path_type_definitions : label_table) (w : World) :
    Option (Int × World) :=
  let g := generate_app_module_files env cfg selinux_module secure_app path_type_definitions w
  if g.1 < 0 then create_selinux_rules_end2 env g.1 g.2
  else
    let c := launch_compile env selinux_module.selinux_pp_file secure_app.id g.2
    if c.1 < 0 then create_selinux_rules_error3 env selinux_module c.1 c.2
    else
      match install_module env selinux_module.selinux_pp_file c.2 with
      | none => none
      | some i =>
        if i.1 < 0 then create_selinux_rules_error4 env selinux_module i.1 i.2
        else create_selinux_rules_end2 env i.1 i.2

/-- The body of `create_selinux_rules` once the module layout is built: a failure
of `create_semanage_handle` is returned at once (label `ret`). -/
def create_selinux_rules_with (env : Env) (cfg : Config) (selinux_module : selinux_module_t)
    (secure_app : secure_app_t) (path_type_definitions : label_table) (w : World) :
    Option (Int × World) :=
  match create_semanage_handle env w with
  | none => none
  | some h =>
    if h.1 < 0 then some h
    else create_selinux_rules_steps env cfg selinux_module secure_app path_type_definitions h.2

/-- The function `create_selinux_rules`. -/
def create_selinux_rules (env : Env) (cfg : Config) (secure_app : secure_app_t)
    (path_type_definitions : label_table) (w : World) : Option (Int × World) :=
  match init_selinux_module cfg secure_app with
  | none => none
  | some selinux_module =>
    create_selinux_rules_with env cfg selinux_module secure_app path_type_definitions w

/-- The function `check_module_files_exist`. -/
def check_module_files_exist (cfg : Config) (secure_app : secure_app_t) (w : World) :
    Option Bool :=
  match init_selinux_module cfg secure_app with
  | none => none
  | some selinux_module => some (check_app_module_files_exists selinux_module w)

/-! ## Removal and lookup of the module -/

/-- The libsemanage call `semanage_module_remove`: queues the removal of the named
module; the store reports a module it does not hold as an error. -/
def semanage_module_remove (env : Env) (module_name : CStr) (w : World) :
    Option (Outcome × World) :=
  match w.handle with
  | none => none
  | some h =>
    let o : Outcome :=
      if module_name ∈ w.modules then env.semanage_module_remove module_name
      else { ret := -1, errno := ENOENT }
    let w1 := w.log (.semanage_module_remove module_name o.ret)
    if o.ret < 0 then some (o, w1)
    else some (o, { w1 with
      handle := some { h with pending := h.pending ++ [.remove module_name] } })

/-- The function `remove_module`. -/
def remove_module (env : Env) (module_name : CStr) (w : World) : Option (Int × World) :=
  if env.strdupa = false then some (-ENOMEM, w)
  else
    match semanage_module_remove env module_name w with
    | none => none
    | some r =>
      if r.1.ret < 0 then some (-r.1.errno, r.2)
      else
        match semanage_commit env r.2 with
        | none => none
        | some c =>
          if c.1.ret < 0 then some (-c.1.errno, c.2)
          else some (c.1.ret, c.2)

/-- The libsemanage call `semanage_module_list`: on success the names of the
modules of the store, in the order of the list; on failure the list pointer and
the length keep their initial values (NULL and 0). -/
def semanage_module_list (env : Env) (w : World) : Option (Outcome × List CStr × World) :=
  match w.handle with
  | none => none
  | some _ =>
    let o := env.semanage_module_list
    let w1 := w.log (.semanage_module_list o.ret)
    if o.ret < 0 then some (o, [], w1) else some (o, w.modules, w1)

/-- The `for` loop of `free_module_info_list`, from index `i` over the remaining
entries. -/
def free_module_info_list_loop : Nat → Nat → World → World
  | _, 0, w => w
  | i, n + 1, w => free_module_info_list_loop (i + 1) n (w.log (.semanage_module_info_destroy i))

/-- The function `free_module_info_list`: every entry is destroyed, then the
list is freed (a NULL list of length 0 goes through no iteration). -/
def free_module_info_list (semanage_module_info_len : Nat) (w : World) : World :=
  (free_module_info_list_loop 0 semanage_module_info_len w).log .free_module_info_list

/-- The `for` loop of `check_module`, from index `i` over the remaining entries:
a failing name lookup ends it with `false`, a name equal to `id` (`strcmp`
returns 0) ends it with `true`. -/
def check_module_loop (env : Env) (id : CStr) : Nat → List CStr → World → Bool × World
  | _, [], w => (false, w)
  | i, module_name :: rest, w =>
    let o := env.semanage_module_info_get_name i
    let w1 := w.log (.semanage_module_info_get_name i o.ret)
    if o.ret < 0 then (false, w1)
    else if module_name = id then (true, w1)
    else check_module_loop env id (i + 1) rest w1

/-- The function `check_module`. -/
def check_module (env : Env) (id : CStr) (w : World) : Option (Bool × World) :=
  match semanage_module_list env w with
  | none => none
  | some l =>
    if l.1.ret < 0 then some (false, free_module_info_list l.2.1.length l.2.2)
    else
      let r := check_module_loop env id 0 l.2.1 l.2.2
      some (r.1, free_module_info_list l.2.1.length r.2)

/-- The function `check_module_in_policy`. -/
def check_module_in_policy (env : Env) (secure_app : secure_app_t) (w : World) :
    Option (Bool × World) :=
  match create_semanage_handle env w with
  | none => none
  | some h =>
    if h.1 < 0 then some (false, h.2)
    else
      match check_module env secure_app.id h.2 with
      | none => none
      | some c =>
        match destroy_semanage_handle env c.2 with
        | none => none
        | some d => some (c.1, d.2)

/-- The steps of `remove_selinux_rules` that follow the removal of the files:
the handle is created, the module removed, and the handle destroyed (label
`end`) whatever `remove_module` returned. -/
def remove_selinux_rules_policy (env : Env) (secure_app : secure_app_t) (w : World) :
    Option (Int × World) :=
  match create_semanage_handle env w with
  | none => none
  | some h =>
    if h.1 < 0 then some h
    else
      match remove_module env secure_app.id h.2 with
      | none => none
      | some r =>
        match destroy_semanage_handle env r.2 with
        | none => none
        | some d => some (r.1, d.2)

/-- The body of `remove_selinux_rules` once the module layout is built. -/
def remove_selinux_rules_with (env : Env) (selinux_module : selinux_module_t)
    (secure_app : secure_app_t) (w : World) : Option (Int × World) :=
  let r := remove_app_module_files env selinux_module w
  if r.1 < 0 then some r
  else
    let p := remove_pp_file env selinux_module r.2
    if p.1 < 0 then some p
    else remove_selinux_rules_policy env secure_app p.2

/-- The function `remove_selinux_rules`. -/
def remove_selinux_rules (env : Env) (cfg : Config) (secure_app : secure_app_t) (w : World) :
    Option (Int × World) :=
  match init_selinux_module cfg secure_app with
  | none => none
  | some selinux_module => remove_selinux_rules_with env selinux_module secure_app w

/-- The line written for a path when nothing is truncated. -/
def fc_line (path_type_definitions : label_table) (path : path_t) : CStr :=
  format_fc_line path.path (path_type_definitions path.path_type).label

/-! ## Sample inputs -/

/-- The texts `init_path_type_definitions` formats, one per slot, in source order. -/
def formatted_labels (id : CStr) : List CStr :=
  [format_label id suffix_conf, format_label id suffix_data, format_label id suffix_exec,
   format_label id suffix_http, format_label id suffix_icon, format_label id suffix_id,
   format_label id suffix_lib, format_public_label]

/-- A configuration with the compiled-in defaults of the C file, no environment
variable set, and sample values for the limits. -/
def sample_cfg : Config where
  SEC_LSM_MANAGER_MAX_SIZE_LABEL := 256
  SEC_LSM_MANAGER_MAX_SIZE_PATH := 1024
  SEC_LSM_MANAGER_MAX_SIZE_DIR := 512
  SEC_LSM_MANAGER_MAX_SIZE_LINE_MODULE := 2048
  default_selinux_rules_dir := SELINUX_RULES_DIR
  default_selinux_te_template_file := SELINUX_TE_TEMPLATE_FILE
  default_selinux_if_template_file := SELINUX_IF_TEMPLATE_FILE
  getenv_SELINUX_RULES_DIR := none
  getenv_SELINUX_TE_TEMPLATE_FILE := none
  getenv_SELINUX_IF_TEMPLATE_FILE := none

/-- The application of the happy-path scenario: id `demo` with two paths. -/
def demo_app : secure_app_t where
  id := "demo".toList
  id_underscore := "demo".toList
  label := "system_u:object_r:demo_t".toList
  permission_set := ["urn:AGL:permission:demo:public:p1".toList]
  path_set := [{ path := "/usr/bin/demo".toList, path_type := .type_exec },
               { path := "/etc/demo".toList, path_type := .type_conf }]
  error_flag := false

/-- A label table with empty slots. -/
def empty_table : label_table := fun _ => { label := [] }

/-- The label table of `demo`. -/
def demo_table : label_table := init_path_type_definitions sample_cfg empty_table "demo".toList

/-- An environment in which every call succeeds. -/
def all_ok : Env where
  process_template := fun _ _ => 0
  expansion := fun template _ => template
  fopen := fun _ => none
  fputs := fun _ => { ret := 1, errno := 0 }
  fclose := { ret := 0, errno := 0 }
  fclose_flushed := 0
  remove_file := fun _ => 0
  launch_compile := fun _ => 0
  semanage_handle_create := true
  semanage_connect := { ret := 0, errno := 0 }
  semanage_set_default_priority := { ret := 0, errno := 0 }
  semanage_disconnect := { ret := 0, errno := 0 }
  semanage_module_install_file := fun _ => { ret := 0, errno := 0 }
  semanage_commit := { ret := 1, errno := 0 }
  strdupa := true
  semanage_module_remove := fun _ => { ret := 0, errno := 0 }
  semanage_module_list := { ret := 0, errno := 0 }
  semanage_module_info_get_name := fun _ => { ret := 0, errno := 0 }

/-- A world with no file, no module, no handle and no recorded call. -/
def empty_world : World where
  files := fun _ => none
  modules := []
  handle := none
  trace := []

/-- The fc file of `demo` under the default rules directory. -/
def demo_fc_file : CStr := "/usr/share/sec-lsm-manager/selinux-rules/demo.fc".toList

/-- An application with the single path `/opt/demo`, of type `exec`. -/
def one_path_app : secure_app_t where
  id := "demo".toList
  id_underscore := "demo".toList
  label := "system_u:object_r:demo_t".toList
  permission_set := []
  path_set := [{ path := "/opt/demo".toList, path_type := .type_exec }]
  error_flag := false

/-- A label table whose labels have 2048 characters, the line limit of `sample_cfg`. -/
def long_label_table : label_table := fun _ => { label := List.replicate 2048 'x' }

/-- A configuration whose path and directory limits are both 47. -/
def tight_cfg : Config where
  SEC_LSM_MANAGER_MAX_SIZE_LABEL := 256
  SEC_LSM_MANAGER_MAX_SIZE_PATH := 47
  SEC_LSM_MANAGER_MAX_SIZE_DIR := 47
  SEC_LSM_MANAGER_MAX_SIZE_LINE_MODULE := 2048
  default_selinux_rules_dir := SELINUX_RULES_DIR
  default_selinux_te_template_file := SELINUX_TE_TEMPLATE_FILE
  default_selinux_if_template_file := SELINUX_IF_TEMPLATE_FILE
  getenv_SELINUX_RULES_DIR := none
  getenv_SELINUX_TE_TEMPLATE_FILE := none
  getenv_SELINUX_IF_TEMPLATE_FILE := none

/-- The resolution order in the words of the specification: the explicit value
if given, else the environment variable if set, else the compiled-in default. -/
def spec_resolved_rules_dir (cfg : Config) (value : Option CStr) : CStr :=
  match value, cfg.getenv_SELINUX_RULES_DIR with
  | some v, _ => v
  | none, some e => e
  | none, none => cfg.default_selinux_rules_dir

/-- The layout of `demo` under `sample_cfg`. -/
def demo_module : selinux_module_t where
  selinux_te_file := "/usr/share/sec-lsm-manager/selinux-rules/demo.te".toList
  selinux_if_file := "/usr/share/sec-lsm-manager/selinux-rules/demo.if".toList
  selinux_fc_file := demo_fc_file
  selinux_pp_file := "/usr/share/sec-lsm-manager/selinux-rules/demo.pp".toList
  selinux_rules_dir := "/usr/share/sec-lsm-manager/selinux-rules".toList
  selinux_te_template_file := "/usr/share/sec-lsm-manager/app-template.te".toList
  selinux_if_template_file := "/usr/share/sec-lsm-manager/app-template.if".toList

/-- The world after an install of `demo` in which `demo.te` was then removed by
hand: the if, fc and pp files are there and the module is loaded. -/
def probe_world : World where
  files := fun p =>
    if p = demo_module.selinux_if_file ∨ p = demo_module.selinux_fc_file
        ∨ p = demo_module.selinux_pp_file then some [] else none
  modules := ["demo".toList]
  handle := none
  trace := []

/-- An environment in which `semanage_module_install_file` fails and leaves
`errno` at 0; every other call succeeds. -/
def install_errno_zero : Env :=
  { all_ok with semanage_module_install_file := fun _ => { ret := -1, errno := 0 } }

/-- An environment in which `semanage_commit` fails and leaves `errno` at 0;
every other call succeeds. -/
def commit_errno_zero : Env :=
  { all_ok with semanage_commit := { ret := -1, errno := 0 } }

/-- An environment in which `semanage_connect` fails with `EACCES`. -/
def connect_fails : Env :=
  { all_ok with semanage_connect := { ret := -1, errno := 13 } }

/-- An environment in which the compiler fails. -/
def compile_fails : Env :=
  { all_ok with launch_compile := fun _ => -1 }

/-- The world after an earlier install of `demo`: the four artefacts are on disk
and the module is loaded. -/
def installed_world : World where
  files := fun p =>
    if p = demo_module.selinux_te_file ∨ p = demo_module.selinux_if_file
        ∨ p = demo_module.selinux_fc_file then some []
    else if p = demo_module.selinux_pp_file then some "demo".toList else none
  modules := ["demo".toList]
  handle := none
  trace := []

/-- An environment in which the second `fputs` fails with `ENOSPC`. -/
def second_fputs_fails : Env :=
  { all_ok with
    fputs := fun i => if i = 1 then { ret := -1, errno := 28 } else { ret := 1, errno := 0 } }

/-- An environment in which the `fclose` of the fc stream fails with `ENOSPC` and
nothing of the stream has reached the file. -/
def fclose_fails : Env :=
  { all_ok with fclose := { ret := -1, errno := 28 } }

/-- A world whose handle is connected, with three modules in the store. -/
def connected_world : World where
  files := fun _ => none
  modules := ["base".toList, "demo".toList, "demo2".toList]
  handle := some { create_store := true, is_connected := true, default_priority := some 400,
                   pending := [] }
  trace := []

/-- The application `demo` with its error flag raised. -/
def flagged_app : secure_app_t := { demo_app with error_flag := true }

/-- An environment in which `semanage_handle_create` returns NULL. -/
def null_handle : Env :=
  { all_ok with semanage_handle_create := false }

/-- An environment in which `semanage_connect` fails and leaves `errno` at 0;
every other call succeeds. -/
def connect_errno_zero : Env :=
  { all_ok with semanage_connect := { ret := -1, errno := 0 } }

/-- An environment in which `semanage_connect` fails and leaves `errno` at 0, and
the expansion of the templates fails. -/
def connect_errno_zero_template_fails : Env :=
  { all_ok with
    semanage_connect := { ret := -1, errno := 0 }
    process_template := fun _ _ => -5 }

/-- An environment in which `semanage_module_remove` fails and leaves `errno` at
0; every other call succeeds. -/
def module_remove_errno_zero : Env :=
  { all_ok with semanage_module_remove := fun _ => { ret := -1, errno := 0 } }

/-- Creations (`true`) and destructions (`false`) of a policy-store handle, in
call order; a `semanage_handle_create` that returns NULL creates nothing. -/
def handle_events : List Event → List Bool
  | [] => []
  | .semanage_handle_create created :: es =>
    if created then true :: handle_events es else handle_events es
  | .semanage_handle_destroy :: es => false :: handle_events es
  | _ :: es => handle_events es

/-! # Properties -/

/-! ## Bounded formatting -/

theorem snprintf_fits (buf : CStr) (size : Nat) (s : CStr) (h : s.length + 1 ≤ size) :
    snprintf buf size s = s := by
  unfold snprintf
  have h0 : size ≠ 0 := by omega
  rw [if_neg h0]
  exact List.take_of_length_le (by omega)

theorem snprintf_zeroed (size : Nat) (s : CStr) :
    snprintf [] size s = s.take (size - 1) := by
  unfold snprintf
  by_cases h0 : size = 0
  · simp [h0]
  · simp [h0]

theorem secure_strncpy_fits (dest : CStr) (n : Nat) (s : CStr) (h : s.length + 1 ≤ n) :
    secure_strncpy dest s n = s := by
  unfold secure_strncpy
  have h0 : n ≠ 0 := by omega
  rw [if_neg h0]
  exact List.take_of_length_le (by omega)

/-! ## The world record -/

@[simp] theorem log_trace (w : World) (e : Event) : (w.log e).trace = w.trace ++ [e] := rfl

@[simp] theorem log_files (w : World) (e : Event) : (w.log e).files = w.files := rfl

@[simp] theorem log_modules (w : World) (e : Event) : (w.log e).modules = w.modules := rfl

@[simp] theorem log_handle (w : World) (e : Event) : (w.log e).handle = w.handle := rfl

@[simp] theorem write_file_trace (w : World) (p c : CStr) :
    (w.write_file p c).trace = w.trace := rfl

@[simp] theorem write_file_modules (w : World) (p c : CStr) :
    (w.write_file p c).modules = w.modules := rfl

@[simp] theorem write_file_handle (w : World) (p c : CStr) :
    (w.write_file p c).handle = w.handle := rfl

@[simp] theorem write_file_files (w : World) (p c q : CStr) :
    (w.write_file p c).files q = if q = p then some c else w.files q := rfl

@[simp] theorem delete_file_trace (w : World) (p : CStr) :
    (w.delete_file p).trace = w.trace := rfl

@[simp] theorem delete_file_modules (w : World) (p : CStr) :
    (w.delete_file p).modules = w.modules := rfl

@[simp] theorem delete_file_handle (w : World) (p : CStr) :
    (w.delete_file p).handle = w.handle := rfl

@[simp] theorem delete_file_files (w : World) (p q : CStr) :
    (w.delete_file p).files q = if q = p then none else w.files q := rfl

/-! ## C1: label derivation -/

/-- C1. Whenever each of the eight formatted texts has at most
`SEC_LSM_MANAGER_MAX_SIZE_LABEL - 1` characters, `init_path_type_definitions`
leaves in the slot of every path type exactly the label of the specification:
`system_u:object_r:<id><suffix>` for the seven id-derived types and the constant
`system_u:object_r:redpesk_public_t` for `public`, whatever the table held
before. -/
theorem init_path_type_definitions_spec (cfg : Config) (tbl : label_table) (id : CStr)
    (hfit : ∀ s ∈ formatted_labels id, s.length + 1 ≤ cfg.SEC_LSM_MANAGER_MAX_SIZE_LABEL)
    (t : path_type) :
    (init_path_type_definitions cfg tbl id t).label = spec_label id t := by
  have h1 := hfit (format_label id suffix_conf) (by simp [formatted_labels])
  have h2 := hfit (format_label id suffix_data) (by simp [formatted_labels])
  have h3 := hfit (format_label id suffix_exec) (by simp [formatted_labels])
  have h4 := hfit (format_label id suffix_http) (by simp [formatted_labels])
  have h5 := hfit (format_label id suffix_icon) (by simp [formatted_labels])
  have h6 := hfit (format_label id suffix_id) (by simp [formatted_labels])
  have h7 := hfit (format_label id suffix_lib) (by simp [formatted_labels])
  have h8 := hfit format_public_label (by simp [formatted_labels])
  cases t <;>
    simp [init_path_type_definitions, set_label, snprintf_fits _ _ _ h1, snprintf_fits _ _ _ h2,
      snprintf_fits _ _ _ h3, snprintf_fits _ _ _ h4, snprintf_fits _ _ _ h5,
      snprintf_fits _ _ _ h6, snprintf_fits _ _ _ h7, snprintf_fits _ _ _ h8] <;>
    simp [spec_label, format_label, format_public_label, suffix_conf, suffix_data, suffix_exec,
      suffix_http, suffix_icon, suffix_id, suffix_lib, public_app]

/-- C1, at the id `demo` with a label limit of 256 and the `exec` slot. -/
theorem init_path_type_definitions_spec_witness :
    (∀ s ∈ formatted_labels "demo".toList,
        s.length + 1 ≤ sample_cfg.SEC_LSM_MANAGER_MAX_SIZE_LABEL) ∧
      (init_path_type_definitions sample_cfg empty_table "demo".toList .type_exec).label
        = "system_u:object_r:demo_exec_t".toList :=
  ⟨by decide,
   init_path_type_definitions_spec sample_cfg empty_table "demo".toList (by decide) .type_exec⟩

/-! ## C2: the fc file -/

theorem written_lines_append (a b : List Event) :
    written_lines (a ++ b) = written_lines a ++ written_lines b := by
  induction a with
  | nil => rfl
  | cons e es ih => cases e <;> simp [written_lines, ih]

theorem generate_app_module_fc_loop_ok (env : Env) (cfg : Config)
    (tbl : label_table) (paths : List path_t) :
    ∀ (i : Nat) (stream : CStr) (w : World),
      (∀ k, k < paths.length → 0 ≤ (env.fputs (i + k)).ret) →
      (∀ p ∈ paths, (fc_line tbl p).length + 1 ≤ cfg.SEC_LSM_MANAGER_MAX_SIZE_LINE_MODULE) →
      (generate_app_module_fc_loop env cfg tbl i paths stream w).1 = 0 ∧
      (generate_app_module_fc_loop env cfg tbl i paths stream w).2.1
        = stream ++ (paths.map (fc_line tbl)).flatten ∧
      written_lines (generate_app_module_fc_loop env cfg tbl i paths stream w).2.2.trace
        = written_lines w.trace ++ paths.map (fc_line tbl) := by
  induction paths with
  | nil =>
    intro i stream w _ _
    simp [generate_app_module_fc_loop]
  | cons p rest ih =>
    intro i stream w hw hfit
    have h0 : ¬ (env.fputs i).ret < 0 := by
      have := hw 0 (by simp)
      simpa using this
    have hp : (fc_line tbl p).length + 1 ≤ cfg.SEC_LSM_MANAGER_MAX_SIZE_LINE_MODULE :=
      hfit p (by simp)
    have hline : snprintf [] cfg.SEC_LSM_MANAGER_MAX_SIZE_LINE_MODULE
        (format_fc_line p.path (tbl p.path_type).label) = fc_line tbl p :=
      snprintf_fits _ _ _ hp
    have hrest := ih (i + 1) (stream ++ fc_line tbl p)
      (w.log (.fputs (fc_line tbl p) (env.fputs i).ret))
      (fun k hk => by
        have := hw (k + 1) (by simp; omega)
        rwa [show i + (k + 1) = i + 1 + k by omega] at this)
      (fun q hq => hfit q (by simp [hq]))
    simp only [generate_app_module_fc_loop, hline, if_neg h0]
    refine ⟨hrest.1, ?_, ?_⟩
    · rw [hrest.2.1]; simp
    · rw [hrest.2.2]; simp [written_lines_append, written_lines]

theorem fclose_trace (env : Env) (path stream : CStr) (w : World) :
    (fclose env path stream w).2.trace = w.trace ++ [Event.fclose env.fclose.ret] := by
  unfold fclose
  simp only
  split <;> rfl

theorem fclose_handle (env : Env) (path stream : CStr) (w : World) :
    (fclose env path stream w).2.handle = w.handle := by
  unfold fclose
  simp only
  split <;> rfl

theorem fclose_modules (env : Env) (path stream : CStr) (w : World) :
    (fclose env path stream w).2.modules = w.modules := by
  unfold fclose
  simp only
  split <;> rfl

theorem fclose_files (env : Env) (path stream : CStr) (w : World) (p : CStr) :
    (fclose env path stream w).2.files p
      = if p = path then
          some (if env.fclose.ret < 0 then stream.take env.fclose_flushed else stream)
        else w.files p := by
  unfold fclose
  simp only
  split <;> simp

/-- C2, amended. When the fc file opens, every `fputs` succeeds, the closing
`fclose` succeeds and every formatted line has at most
`SEC_LSM_MANAGER_MAX_SIZE_LINE_MODULE - 1` characters, `generate_app_module_fc`
returns 0, hands to `fputs` exactly one line per path of the path set, in
path-set order, each being
`<path>(/.*)? gen_context(<label of the path type>,s0)\n`, and the fc file then
holds these lines and nothing else; an empty path set gives an empty file. -/
theorem generate_app_module_fc_lines (env : Env) (cfg : Config) (fc : CStr)
    (secure_app : secure_app_t) (tbl : label_table) (w : World)
    (hopen : env.fopen fc = none)
    (hwrite : ∀ k, k < secure_app.path_set.length → 0 ≤ (env.fputs k).ret)
    (hclose : 0 ≤ env.fclose.ret)
    (hfit : ∀ p ∈ secure_app.path_set,
      (p.path ++ "(/.*)? gen_context(".toList ++ (tbl p.path_type).label ++ ",s0)\n".toList).length
        + 1 ≤ cfg.SEC_LSM_MANAGER_MAX_SIZE_LINE_MODULE) :
    (generate_app_module_fc env cfg fc secure_app tbl w).1 = 0 ∧
    written_lines (generate_app_module_fc env cfg fc secure_app tbl w).2.trace
      = written_lines w.trace ++ secure_app.path_set.map (fun p =>
          p.path ++ "(/.*)? gen_context(".toList ++ (tbl p.path_type).label ++ ",s0)\n".toList) ∧
    (generate_app_module_fc env cfg fc secure_app tbl w).2.files fc
      = some (secure_app.path_set.map (fun p =>
          p.path ++ "(/.*)? gen_context(".toList ++ (tbl p.path_type).label
            ++ ",s0)\n".toList)).flatten ∧
    (secure_app.path_set = [] →
      (generate_app_module_fc env cfg fc secure_app tbl w).2.files fc = some []) := by
  have hloop := generate_app_module_fc_loop_ok env cfg tbl secure_app.path_set 0 []
    ((w.log (.fopen fc true)).write_file fc [])
    (fun k hk => by simpa using hwrite k hk)
    (fun p hp => hfit p hp)
  have hmap : (fun p : path_t =>
      p.path ++ "(/.*)? gen_context(".toList ++ (tbl p.path_type).label ++ ",s0)\n".toList)
      = fc_line tbl := by
    funext p; rfl
  rw [hmap]
  have h3 : (generate_app_module_fc env cfg fc secure_app tbl w).2.files fc
      = some (secure_app.path_set.map (fc_line tbl)).flatten := by
    simp only [generate_app_module_fc, hopen, fclose_files, if_true,
      if_neg (not_lt.mpr hclose)]
    rw [hloop.2.1]
    rfl
  refine ⟨?_, ?_, h3, ?_⟩
  · simp only [generate_app_module_fc, hopen]
    exact hloop.1
  · simp only [generate_app_module_fc, hopen, fclose_trace, written_lines_append]
    rw [hloop.2.2]
    simp [written_lines_append, written_lines]
  · intro hnil
    rw [h3, hnil]
    rfl

/-- C2 amended, at `demo` with its two paths: two lines, the labels of `exec` and `conf`. -/
theorem generate_app_module_fc_lines_witness :
    (generate_app_module_fc all_ok sample_cfg demo_fc_file demo_app demo_table
        empty_world).1 = 0 ∧
    (generate_app_module_fc all_ok sample_cfg demo_fc_file demo_app demo_table
        empty_world).2.files demo_fc_file
      = some ("/usr/bin/demo(/.*)? gen_context(system_u:object_r:demo_exec_t,s0)\n".toList
          ++ "/etc/demo(/.*)? gen_context(system_u:object_r:demo_conf_t,s0)\n".toList) := by
  have h := generate_app_module_fc_lines all_ok sample_cfg demo_fc_file demo_app demo_table
    empty_world rfl (by decide) (by decide) (by decide)
  exact ⟨h.1, by rw [h.2.2.1]; decide⟩

theorem generate_app_module_fc_fclose_fails (env : Env) (cfg : Config) (fc : CStr)
    (secure_app : secure_app_t) (tbl : label_table) (w : World)
    (hopen : env.fopen fc = none)
    (hwrite : ∀ k, k < secure_app.path_set.length → 0 ≤ (env.fputs k).ret)
    (hclose : env.fclose.ret < 0)
    (hfit : ∀ p ∈ secure_app.path_set,
      (fc_line tbl p).length + 1 ≤ cfg.SEC_LSM_MANAGER_MAX_SIZE_LINE_MODULE) :
    (generate_app_module_fc env cfg fc secure_app tbl w).1 = 0 ∧
    (generate_app_module_fc env cfg fc secure_app tbl w).2.files fc
      = some ((secure_app.path_set.map (fc_line tbl)).flatten.take env.fclose_flushed) := by
  have hloop := generate_app_module_fc_loop_ok env cfg tbl secure_app.path_set 0 []
    ((w.log (.fopen fc true)).write_file fc [])
    (fun k hk => by simpa using hwrite k hk) hfit
  constructor
  · simp only [generate_app_module_fc, hopen]
    exact hloop.1
  · simp only [generate_app_module_fc, hopen, fclose_files, if_true, if_pos hclose]
    rw [hloop.2.1]
    rfl

theorem generate_app_module_fc_fclose_fails_sample :
    fclose_fails.fopen demo_fc_file = none ∧
    (∀ k, k < demo_app.path_set.length → 0 ≤ (fclose_fails.fputs k).ret) ∧
    (generate_app_module_fc fclose_fails sample_cfg demo_fc_file demo_app demo_table
        empty_world).1 = 0 ∧
    (written_lines (generate_app_module_fc fclose_fails sample_cfg demo_fc_file demo_app
        demo_table empty_world).2.trace).length = 2 ∧
    (generate_app_module_fc fclose_fails sample_cfg demo_fc_file demo_app demo_table
        empty_world).2.files demo_fc_file = some [] := by
  decide

theorem generate_app_module_fc_single (env : Env) (cfg : Config) (fc : CStr)
    (secure_app : secure_app_t) (tbl : label_table) (w : World) (p : path_t)
    (hopen : env.fopen fc = none) (hset : secure_app.path_set = [p]) :
    written_lines (generate_app_module_fc env cfg fc secure_app tbl w).2.trace
      = written_lines w.trace
        ++ [(fc_line tbl p).take (cfg.SEC_LSM_MANAGER_MAX_SIZE_LINE_MODULE - 1)] := by
  simp only [generate_app_module_fc, hopen, hset, generate_app_module_fc_loop, snprintf_zeroed,
    fclose_trace]
  split <;>
    simp [written_lines_append, written_lines, generate_app_module_fc_loop, fc_line]

theorem generate_app_module_fc_long_label (env : Env) (cfg : Config) (fc : CStr)
    (secure_app : secure_app_t) (tbl : label_table) (w : World) (p : path_t)
    (hopen : env.fopen fc = none) (hset : secure_app.path_set = [p])
    (hlong : cfg.SEC_LSM_MANAGER_MAX_SIZE_LINE_MODULE ≤ (tbl p.path_type).label.length) :
    written_lines (generate_app_module_fc env cfg fc secure_app tbl w).2.trace
      ≠ written_lines w.trace ++ [fc_line tbl p] := by
  rw [generate_app_module_fc_single env cfg fc secure_app tbl w p hopen hset]
  intro h
  have h2 := List.append_cancel_left h
  simp only [List.cons.injEq, and_true] at h2
  have h3 := congrArg List.length h2
  simp only [List.length_take, fc_line, format_fc_line, List.length_append] at h3
  have hb : ("(/.*)? gen_context(".toList).length = 19 := rfl
  omega

/-- C2 as stated fails: with the line limit 2048 and a label of 2048 characters the
fc file opens, `fputs` and `fclose` succeed, yet the one line handed to `fputs`
has 2047 characters: it is not `<path>(/.*)? gen_context(<label>,s0)\n` but that
text cut short. -/
theorem generate_app_module_fc_truncated :
    all_ok.fopen demo_fc_file = none ∧ 0 ≤ (all_ok.fputs 0).ret ∧ 0 ≤ all_ok.fclose.ret ∧
    (generate_app_module_fc all_ok sample_cfg demo_fc_file one_path_app long_label_table
      empty_world).1 = 0 ∧
    (written_lines (generate_app_module_fc all_ok sample_cfg demo_fc_file one_path_app
        long_label_table empty_world).2.trace).map List.length = [2047] ∧
    written_lines (generate_app_module_fc all_ok sample_cfg demo_fc_file one_path_app
        long_label_table empty_world).2.trace
      ≠ ["/opt/demo".toList ++ "(/.*)? gen_context(".toList ++ List.replicate 2048 'x'
          ++ ",s0)\n".toList] := by
  refine ⟨rfl, by decide, by decide, rfl, ?_, ?_⟩
  · rw [generate_app_module_fc_single all_ok sample_cfg demo_fc_file one_path_app
      long_label_table empty_world { path := "/opt/demo".toList, path_type := .type_exec }
      rfl rfl]
    have h1 : ("/opt/demo".toList).length = 9 := rfl
    have h2 : ("(/.*)? gen_context(".toList).length = 19 := rfl
    have h3 : (",s0)\n".toList).length = 5 := rfl
    simp only [empty_world, written_lines, List.nil_append, List.map_cons, List.map_nil,
      List.length_take, fc_line, format_fc_line, long_label_table, List.length_append,
      List.length_replicate, h1, h2, h3, sample_cfg]
    rfl
  · exact generate_app_module_fc_long_label all_ok sample_cfg demo_fc_file one_path_app
      long_label_table empty_world { path := "/opt/demo".toList, path_type := .type_exec }
      rfl rfl (by
        show 2048 ≤ (List.replicate 2048 'x').length
        rw [List.length_replicate])

/-! ## C3, C4: the module layout -/

theorem get_selinux_rules_dir_length (cfg : Config) (value : Option CStr) (d : CStr)
    (h : get_selinux_rules_dir cfg value = some d) :
    d.length + 1 ≤ cfg.SEC_LSM_MANAGER_MAX_SIZE_DIR := by
  unfold get_selinux_rules_dir at h
  simp only at h
  split at h
  · exact absurd h (by simp)
  · simp only [Option.some.injEq] at h
    subst h
    omega

/-- C3. When the rules directory resolves to `rules_dir` and each composed path
`rules_dir/id.ext` has at most `SEC_LSM_MANAGER_MAX_SIZE_PATH - 1` characters,
`init_selinux_module` yields a layout whose te, if, fc and pp paths are exactly
`rules_dir/id.te`, `rules_dir/id.if`, `rules_dir/id.fc` and `rules_dir/id.pp`. -/
theorem init_selinux_module_paths (cfg : Config) (secure_app : secure_app_t) (rules_dir : CStr)
    (hdir : get_selinux_rules_dir cfg none = some rules_dir)
    (hfit : ∀ ext ∈ ["te".toList, "if".toList, "fc".toList, "pp".toList],
      (rules_dir ++ "/".toList ++ secure_app.id ++ ".".toList ++ ext).length
        ≤ cfg.SEC_LSM_MANAGER_MAX_SIZE_PATH - 1) :
    ∃ m, init_selinux_module cfg secure_app = some m ∧
      m.selinux_rules_dir = rules_dir ∧
      m.selinux_te_file = rules_dir ++ "/".toList ++ secure_app.id ++ ".te".toList ∧
      m.selinux_if_file = rules_dir ++ "/".toList ++ secure_app.id ++ ".if".toList ∧
      m.selinux_fc_file = rules_dir ++ "/".toList ++ secure_app.id ++ ".fc".toList ∧
      m.selinux_pp_file = rules_dir ++ "/".toList ++ secure_app.id ++ ".pp".toList := by
  have hlen := get_selinux_rules_dir_length cfg none rules_dir hdir
  have hcopy := secure_strncpy_fits [] cfg.SEC_LSM_MANAGER_MAX_SIZE_DIR rules_dir hlen
  have hte := hfit "te".toList (by simp)
  have hif := hfit "if".toList (by simp)
  have hfc := hfit "fc".toList (by simp)
  have hpp := hfit "pp".toList (by simp)
  have hpos : 0 < cfg.SEC_LSM_MANAGER_MAX_SIZE_PATH := by
    have h := hte
    simp only [List.length_append] at h
    have h2 : ("te".toList).length = 2 := rfl
    omega
  have e1 : snprintf [] cfg.SEC_LSM_MANAGER_MAX_SIZE_PATH
      (format_module_path rules_dir secure_app.id TE_EXTENSION)
      = format_module_path rules_dir secure_app.id TE_EXTENSION :=
    snprintf_fits _ _ _ (by simp only [format_module_path, TE_EXTENSION]; omega)
  have e2 : snprintf [] cfg.SEC_LSM_MANAGER_MAX_SIZE_PATH
      (format_module_path rules_dir secure_app.id IF_EXTENSION)
      = format_module_path rules_dir secure_app.id IF_EXTENSION :=
    snprintf_fits _ _ _ (by simp only [format_module_path, IF_EXTENSION]; omega)
  have e3 : snprintf [] cfg.SEC_LSM_MANAGER_MAX_SIZE_PATH
      (format_module_path rules_dir secure_app.id FC_EXTENSION)
      = format_module_path rules_dir secure_app.id FC_EXTENSION :=
    snprintf_fits _ _ _ (by simp only [format_module_path, FC_EXTENSION]; omega)
  have e4 : snprintf [] cfg.SEC_LSM_MANAGER_MAX_SIZE_PATH
      (format_module_path rules_dir secure_app.id PP_EXTENSION)
      = format_module_path rules_dir secure_app.id PP_EXTENSION :=
    snprintf_fits _ _ _ (by simp only [format_module_path, PP_EXTENSION]; omega)
  refine ⟨_, by simp only [init_selinux_module, hdir]; rfl, ?_, ?_, ?_, ?_, ?_⟩
  · exact hcopy
  · simp only [hcopy, e1]
    simp [format_module_path, TE_EXTENSION]
  · simp only [hcopy, e2]
    simp [format_module_path, IF_EXTENSION]
  · simp only [hcopy, e3]
    simp [format_module_path, FC_EXTENSION]
  · simp only [hcopy, e4]
    simp [format_module_path, PP_EXTENSION]

/-- C3, at `demo` under the default rules directory with a path limit of 1024. -/
theorem init_selinux_module_paths_witness :
    get_selinux_rules_dir sample_cfg none = some SELINUX_RULES_DIR ∧
    ∃ m, init_selinux_module sample_cfg demo_app = some m ∧
      m.selinux_rules_dir = SELINUX_RULES_DIR ∧
      m.selinux_te_file = SELINUX_RULES_DIR ++ "/".toList ++ demo_app.id ++ ".te".toList ∧
      m.selinux_if_file = SELINUX_RULES_DIR ++ "/".toList ++ demo_app.id ++ ".if".toList ∧
      m.selinux_fc_file = SELINUX_RULES_DIR ++ "/".toList ++ demo_app.id ++ ".fc".toList ∧
      m.selinux_pp_file = SELINUX_RULES_DIR ++ "/".toList ++ demo_app.id ++ ".pp".toList :=
  ⟨by decide,
   init_selinux_module_paths sample_cfg demo_app SELINUX_RULES_DIR (by decide) (by decide)⟩

/-- C4 as stated fails: with a path limit of 47 the composed te path of `demo`
has 48 characters, yet `init_selinux_module` yields a layout, and its te, if, fc
and pp paths are all the same 46 first characters. -/
theorem init_selinux_module_truncated :
    (SELINUX_RULES_DIR ++ "/".toList ++ demo_app.id ++ ".te".toList).length
      > tight_cfg.SEC_LSM_MANAGER_MAX_SIZE_PATH - 1 ∧
    ∃ m, init_selinux_module tight_cfg demo_app = some m ∧
      m.selinux_te_file = "/usr/share/sec-lsm-manager/selinux-rules/demo.".toList ∧
      m.selinux_if_file = m.selinux_te_file ∧
      m.selinux_fc_file = m.selinux_te_file ∧
      m.selinux_pp_file = m.selinux_te_file :=
  ⟨by decide, _, rfl, by decide, by decide, by decide, by decide⟩

/-- C4, amended. `init_selinux_module` reports no error for an over-long name:
whenever the rules directory resolves it yields a layout, and each artefact path
is made of the first `SEC_LSM_MANAGER_MAX_SIZE_PATH - 1` characters of
`rules_dir/id.ext`, so a longer composed path is stored truncated. -/
theorem init_selinux_module_total (cfg : Config) (secure_app : secure_app_t) (rules_dir : CStr)
    (hdir : get_selinux_rules_dir cfg none = some rules_dir) :
    ∃ m, init_selinux_module cfg secure_app = some m ∧
      m.selinux_te_file = (rules_dir ++ "/".toList ++ secure_app.id ++ ".te".toList).take
        (cfg.SEC_LSM_MANAGER_MAX_SIZE_PATH - 1) ∧
      m.selinux_if_file = (rules_dir ++ "/".toList ++ secure_app.id ++ ".if".toList).take
        (cfg.SEC_LSM_MANAGER_MAX_SIZE_PATH - 1) ∧
      m.selinux_fc_file = (rules_dir ++ "/".toList ++ secure_app.id ++ ".fc".toList).take
        (cfg.SEC_LSM_MANAGER_MAX_SIZE_PATH - 1) ∧
      m.selinux_pp_file = (rules_dir ++ "/".toList ++ secure_app.id ++ ".pp".toList).take
        (cfg.SEC_LSM_MANAGER_MAX_SIZE_PATH - 1) := by
  have hlen := get_selinux_rules_dir_length cfg none rules_dir hdir
  have hcopy := secure_strncpy_fits [] cfg.SEC_LSM_MANAGER_MAX_SIZE_DIR rules_dir hlen
  refine ⟨_, by simp only [init_selinux_module, hdir]; rfl, ?_, ?_, ?_, ?_⟩ <;>
    simp only [hcopy, snprintf_zeroed] <;>
    simp [format_module_path, TE_EXTENSION, IF_EXTENSION, FC_EXTENSION, PP_EXTENSION]

/-- C4 amended, at `demo` with the path limit 47. -/
theorem init_selinux_module_total_witness :
    get_selinux_rules_dir tight_cfg none = some SELINUX_RULES_DIR ∧
    ∃ m, init_selinux_module tight_cfg demo_app = some m ∧
      m.selinux_te_file = (SELINUX_RULES_DIR ++ "/".toList ++ demo_app.id ++ ".te".toList).take
        (tight_cfg.SEC_LSM_MANAGER_MAX_SIZE_PATH - 1) ∧
      m.selinux_if_file = (SELINUX_RULES_DIR ++ "/".toList ++ demo_app.id ++ ".if".toList).take
        (tight_cfg.SEC_LSM_MANAGER_MAX_SIZE_PATH - 1) ∧
      m.selinux_fc_file = (SELINUX_RULES_DIR ++ "/".toList ++ demo_app.id ++ ".fc".toList).take
        (tight_cfg.SEC_LSM_MANAGER_MAX_SIZE_PATH - 1) ∧
      m.selinux_pp_file = (SELINUX_RULES_DIR ++ "/".toList ++ demo_app.id ++ ".pp".toList).take
        (tight_cfg.SEC_LSM_MANAGER_MAX_SIZE_PATH - 1) :=
  ⟨by decide, init_selinux_module_total tight_cfg demo_app SELINUX_RULES_DIR (by decide)⟩

/-! ## C5: the rules directory -/

/-- C5. `get_selinux_rules_dir` resolves the directory as the explicit value if
given, else the value of SELINUX_RULES_DIR if set, else the compiled-in default;
it returns the resolved directory when its length is at most
`SEC_LSM_MANAGER_MAX_SIZE_DIR - 1` and NULL when its length is
`SEC_LSM_MANAGER_MAX_SIZE_DIR` or more. -/
theorem get_selinux_rules_dir_spec (cfg : Config) (value : Option CStr) :
    get_selinux_rules_dir cfg value
      = if ((spec_resolved_rules_dir cfg value).length : Int)
            ≤ (cfg.SEC_LSM_MANAGER_MAX_SIZE_DIR : Int) - 1
        then some (spec_resolved_rules_dir cfg value) else none := by
  have hres : (value.orElse fun _ => cfg.getenv_SELINUX_RULES_DIR).getD
      cfg.default_selinux_rules_dir = spec_resolved_rules_dir cfg value := by
    unfold spec_resolved_rules_dir
    cases value <;> cases h : cfg.getenv_SELINUX_RULES_DIR <;> simp [Option.orElse, h]
  unfold get_selinux_rules_dir
  simp only [hres]
  by_cases h : (spec_resolved_rules_dir cfg value).length ≥ cfg.SEC_LSM_MANAGER_MAX_SIZE_DIR
  · rw [if_pos h, if_neg (by omega)]
  · rw [if_neg h, if_pos (by omega)]

/-! ## C6: existence of the source artefacts -/

/-- C6. `check_module_files_exist` returns true if and only if the te, the if and
the fc file of the layout all exist; it returns false as soon as one of them is
missing (the te file, say), and its result depends on the file system only, not
on the policy store or the handle. -/
theorem check_module_files_exist_iff (cfg : Config) (secure_app : secure_app_t)
    (m : selinux_module_t) (w : World) (hm : init_selinux_module cfg secure_app = some m) :
    ∃ b, check_module_files_exist cfg secure_app w = some b ∧
      (b = true ↔ (w.file_exists m.selinux_te_file = true ∧
        w.file_exists m.selinux_if_file = true ∧ w.file_exists m.selinux_fc_file = true)) ∧
      (w.file_exists m.selinux_te_file = false → b = false) ∧
      (w.file_exists m.selinux_if_file = false → b = false) ∧
      (w.file_exists m.selinux_fc_file = false → b = false) ∧
      (∀ w2 : World, w2.files = w.files →
        check_module_files_exist cfg secure_app w2 = some b) := by
  refine ⟨check_app_module_files_exists m w, by simp [check_module_files_exist, hm], ?_, ?_, ?_,
    ?_, ?_⟩
  · simp only [check_app_module_files_exists, get_file_informations]
    rcases Bool.eq_false_or_eq_true (w.file_exists m.selinux_te_file) with h1 | h1 <;>
      rcases Bool.eq_false_or_eq_true (w.file_exists m.selinux_if_file) with h2 | h2 <;>
      rcases Bool.eq_false_or_eq_true (w.file_exists m.selinux_fc_file) with h3 | h3 <;>
      simp [h1, h2, h3]
  · intro h1
    simp only [check_app_module_files_exists, get_file_informations]
    rcases Bool.eq_false_or_eq_true (w.file_exists m.selinux_if_file) with h2 | h2 <;>
      rcases Bool.eq_false_or_eq_true (w.file_exists m.selinux_fc_file) with h3 | h3 <;>
      simp [h1, h2, h3]
  · intro h2
    simp only [check_app_module_files_exists, get_file_informations]
    rcases Bool.eq_false_or_eq_true (w.file_exists m.selinux_te_file) with h1 | h1 <;>
      rcases Bool.eq_false_or_eq_true (w.file_exists m.selinux_fc_file) with h3 | h3 <;>
      simp [h1, h2, h3]
  · intro h3
    simp only [check_app_module_files_exists, get_file_informations]
    rcases Bool.eq_false_or_eq_true (w.file_exists m.selinux_te_file) with h1 | h1 <;>
      rcases Bool.eq_false_or_eq_true (w.file_exists m.selinux_if_file) with h2 | h2 <;>
      simp [h1, h2, h3]
  · intro w2 hw
    simp [check_module_files_exist, hm, check_app_module_files_exists, get_file_informations,
      World.file_exists, hw]

/-- C6, at the probe scenario: `demo.te` was removed, the module is still loaded,
and the check returns false. -/
theorem check_module_files_exist_iff_witness :
    init_selinux_module sample_cfg demo_app = some demo_module ∧
    check_module_files_exist sample_cfg demo_app probe_world = some false := by
  have hm : init_selinux_module sample_cfg demo_app = some demo_module := by decide
  obtain ⟨b, hb, _, hte, _⟩ :=
    check_module_files_exist_iff sample_cfg demo_app demo_module probe_world hm
  have hfalse : b = false := hte (by decide)
  exact ⟨hm, by rw [hb, hfalse]⟩

/-! ## Effects of the calls -/

theorem removals_append (a b : List Event) :
    removals (a ++ b) = removals a ++ removals b := by
  induction a with
  | nil => rfl
  | cons e es ih => cases e <;> simp [removals, ih]

theorem failed_removals_append (a b : List Event) :
    failed_removals (a ++ b) = failed_removals a ++ failed_removals b := by
  induction a with
  | nil => rfl
  | cons e es ih =>
    cases e <;> simp [failed_removals, ih]
    split <;> simp

theorem process_template_fst (env : Env) (t d : CStr) (sa : secure_app_t) (w : World) :
    (process_template env t d sa w).1 = env.process_template t d := by
  unfold process_template
  simp only
  split <;> rfl

theorem process_template_trace (env : Env) (t d : CStr) (sa : secure_app_t) (w : World) :
    (process_template env t d sa w).2.trace
      = w.trace ++ [Event.process_template t d (env.process_template t d)] := by
  unfold process_template
  simp only
  split <;> rfl

theorem process_template_handle (env : Env) (t d : CStr) (sa : secure_app_t) (w : World) :
    (process_template env t d sa w).2.handle = w.handle := by
  unfold process_template
  simp only
  split <;> rfl

theorem process_template_modules (env : Env) (t d : CStr) (sa : secure_app_t) (w : World) :
    (process_template env t d sa w).2.modules = w.modules := by
  unfold process_template
  simp only
  split <;> rfl

theorem process_template_files (env : Env) (t d : CStr) (sa : secure_app_t) (w : World)
    (p : CStr) :
    (process_template env t d sa w).2.files p
      = if p = d then
          (if env.process_template t d < 0 then none else some (env.expansion t sa))
        else w.files p := by
  unfold process_template
  simp only
  split <;> simp

theorem remove_file_fst (env : Env) (q : CStr) (w : World) :
    (remove_file env q w).1 = if w.file_exists q = true then env.remove_file q else -ENOENT := by
  unfold remove_file
  simp only
  generalize (if w.file_exists q = true then env.remove_file q else -ENOENT) = rc
  split <;> rfl

theorem remove_file_snd (env : Env) (q : CStr) (w : World) :
    (remove_file env q w).2
      = if (remove_file env q w).1 < 0 then w.log (.remove_file q (remove_file env q w).1)
        else (w.log (.remove_file q (remove_file env q w).1)).delete_file q := by
  rw [remove_file_fst]
  unfold remove_file
  simp only
  generalize (if w.file_exists q = true then env.remove_file q else -ENOENT) = rc
  split <;> rfl

theorem remove_file_trace (env : Env) (q : CStr) (w : World) :
    (remove_file env q w).2.trace = w.trace ++ [Event.remove_file q (remove_file env q w).1] := by
  rw [remove_file_snd]
  split <;> rfl

theorem remove_file_handle (env : Env) (q : CStr) (w : World) :
    (remove_file env q w).2.handle = w.handle := by
  rw [remove_file_snd]
  split <;> rfl

theorem remove_file_modules (env : Env) (q : CStr) (w : World) :
    (remove_file env q w).2.modules = w.modules := by
  rw [remove_file_snd]
  split <;> rfl

theorem remove_file_files (env : Env) (q : CStr) (w : World) (p : CStr) :
    (remove_file env q w).2.files p
      = if 0 ≤ (remove_file env q w).1 ∧ p = q then none else w.files p := by
  rw [remove_file_snd]
  split
  · rename_i h
    have h2 : ¬ (0 ≤ (remove_file env q w).1) := not_le.mpr h
    simp [h2]
  · rename_i h
    have h2 : 0 ≤ (remove_file env q w).1 := not_lt.mp h
    by_cases hp : p = q <;> simp [hp, h2]

theorem remove_file_fst_missing (env : Env) (q : CStr) (w : World)
    (h : w.files q = none) : (remove_file env q w).1 < 0 := by
  rw [remove_file_fst]
  simp [World.file_exists, h, ENOENT]

theorem launch_compile_fst (env : Env) (pp id : CStr) (w : World) :
    (launch_compile env pp id w).1 = env.launch_compile id := by
  unfold launch_compile
  simp only
  split <;> rfl

theorem launch_compile_trace (env : Env) (pp id : CStr) (w : World) :
    (launch_compile env pp id w).2.trace
      = w.trace ++ [Event.launch_compile id (env.launch_compile id)] := by
  unfold launch_compile
  simp only
  split <;> rfl

theorem launch_compile_handle (env : Env) (pp id : CStr) (w : World) :
    (launch_compile env pp id w).2.handle = w.handle := by
  unfold launch_compile
  simp only
  split <;> rfl

theorem launch_compile_modules (env : Env) (pp id : CStr) (w : World) :
    (launch_compile env pp id w).2.modules = w.modules := by
  unfold launch_compile
  simp only
  split <;> rfl

theorem launch_compile_files (env : Env) (pp id : CStr) (w : World) (p : CStr) :
    (launch_compile env pp id w).2.files p
      = if 0 ≤ env.launch_compile id ∧ p = pp then some id else w.files p := by
  unfold launch_compile
  simp only
  split
  · rename_i h
    have h2 : ¬ (0 ≤ env.launch_compile id) := not_le.mpr h
    simp [h2]
  · rename_i h
    have h2 : 0 ≤ env.launch_compile id := not_lt.mp h
    by_cases hp : p = pp <;> simp [hp, h2]

theorem generate_app_module_fc_loop_fst (env : Env) (cfg : Config)
    (tbl : label_table) (paths : List path_t) :
    ∀ (i : Nat) (stream stream2 : CStr) (w w2 : World),
      (generate_app_module_fc_loop env cfg tbl i paths stream w).1
        = (generate_app_module_fc_loop env cfg tbl i paths stream2 w2).1 := by
  induction paths with
  | nil => intro i stream stream2 w w2; rfl
  | cons p rest ih =>
    intro i stream stream2 w w2
    simp only [generate_app_module_fc_loop]
    split
    · rfl
    · exact ih _ _ _ _ _

theorem generate_app_module_fc_loop_env (env env2 : Env) (cfg : Config)
    (tbl : label_table) (paths : List path_t) (h : env2.fputs = env.fputs) :
    ∀ (i : Nat) (stream : CStr) (w : World),
      generate_app_module_fc_loop env2 cfg tbl i paths stream w
        = generate_app_module_fc_loop env cfg tbl i paths stream w := by
  induction paths with
  | nil => intro i stream w; rfl
  | cons p rest ih =>
    intro i stream w
    simp only [generate_app_module_fc_loop, h, ih]

theorem generate_app_module_fc_loop_frame (env : Env) (cfg : Config)
    (tbl : label_table) (paths : List path_t) :
    ∀ (i : Nat) (stream : CStr) (w : World),
      (generate_app_module_fc_loop env cfg tbl i paths stream w).2.2.handle = w.handle ∧
      (generate_app_module_fc_loop env cfg tbl i paths stream w).2.2.modules = w.modules ∧
      removals (generate_app_module_fc_loop env cfg tbl i paths stream w).2.2.trace
        = removals w.trace ∧
      failed_removals (generate_app_module_fc_loop env cfg tbl i paths stream w).2.2.trace
        = failed_removals w.trace ∧
      (generate_app_module_fc_loop env cfg tbl i paths stream w).2.2.files = w.files := by
  induction paths with
  | nil => intro i stream w; simp [generate_app_module_fc_loop]
  | cons q rest ih =>
    intro i stream w
    simp only [generate_app_module_fc_loop]
    split
    · simp [removals_append, failed_removals_append, removals, failed_removals]
    · obtain ⟨h1, h2, h3, h4, h5⟩ := ih (i + 1)
        (stream ++ snprintf [] cfg.SEC_LSM_MANAGER_MAX_SIZE_LINE_MODULE
          (format_fc_line q.path (tbl q.path_type).label))
        (w.log (.fputs (snprintf [] cfg.SEC_LSM_MANAGER_MAX_SIZE_LINE_MODULE
          (format_fc_line q.path (tbl q.path_type).label)) (env.fputs i).ret))
      refine ⟨by rw [h1]; rfl, by rw [h2]; rfl, ?_, ?_, ?_⟩
      · rw [h3]; simp [removals_append, removals]
      · rw [h4]; simp [failed_removals_append, failed_removals]
      · rw [h5]; rfl

theorem generate_app_module_fc_loop_zero (env : Env) (cfg : Config)
    (tbl : label_table) (paths : List path_t) (hw : ∀ k, 0 ≤ (env.fputs k).ret) :
    ∀ (i : Nat) (stream : CStr) (w : World),
      (generate_app_module_fc_loop env cfg tbl i paths stream w).1 = 0 := by
  induction paths with
  | nil => intro i stream w; rfl
  | cons p rest ih =>
    intro i stream w
    simp only [generate_app_module_fc_loop, if_neg (not_lt.mpr (hw i))]
    exact ih _ _ _

theorem generate_app_module_fc_fst (env : Env) (cfg : Config) (fc : CStr)
    (sa : secure_app_t) (tbl : label_table) (w w2 : World) :
    (generate_app_module_fc env cfg fc sa tbl w).1
      = (generate_app_module_fc env cfg fc sa tbl w2).1 := by
  unfold generate_app_module_fc
  split
  · rfl
  · exact generate_app_module_fc_loop_fst env cfg tbl _ _ _ _ _ _

theorem generate_app_module_fc_env (env env2 : Env) (cfg : Config) (fc : CStr)
    (sa : secure_app_t) (tbl : label_table) (w : World)
    (h1 : env2.fopen = env.fopen) (h2 : env2.fputs = env.fputs) (h3 : env2.fclose = env.fclose)
    (h4 : env2.fclose_flushed = env.fclose_flushed) :
    generate_app_module_fc env2 cfg fc sa tbl w = generate_app_module_fc env cfg fc sa tbl w := by
  unfold generate_app_module_fc fclose
  rw [h1, h3, h4]
  split
  · rfl
  · simp only [generate_app_module_fc_loop_env env env2 cfg tbl _ h2]

theorem generate_app_module_fc_frame (env : Env) (cfg : Config) (fc : CStr)
    (sa : secure_app_t) (tbl : label_table) (w : World) :
    (generate_app_module_fc env cfg fc sa tbl w).2.handle = w.handle ∧
    (generate_app_module_fc env cfg fc sa tbl w).2.modules = w.modules ∧
    removals (generate_app_module_fc env cfg fc sa tbl w).2.trace = removals w.trace ∧
    failed_removals (generate_app_module_fc env cfg fc sa tbl w).2.trace
      = failed_removals w.trace ∧
    (∀ p, p ≠ fc → (generate_app_module_fc env cfg fc sa tbl w).2.files p = w.files p) := by
  unfold generate_app_module_fc
  split
  · simp [removals_append, failed_removals_append, removals, failed_removals]
  · obtain ⟨h1, h2, h3, h4, h5⟩ := generate_app_module_fc_loop_frame env cfg tbl
      sa.path_set 0 [] ((w.log (.fopen fc true)).write_file fc [])
    refine ⟨?_, ?_, ?_, ?_, ?_⟩
    · simp [fclose_handle, h1]
    · simp [fclose_modules, h2]
    · simp [fclose_trace, removals_append, h3, removals]
    · simp [fclose_trace, failed_removals_append, h4, failed_removals]
    · intro p hp
      simp [fclose_files, h5, hp]

theorem generate_app_module_fc_failed_open (env : Env) (cfg : Config) (fc : CStr)
    (sa : secure_app_t) (tbl : label_table) (w : World) (hw : ∀ k, 0 ≤ (env.fputs k).ret)
    (hneg : (generate_app_module_fc env cfg fc sa tbl w).1 < 0) :
    (generate_app_module_fc env cfg fc sa tbl w).2.files = w.files := by
  unfold generate_app_module_fc at hneg ⊢
  split
  · rfl
  · rename_i h
    rw [h] at hneg
    simp only at hneg
    rw [generate_app_module_fc_loop_zero env cfg tbl _ hw] at hneg
    exact absurd hneg (by decide)

/-! ## C7: rollback of the generator -/

/-- C7. In `generate_app_module_files`, with `r1`, `r2`, `r3` the results of
expanding the te template, expanding the if template and writing the fc file:
if the te expansion fails no `remove_file` call is made; if the if expansion
fails the only call is on the te file; if writing the fc file fails the calls
are on the if file and then on the te file; on success no call is made. -/
theorem generate_app_module_files_rollback (env : Env) (cfg : Config) (m : selinux_module_t)
    (sa : secure_app_t) (tbl : label_table) (w : World) :
    let r1 := process_template env m.selinux_te_template_file m.selinux_te_file sa w
    let r2 := process_template env m.selinux_if_template_file m.selinux_if_file sa r1.2
    let r3 := generate_app_module_fc env cfg m.selinux_fc_file sa tbl r2.2
    let r := generate_app_module_files env cfg m sa tbl w
    (r1.1 < 0 → removals r.2.trace = removals w.trace) ∧
    (0 ≤ r1.1 → r2.1 < 0 → removals r.2.trace = removals w.trace ++ [m.selinux_te_file]) ∧
    (0 ≤ r1.1 → 0 ≤ r2.1 → r3.1 < 0 →
      removals r.2.trace = removals w.trace ++ [m.selinux_if_file, m.selinux_te_file]) ∧
    (0 ≤ r1.1 → 0 ≤ r2.1 → 0 ≤ r3.1 → removals r.2.trace = removals w.trace) := by
  intro r1 r2 r3 r
  have hfc := (generate_app_module_fc_frame env cfg m.selinux_fc_file sa tbl r2.2).2.2.1
  have h12 : removals r2.2.trace = removals w.trace := by
    simp [r2, r1, process_template_trace, removals_append, removals]
  refine ⟨?_, ?_, ?_, ?_⟩
  · intro h1
    have hr : r = r1 := by
      simp only [r, generate_app_module_files]
      rw [if_pos h1]
    rw [hr]
    simp [r1, process_template_trace, removals_append, removals]
  · intro h1 h2
    have hr : r = (r2.1, (remove_file env m.selinux_te_file r2.2).2) := by
      simp only [r, generate_app_module_files]
      rw [if_neg (not_lt.mpr h1), if_pos h2]
    rw [hr]
    simp [remove_file_trace, removals_append, removals, h12]
  · intro h1 h2 h3
    have hr : r = (r3.1, (remove_file env m.selinux_te_file
        (remove_file env m.selinux_if_file r3.2).2).2) := by
      simp only [r, generate_app_module_files]
      rw [if_neg (not_lt.mpr h1), if_neg (not_lt.mpr h2), if_pos h3]
    rw [hr]
    simp [remove_file_trace, removals_append, removals, hfc, h12]
  · intro h1 h2 h3
    have hr : r = r3 := by
      simp only [r, generate_app_module_files]
      rw [if_neg (not_lt.mpr h1), if_neg (not_lt.mpr h2), if_neg (not_lt.mpr h3)]
    rw [hr]
    simp only [r3, hfc, h12]

/-! ## Effects of the generator and of the removals -/

theorem generate_app_module_files_fst (env : Env) (cfg : Config) (m : selinux_module_t)
    (sa : secure_app_t) (tbl : label_table) (w : World) :
    (generate_app_module_files env cfg m sa tbl w).1
      = if env.process_template m.selinux_te_template_file m.selinux_te_file < 0 then
          env.process_template m.selinux_te_template_file m.selinux_te_file
        else if env.process_template m.selinux_if_template_file m.selinux_if_file < 0 then
          env.process_template m.selinux_if_template_file m.selinux_if_file
        else (generate_app_module_fc env cfg m.selinux_fc_file sa tbl w).1 := by
  unfold generate_app_module_files
  simp only [process_template_fst]
  by_cases h1 : env.process_template m.selinux_te_template_file m.selinux_te_file < 0
  · rw [if_pos h1, if_pos h1]
    exact process_template_fst _ _ _ _ _
  · rw [if_neg h1, if_neg h1]
    by_cases h2 : env.process_template m.selinux_if_template_file m.selinux_if_file < 0
    · rw [if_pos h2, if_pos h2]
    · rw [if_neg h2, if_neg h2]
      have e := generate_app_module_fc_fst env cfg m.selinux_fc_file sa tbl
        (process_template env m.selinux_if_template_file m.selinux_if_file sa
          (process_template env m.selinux_te_template_file m.selinux_te_file sa w).2).2 w
      split <;> exact e

theorem generate_app_module_files_handle (env : Env) (cfg : Config) (m : selinux_module_t)
    (sa : secure_app_t) (tbl : label_table) (w : World) :
    (generate_app_module_files env cfg m sa tbl w).2.handle = w.handle := by
  unfold generate_app_module_files
  simp only
  split
  · simp [process_template_handle]
  · split
    · simp [remove_file_handle, process_template_handle]
    · split
      · simp [remove_file_handle, process_template_handle,
          (generate_app_module_fc_frame env cfg m.selinux_fc_file sa tbl _).1]
      · simp [process_template_handle,
          (generate_app_module_fc_frame env cfg m.selinux_fc_file sa tbl _).1]

theorem generate_app_module_files_modules (env : Env) (cfg : Config) (m : selinux_module_t)
    (sa : secure_app_t) (tbl : label_table) (w : World) :
    (generate_app_module_files env cfg m sa tbl w).2.modules = w.modules := by
  unfold generate_app_module_files
  simp only
  split
  · simp [process_template_modules]
  · split
    · simp [remove_file_modules, process_template_modules]
    · split
      · simp [remove_file_modules, process_template_modules,
          (generate_app_module_fc_frame env cfg m.selinux_fc_file sa tbl _).2.1]
      · simp [process_template_modules,
          (generate_app_module_fc_frame env cfg m.selinux_fc_file sa tbl _).2.1]

theorem process_template_env (env env2 : Env) (t d : CStr) (sa : secure_app_t) (w : World)
    (h1 : env2.process_template = env.process_template) (h2 : env2.expansion = env.expansion) :
    process_template env2 t d sa w = process_template env t d sa w := by
  unfold process_template
  rw [h1, h2]

theorem generate_app_module_files_fst_env (env env2 : Env) (cfg : Config)
    (m : selinux_module_t) (sa : secure_app_t) (tbl : label_table) (w : World)
    (h1 : env2.process_template = env.process_template)
    (h3 : env2.fopen = env.fopen) (h4 : env2.fputs = env.fputs)
    (h5 : env2.fclose = env.fclose) (h5b : env2.fclose_flushed = env.fclose_flushed) :
    (generate_app_module_files env2 cfg m sa tbl w).1
      = (generate_app_module_files env cfg m sa tbl w).1 := by
  rw [generate_app_module_files_fst, generate_app_module_files_fst, h1,
    generate_app_module_fc_env env env2 cfg _ sa tbl w h3 h4 h5 h5b]

theorem generate_app_module_files_ok_env (env env2 : Env) (cfg : Config)
    (m : selinux_module_t) (sa : secure_app_t) (tbl : label_table) (w : World)
    (h1 : env2.process_template = env.process_template) (h2 : env2.expansion = env.expansion)
    (h3 : env2.fopen = env.fopen) (h4 : env2.fputs = env.fputs)
    (h5 : env2.fclose = env.fclose) (h5b : env2.fclose_flushed = env.fclose_flushed)
    (hok : 0 ≤ (generate_app_module_files env cfg m sa tbl w).1) :
    generate_app_module_files env2 cfg m sa tbl w
      = generate_app_module_files env cfg m sa tbl w := by
  unfold generate_app_module_files at hok ⊢
  simp only [process_template_env env env2 _ _ sa _ h1 h2,
    generate_app_module_fc_env env env2 cfg _ sa tbl _ h3 h4 h5 h5b] at hok ⊢
  split
  · rfl
  · rename_i ha
    rw [if_neg ha] at hok
    split
    · rename_i hb
      rw [if_pos hb] at hok
      exact absurd hb (not_lt.mpr hok)
    · rename_i hb
      rw [if_neg hb] at hok
      split
      · rename_i hc
        rw [if_pos hc] at hok
        exact absurd hc (not_lt.mpr hok)
      · rfl

theorem remove_app_module_files_handle (env : Env) (m : selinux_module_t) (w : World) :
    (remove_app_module_files env m w).2.handle = w.handle := by
  unfold remove_app_module_files
  simp only
  split
  · simp [remove_file_handle]
  · split <;> simp [remove_file_handle]

theorem remove_app_module_files_modules (env : Env) (m : selinux_module_t) (w : World) :
    (remove_app_module_files env m w).2.modules = w.modules := by
  unfold remove_app_module_files
  simp only
  split
  · simp [remove_file_modules]
  · split <;> simp [remove_file_modules]

theorem remove_pp_file_handle (env : Env) (m : selinux_module_t) (w : World) :
    (remove_pp_file env m w).2.handle = w.handle :=
  remove_file_handle env _ w

theorem remove_pp_file_modules (env : Env) (m : selinux_module_t) (w : World) :
    (remove_pp_file env m w).2.modules = w.modules :=
  remove_file_modules env _ w

/-! ## The policy-store handle -/

theorem destroy_semanage_handle_none (env : Env) (w : World) (h : w.handle = none) :
    destroy_semanage_handle env w = none := by
  simp [destroy_semanage_handle, h]

theorem destroy_semanage_handle_some (env : Env) (w : World) (r : Int × World)
    (h : destroy_semanage_handle env w = some r) :
    r.2.files = w.files ∧ r.2.modules = w.modules ∧ r.2.handle = none ∧
    failed_removals r.2.trace = failed_removals w.trace ∧
    removals r.2.trace = removals w.trace := by
  unfold destroy_semanage_handle at h
  cases hh : w.handle with
  | none => simp [hh] at h
  | some hd =>
    simp only [hh] at h
    split at h
    · simp only [Option.some.injEq] at h
      subst h
      simp only [semanage_disconnect, semanage_handle_destroy]
      split <;>
        simp [failed_removals_append, removals_append, failed_removals, removals]
    · simp only [Option.some.injEq] at h
      subst h
      simp [semanage_handle_destroy, failed_removals_append, removals_append, failed_removals,
        removals]

theorem destroy_semanage_handle_isSome (env : Env) (w : World) :
    (destroy_semanage_handle env w).isSome = w.handle.isSome := by
  unfold destroy_semanage_handle
  cases hh : w.handle with
  | none => rfl
  | some hd =>
    simp only
    split <;> rfl

theorem create_selinux_rules_end2_map (env : Env) (rc : Int) (w : World) :
    (create_selinux_rules_end2 env rc w).map Prod.fst = w.handle.map (fun _ => rc) := by
  unfold create_selinux_rules_end2
  have h := destroy_semanage_handle_isSome env w
  cases hd : destroy_semanage_handle env w with
  | none =>
    rw [hd] at h
    cases hh : w.handle with
    | none => rfl
    | some x => rw [hh] at h; simp at h
  | some r =>
    rw [hd] at h
    cases hh : w.handle with
    | none => rw [hh] at h; simp at h
    | some x => rfl

theorem create_selinux_rules_end2_some (env : Env) (rc : Int) (w : World) (r : Int × World)
    (h : create_selinux_rules_end2 env rc w = some r) :
    r.1 = rc ∧ r.2.files = w.files ∧ r.2.modules = w.modules ∧
    failed_removals r.2.trace = failed_removals w.trace := by
  unfold create_selinux_rules_end2 at h
  cases hd : destroy_semanage_handle env w with
  | none => simp [hd] at h
  | some d =>
    simp only [hd, Option.some.injEq] at h
    subst h
    obtain ⟨h1, h2, _, h4, _⟩ := destroy_semanage_handle_some env w d hd
    exact ⟨rfl, h1, h2, h4⟩

theorem install_module_none (env : Env) (pp : CStr) (w : World) (h : w.handle = none) :
    install_module env pp w = none := by
  simp [install_module, semanage_module_install_file, h]

theorem install_module_env (env env2 : Env) (pp : CStr) (w : World)
    (h1 : env2.semanage_module_install_file = env.semanage_module_install_file)
    (h2 : env2.semanage_commit = env.semanage_commit) :
    install_module env2 pp w = install_module env pp w := by
  unfold install_module semanage_module_install_file semanage_commit
  rw [h1, h2]

theorem launch_compile_env (env env2 : Env) (pp id : CStr) (w : World)
    (h : env2.launch_compile = env.launch_compile) :
    launch_compile env2 pp id w = launch_compile env pp id w := by
  unfold launch_compile
  rw [h]

theorem create_selinux_rules_steps_none (env : Env) (cfg : Config) (m : selinux_module_t)
    (sa : secure_app_t) (tbl : label_table) (w : World) (h : w.handle = none) :
    create_selinux_rules_steps env cfg m sa tbl w = none := by
  have hg : (generate_app_module_files env cfg m sa tbl w).2.handle = none := by
    rw [generate_app_module_files_handle, h]
  have hc : (launch_compile env m.selinux_pp_file sa.id
      (generate_app_module_files env cfg m sa tbl w).2).2.handle = none := by
    rw [launch_compile_handle, hg]
  unfold create_selinux_rules_steps
  simp only
  split
  · simp [create_selinux_rules_end2, destroy_semanage_handle_none env _ hg]
  · split
    · have hr : (remove_app_module_files env m (launch_compile env m.selinux_pp_file sa.id
          (generate_app_module_files env cfg m sa tbl w).2).2).2.handle = none := by
        rw [remove_app_module_files_handle, hc]
      simp [create_selinux_rules_error3, create_selinux_rules_end2,
        destroy_semanage_handle_none env _ hr]
    · rw [install_module_none env _ _ hc]

theorem create_semanage_handle_error_some (env : Env) (rc : Int) (w : World) (r : Int × World)
    (h : create_semanage_handle_error env rc w = some r) :
    r.1 = rc ∧ r.2.files = w.files ∧ r.2.modules = w.modules ∧ r.2.handle = none ∧
    failed_removals r.2.trace = failed_removals w.trace := by
  unfold create_semanage_handle_error at h
  cases hd : destroy_semanage_handle env w with
  | none => simp [hd] at h
  | some d =>
    simp only [hd, Option.some.injEq] at h
    subst h
    obtain ⟨h1, h2, h3, h4, _⟩ := destroy_semanage_handle_some env w d hd
    exact ⟨rfl, h1, h2, h3, h4⟩

theorem create_semanage_handle_some (env : Env) (w : World) (r : Int × World)
    (h : create_semanage_handle env w = some r) :
    r.2.files = w.files ∧ r.2.modules = w.modules ∧
    failed_removals r.2.trace = failed_removals w.trace := by
  unfold create_semanage_handle at h
  simp only at h
  cases hs : semanage_set_create_store 1 (semanage_handle_create env w) with
  | none => simp [hs] at h
  | some w2 =>
    have e2 : w2.files = w.files ∧ w2.modules = w.modules ∧
        failed_removals w2.trace = failed_removals w.trace := by
      unfold semanage_set_create_store at hs
      split at hs
      · simp at hs
      · simp only [Option.some.injEq] at hs
        subst hs
        simp [semanage_handle_create, failed_removals_append, failed_removals]
    simp only [hs] at h
    cases hc : semanage_connect env w2 with
    | none => simp [hc] at h
    | some c =>
      have e3 : c.2.files = w.files ∧ c.2.modules = w.modules ∧
          failed_removals c.2.trace = failed_removals w.trace := by
        unfold semanage_connect at hc
        split at hc
        · simp at hc
        · simp only at hc
          split at hc <;>
            · simp only [Option.some.injEq] at hc
              subst hc
              simp [failed_removals_append, failed_removals, e2]
      simp only [hc] at h
      split at h
      · obtain ⟨_, h1, h2, _, h4⟩ := create_semanage_handle_error_some env _ _ _ h
        exact ⟨h1.trans e3.1, h2.trans e3.2.1, h4.trans e3.2.2⟩
      · cases hp : semanage_set_default_priority env 400 c.2 with
        | none => simp [hp] at h
        | some pr =>
          have e4 : pr.2.files = w.files ∧ pr.2.modules = w.modules ∧
              failed_removals pr.2.trace = failed_removals w.trace := by
            unfold semanage_set_default_priority at hp
            split at hp
            · simp at hp
            · simp only at hp
              split at hp <;>
                · simp only [Option.some.injEq] at hp
                  subst hp
                  simp [failed_removals_append, failed_removals, e3]
          simp only [hp] at h
          split at h
          · obtain ⟨_, h1, h2, _, h4⟩ := create_semanage_handle_error_some env _ _ _ h
            exact ⟨h1.trans e4.1, h2.trans e4.2.1, h4.trans e4.2.2⟩
          · simp only [Option.some.injEq] at h
            subst h
            exact e4

theorem create_semanage_handle_error_env (env env2 : Env) (rc : Int) (w : World) :
    (create_semanage_handle_error env2 rc w = none ∧
      create_semanage_handle_error env rc w = none) ∨
    ∃ r r2, create_semanage_handle_error env rc w = some r ∧
      create_semanage_handle_error env2 rc w = some r2 ∧ r2.1 = r.1 ∧
      r.2.handle = none ∧ r2.2.handle = none := by
  cases hh : w.handle with
  | none =>
    left
    simp [create_semanage_handle_error, destroy_semanage_handle_none _ w hh]
  | some x =>
    right
    have i1 := destroy_semanage_handle_isSome env w
    have i2 := destroy_semanage_handle_isSome env2 w
    rw [hh] at i1 i2
    cases hd1 : destroy_semanage_handle env w with
    | none => rw [hd1] at i1; simp at i1
    | some d1 =>
      cases hd2 : destroy_semanage_handle env2 w with
      | none => rw [hd2] at i2; simp at i2
      | some d2 =>
        refine ⟨(rc, d1.2), (rc, d2.2), by simp [create_semanage_handle_error, hd1],
          by simp [create_semanage_handle_error, hd2], rfl, ?_, ?_⟩
        · exact (destroy_semanage_handle_some env w d1 hd1).2.2.1
        · exact (destroy_semanage_handle_some env2 w d2 hd2).2.2.1

theorem create_semanage_handle_env (env env2 : Env) (w : World)
    (h1 : env2.semanage_handle_create = env.semanage_handle_create)
    (h2 : env2.semanage_connect = env.semanage_connect)
    (h3 : env2.semanage_set_default_priority = env.semanage_set_default_priority) :
    (create_semanage_handle env2 w = none ∧ create_semanage_handle env w = none) ∨
    ∃ r r2, create_semanage_handle env w = some r ∧
      create_semanage_handle env2 w = some r2 ∧ r2.1 = r.1 ∧
      (r2 = r ∨ (r.2.handle = none ∧ r2.2.handle = none)) := by
  have e1 : semanage_handle_create env2 w = semanage_handle_create env w := by
    unfold semanage_handle_create
    rw [h1]
  have e2 : ∀ x, semanage_connect env2 x = semanage_connect env x := by
    intro x
    unfold semanage_connect
    rw [h2]
  have e3 : ∀ x, semanage_set_default_priority env2 400 x
      = semanage_set_default_priority env 400 x := by
    intro x
    unfold semanage_set_default_priority
    rw [h3]
  unfold create_semanage_handle
  simp only [e1, e2, e3]
  cases semanage_set_create_store 1 (semanage_handle_create env w) with
  | none => left; exact ⟨rfl, rfl⟩
  | some w2 =>
    simp only
    cases semanage_connect env w2 with
    | none => left; exact ⟨rfl, rfl⟩
    | some c =>
      simp only
      split
      · rcases create_semanage_handle_error_env env env2 (-c.1.errno) c.2 with h | h
        · left; exact h
        · right
          obtain ⟨r, r2, q1, q2, q3, q4, q5⟩ := h
          exact ⟨r, r2, q1, q2, q3, Or.inr ⟨q4, q5⟩⟩
      · cases semanage_set_default_priority env 400 c.2 with
        | none => left; exact ⟨rfl, rfl⟩
        | some pr =>
          simp only
          split
          · rcases create_semanage_handle_error_env env env2 (-pr.1.errno) pr.2 with h | h
            · left; exact h
            · right
              obtain ⟨r, r2, q1, q2, q3, q4, q5⟩ := h
              exact ⟨r, r2, q1, q2, q3, Or.inr ⟨q4, q5⟩⟩
          · right
            exact ⟨_, _, rfl, rfl, rfl, Or.inl rfl⟩

theorem create_selinux_rules_steps_env (env env2 : Env) (cfg : Config) (m : selinux_module_t)
    (sa : secure_app_t) (tbl : label_table) (w : World)
    (h1 : env2.process_template = env.process_template) (h2 : env2.expansion = env.expansion)
    (h3 : env2.fopen = env.fopen) (h4 : env2.fputs = env.fputs)
    (h5 : env2.fclose = env.fclose) (h5b : env2.fclose_flushed = env.fclose_flushed)
    (h6 : env2.launch_compile = env.launch_compile)
    (h7 : env2.semanage_module_install_file = env.semanage_module_install_file)
    (h8 : env2.semanage_commit = env.semanage_commit) :
    (create_selinux_rules_steps env2 cfg m sa tbl w).map Prod.fst
      = (create_selinux_rules_steps env cfg m sa tbl w).map Prod.fst := by
  have hg := generate_app_module_files_fst_env env env2 cfg m sa tbl w h1 h3 h4 h5 h5b
  unfold create_selinux_rules_steps
  simp only [hg]
  by_cases hneg : (generate_app_module_files env cfg m sa tbl w).1 < 0
  · rw [if_pos hneg, if_pos hneg, create_selinux_rules_end2_map, create_selinux_rules_end2_map,
      generate_app_module_files_handle, generate_app_module_files_handle]
  · rw [if_neg hneg, if_neg hneg]
    rw [generate_app_module_files_ok_env env env2 cfg m sa tbl w h1 h2 h3 h4 h5 h5b
      (not_lt.mp hneg)]
    simp only [launch_compile_env env env2 _ _ _ h6, install_module_env env env2 _ _ h7 h8]
    split
    · simp only [create_selinux_rules_error3, create_selinux_rules_end2_map,
        remove_app_module_files_handle]
    · cases install_module env m.selinux_pp_file (launch_compile env m.selinux_pp_file sa.id
          (generate_app_module_files env cfg m sa tbl w).2).2 with
      | none => rfl
      | some i =>
        simp only
        split
        · simp only [create_selinux_rules_error4, create_selinux_rules_error3,
            create_selinux_rules_end2_map, remove_app_module_files_handle,
            remove_pp_file_handle]
        · simp only [create_selinux_rules_end2_map]

theorem create_selinux_rules_with_env (env env2 : Env) (cfg : Config) (m : selinux_module_t)
    (sa : secure_app_t) (tbl : label_table) (w : World)
    (h1 : env2.process_template = env.process_template) (h2 : env2.expansion = env.expansion)
    (h3 : env2.fopen = env.fopen) (h4 : env2.fputs = env.fputs)
    (h5 : env2.fclose = env.fclose) (h5b : env2.fclose_flushed = env.fclose_flushed)
    (h6 : env2.launch_compile = env.launch_compile)
    (h7 : env2.semanage_module_install_file = env.semanage_module_install_file)
    (h8 : env2.semanage_commit = env.semanage_commit)
    (h9 : env2.semanage_handle_create = env.semanage_handle_create)
    (h10 : env2.semanage_connect = env.semanage_connect)
    (h11 : env2.semanage_set_default_priority = env.semanage_set_default_priority) :
    (create_selinux_rules_with env2 cfg m sa tbl w).map Prod.fst
      = (create_selinux_rules_with env cfg m sa tbl w).map Prod.fst := by
  unfold create_selinux_rules_with
  rcases create_semanage_handle_env env env2 w h9 h10 h11 with ⟨a, b⟩ | ⟨r, r2, a, b, c, d⟩
  · rw [a, b]
  · rw [a, b]
    simp only [c]
    by_cases hneg : r.1 < 0
    · rw [if_pos hneg, if_pos hneg]
      simp [c]
    · rw [if_neg hneg, if_neg hneg]
      rcases d with d | ⟨d1, d2⟩
      · rw [d]
        exact create_selinux_rules_steps_env env env2 cfg m sa tbl r.2 h1 h2 h3 h4 h5 h5b h6
          h7 h8
      · rw [create_selinux_rules_steps_none env cfg m sa tbl r.2 d1,
          create_selinux_rules_steps_none env2 cfg m sa tbl r2.2 d2]

theorem create_selinux_rules_steps_first_error (env : Env) (cfg : Config)
    (m : selinux_module_t) (sa : secure_app_t) (tbl : label_table) (w : World) (rc : Int)
    (w2 : World) (h : create_selinux_rules_steps env cfg m sa tbl w = some (rc, w2)) :
    let g := generate_app_module_files env cfg m sa tbl w
    let c := launch_compile env m.selinux_pp_file sa.id g.2
    (g.1 < 0 ∧ rc = g.1) ∨
    (0 ≤ g.1 ∧ c.1 < 0 ∧ rc = c.1) ∨
    (0 ≤ g.1 ∧ 0 ≤ c.1 ∧
      ∃ i, install_module env m.selinux_pp_file c.2 = some i ∧ rc = i.1) := by
  intro g c
  unfold create_selinux_rules_steps at h
  simp only at h
  by_cases hg : g.1 < 0
  · left
    rw [if_pos hg] at h
    exact ⟨hg, (create_selinux_rules_end2_some env _ _ _ h).1⟩
  · right
    rw [if_neg hg] at h
    by_cases hc : c.1 < 0
    · left
      rw [if_pos hc] at h
      exact ⟨not_lt.mp hg, hc, (create_selinux_rules_end2_some env _ _ _ h).1⟩
    · right
      rw [if_neg hc] at h
      refine ⟨not_lt.mp hg, not_lt.mp hc, ?_⟩
      cases hi : install_module env m.selinux_pp_file c.2 with
      | none =>
        have hi2 : install_module env m.selinux_pp_file
            (launch_compile env m.selinux_pp_file sa.id
              (generate_app_module_files env cfg m sa tbl w).2).2 = none := hi
        simp [hi2] at h
      | some i =>
        have hi2 : install_module env m.selinux_pp_file
            (launch_compile env m.selinux_pp_file sa.id
              (generate_app_module_files env cfg m sa tbl w).2).2 = some i := hi
        simp only [hi2] at h
        refine ⟨i, rfl, ?_⟩
        split at h
        · exact (create_selinux_rules_end2_some env _ _ _ h).1
        · exact (create_selinux_rules_end2_some env _ _ _ h).1

/-! ## C9: the primary error survives the rollback -/

/-- C9. The value `generate_app_module_files` returns is the code of its first
failing step (te expansion, if expansion, fc file), and a failing value returned
by `create_selinux_rules` is the code of its first failing step (handle creation,
generation, compilation, store install). Neither value depends on what
`remove_file` and `semanage_disconnect` answer during the rollback and the
release of the handle: replacing these answers by any others leaves both
returned values unchanged. -/
theorem rollback_keeps_primary_error (env : Env) (cfg : Config) (m : selinux_module_t)
    (sa : secure_app_t) (tbl : label_table) (w : World) (rm : CStr → Int) (dis : Outcome) :
    ((generate_app_module_files env cfg m sa tbl w).1
      = if env.process_template m.selinux_te_template_file m.selinux_te_file < 0 then
          env.process_template m.selinux_te_template_file m.selinux_te_file
        else if env.process_template m.selinux_if_template_file m.selinux_if_file < 0 then
          env.process_template m.selinux_if_template_file m.selinux_if_file
        else (generate_app_module_fc env cfg m.selinux_fc_file sa tbl w).1) ∧
    ((generate_app_module_files { env with remove_file := rm, semanage_disconnect := dis }
        cfg m sa tbl w).1 = (generate_app_module_files env cfg m sa tbl w).1) ∧
    ((create_selinux_rules { env with remove_file := rm, semanage_disconnect := dis }
        cfg sa tbl w).map Prod.fst = (create_selinux_rules env cfg sa tbl w).map Prod.fst) ∧
    (∀ rc w2, create_selinux_rules env cfg sa tbl w = some (rc, w2) →
      ∃ sm h, init_selinux_module cfg sa = some sm ∧ create_semanage_handle env w = some h ∧
        ((h.1 < 0 ∧ rc = h.1) ∨
         (0 ≤ h.1 ∧ (generate_app_module_files env cfg sm sa tbl h.2).1 < 0 ∧
            rc = (generate_app_module_files env cfg sm sa tbl h.2).1) ∨
         (0 ≤ h.1 ∧ 0 ≤ (generate_app_module_files env cfg sm sa tbl h.2).1 ∧
            (launch_compile env sm.selinux_pp_file sa.id
              (generate_app_module_files env cfg sm sa tbl h.2).2).1 < 0 ∧
            rc = (launch_compile env sm.selinux_pp_file sa.id
              (generate_app_module_files env cfg sm sa tbl h.2).2).1) ∨
         (0 ≤ h.1 ∧ 0 ≤ (generate_app_module_files env cfg sm sa tbl h.2).1 ∧
            0 ≤ (launch_compile env sm.selinux_pp_file sa.id
              (generate_app_module_files env cfg sm sa tbl h.2).2).1 ∧
            ∃ i, install_module env sm.selinux_pp_file
                (launch_compile env sm.selinux_pp_file sa.id
                  (generate_app_module_files env cfg sm sa tbl h.2).2).2 = some i ∧
              rc = i.1))) := by
  refine ⟨generate_app_module_files_fst env cfg m sa tbl w, ?_, ?_, ?_⟩
  · exact generate_app_module_files_fst_env env _ cfg m sa tbl w rfl rfl rfl rfl rfl
  · unfold create_selinux_rules
    cases init_selinux_module cfg sa with
    | none => rfl
    | some sm =>
      exact create_selinux_rules_with_env env _ cfg sm sa tbl w rfl rfl rfl rfl rfl rfl rfl rfl
        rfl rfl rfl rfl
  · intro rc w2 hrun
    unfold create_selinux_rules at hrun
    cases hsm : init_selinux_module cfg sa with
    | none => simp [hsm] at hrun
    | some sm =>
      simp only [hsm] at hrun
      unfold create_selinux_rules_with at hrun
      cases hh : create_semanage_handle env w with
      | none => simp [hh] at hrun
      | some h =>
        simp only [hh] at hrun
        refine ⟨sm, h, rfl, rfl, ?_⟩
        by_cases hneg : h.1 < 0
        · left
          rw [if_pos hneg] at hrun
          simp only [Option.some.injEq] at hrun
          have e : h.1 = rc := by rw [hrun]
          exact ⟨hneg, e.symm⟩
        · right
          rw [if_neg hneg] at hrun
          have hpos := not_lt.mp hneg
          rcases create_selinux_rules_steps_first_error env cfg sm sa tbl h.2 rc w2 hrun with
            a | a | a
          · exact Or.inl ⟨hpos, a⟩
          · exact Or.inr (Or.inl ⟨hpos, a⟩)
          · exact Or.inr (Or.inr ⟨hpos, a⟩)

/-! ## Files left by the generator and by the removals -/

theorem remove_file_nfail (env : Env) (q : CStr) (w : World) :
    (failed_removals (remove_file env q w).2.trace).length
      = (failed_removals w.trace).length + (if (remove_file env q w).1 < 0 then 1 else 0) := by
  rw [remove_file_trace, failed_removals_append]
  simp only [failed_removals, List.length_append]
  split <;> simp

theorem remove_file_ok_of_nfail (env : Env) (q : CStr) (w : World)
    (h : (failed_removals (remove_file env q w).2.trace).length
      ≤ (failed_removals w.trace).length) :
    0 ≤ (remove_file env q w).1 := by
  rw [remove_file_nfail] at h
  by_cases hneg : (remove_file env q w).1 < 0
  · rw [if_pos hneg] at h
    omega
  · exact not_lt.mp hneg

theorem remove_file_nfail_mono (env : Env) (q : CStr) (w : World) :
    (failed_removals w.trace).length
      ≤ (failed_removals (remove_file env q w).2.trace).length := by
  rw [remove_file_nfail]
  omega

theorem remove_file_files_mono (env : Env) (q : CStr) (w : World) (p : CStr)
    (h : w.files p = none) : (remove_file env q w).2.files p = none := by
  rw [remove_file_files]
  split
  · rfl
  · exact h

theorem remove_file_files_removed (env : Env) (q : CStr) (w : World)
    (h : 0 ≤ (remove_file env q w).1) : (remove_file env q w).2.files q = none := by
  rw [remove_file_files]
  simp [h]

theorem remove_app_module_files_nfail_mono (env : Env) (m : selinux_module_t) (w : World) :
    (failed_removals w.trace).length
      ≤ (failed_removals (remove_app_module_files env m w).2.trace).length := by
  unfold remove_app_module_files
  simp only
  have a := remove_file_nfail_mono env m.selinux_te_file w
  have b := remove_file_nfail_mono env m.selinux_if_file
    (remove_file env m.selinux_te_file w).2
  have c := remove_file_nfail_mono env m.selinux_fc_file
    (remove_file env m.selinux_if_file (remove_file env m.selinux_te_file w).2).2
  split
  · exact a
  · split
    · omega
    · omega

theorem remove_app_module_files_files_mono (env : Env) (m : selinux_module_t) (w : World)
    (p : CStr) (h : w.files p = none) : (remove_app_module_files env m w).2.files p = none := by
  unfold remove_app_module_files
  simp only
  have a := remove_file_files_mono env m.selinux_te_file w p h
  have b := remove_file_files_mono env m.selinux_if_file _ p a
  have c := remove_file_files_mono env m.selinux_fc_file _ p b
  split
  · exact a
  · split
    · exact b
    · exact c

theorem remove_app_module_files_removed (env : Env) (m : selinux_module_t) (w : World)
    (h : (failed_removals (remove_app_module_files env m w).2.trace).length
      ≤ (failed_removals w.trace).length) :
    (remove_app_module_files env m w).2.files m.selinux_te_file = none ∧
    (remove_app_module_files env m w).2.files m.selinux_if_file = none ∧
    (remove_app_module_files env m w).2.files m.selinux_fc_file = none := by
  have a := remove_file_nfail env m.selinux_te_file w
  have b := remove_file_nfail env m.selinux_if_file (remove_file env m.selinux_te_file w).2
  have c := remove_file_nfail env m.selinux_fc_file
    (remove_file env m.selinux_if_file (remove_file env m.selinux_te_file w).2).2
  unfold remove_app_module_files at h ⊢
  simp only at h ⊢
  by_cases h1 : (remove_file env m.selinux_te_file w).1 < 0
  · rw [if_pos h1] at h
    rw [if_pos h1] at a
    omega
  · rw [if_neg h1] at h ⊢
    rw [if_neg h1] at a
    by_cases h2 : (remove_file env m.selinux_if_file (remove_file env m.selinux_te_file w).2).1 < 0
    · rw [if_pos h2] at h
      rw [if_pos h2] at b
      omega
    · rw [if_neg h2] at h ⊢
      rw [if_neg h2] at b
      have h3 : 0 ≤ (remove_file env m.selinux_fc_file
          (remove_file env m.selinux_if_file (remove_file env m.selinux_te_file w).2).2).1 :=
        remove_file_ok_of_nfail env _ _ (by omega)
      have r1 := remove_file_files_removed env m.selinux_te_file w (not_lt.mp h1)
      have r2 := remove_file_files_removed env m.selinux_if_file _ (not_lt.mp h2)
      have r3 := remove_file_files_removed env m.selinux_fc_file _ h3
      refine ⟨?_, ?_, r3⟩
      · exact remove_file_files_mono env _ _ _ (remove_file_files_mono env _ _ _ r1)
      · exact remove_file_files_mono env _ _ _ r2

theorem process_template_failed_removals (env : Env) (t d : CStr) (sa : secure_app_t)
    (w : World) :
    failed_removals (process_template env t d sa w).2.trace = failed_removals w.trace := by
  simp [process_template_trace, failed_removals_append, failed_removals]

theorem process_template_files_other (env : Env) (t d : CStr) (sa : secure_app_t) (w : World)
    (p : CStr) (hp : p ≠ d) (h : w.files p = none) :
    (process_template env t d sa w).2.files p = none := by
  rw [process_template_files, if_neg hp]
  exact h

theorem generate_app_module_files_other (env : Env) (cfg : Config) (m : selinux_module_t)
    (sa : secure_app_t) (tbl : label_table) (w : World) (p : CStr)
    (h1 : p ≠ m.selinux_te_file) (h2 : p ≠ m.selinux_if_file) (h3 : p ≠ m.selinux_fc_file)
    (h : w.files p = none) :
    (generate_app_module_files env cfg m sa tbl w).2.files p = none := by
  have a := process_template_files_other env m.selinux_te_template_file m.selinux_te_file sa w
    p h1 h
  have b := process_template_files_other env m.selinux_if_template_file m.selinux_if_file sa
    _ p h2 a
  have c : (generate_app_module_fc env cfg m.selinux_fc_file sa tbl
      (process_template env m.selinux_if_template_file m.selinux_if_file sa
        (process_template env m.selinux_te_template_file m.selinux_te_file sa w).2).2).2.files p
      = none := by
    rw [(generate_app_module_fc_frame env cfg m.selinux_fc_file sa tbl _).2.2.2.2 p h3]
    exact b
  unfold generate_app_module_files
  simp only
  split
  · exact a
  · split
    · exact remove_file_files_mono env _ _ _ b
    · split
      · exact remove_file_files_mono env _ _ _ (remove_file_files_mono env _ _ _ c)
      · exact c

theorem process_template_files_failed (env : Env) (t d : CStr) (sa : secure_app_t) (w : World)
    (p : CStr) (hneg : env.process_template t d < 0) (h : w.files p = none) :
    (process_template env t d sa w).2.files p = none := by
  rw [process_template_files]
  by_cases hp : p = d
  · rw [if_pos hp, if_pos hneg]
  · rw [if_neg hp]
    exact h

theorem generate_app_module_files_cases (env : Env) (cfg : Config) (m : selinux_module_t)
    (sa : secure_app_t) (tbl : label_table) (w : World) :
    let r1 := process_template env m.selinux_te_template_file m.selinux_te_file sa w
    let r2 := process_template env m.selinux_if_template_file m.selinux_if_file sa r1.2
    let r3 := generate_app_module_fc env cfg m.selinux_fc_file sa tbl r2.2
    let r := generate_app_module_files env cfg m sa tbl w
    (r1.1 < 0 ∧ r.2 = r1.2) ∨
    (0 ≤ r1.1 ∧ r2.1 < 0 ∧ r.2 = (remove_file env m.selinux_te_file r2.2).2) ∨
    (0 ≤ r1.1 ∧ 0 ≤ r2.1 ∧ r3.1 < 0 ∧
      r.2 = (remove_file env m.selinux_te_file (remove_file env m.selinux_if_file r3.2).2).2) ∨
    (0 ≤ r1.1 ∧ 0 ≤ r2.1 ∧ 0 ≤ r3.1 ∧ r = r3) := by
  intro r1 r2 r3 r
  by_cases h1 : r1.1 < 0
  · left
    refine ⟨h1, ?_⟩
    simp only [r, generate_app_module_files]
    rw [if_pos h1]
  · right
    by_cases h2 : r2.1 < 0
    · left
      refine ⟨not_lt.mp h1, h2, ?_⟩
      simp only [r, generate_app_module_files]
      rw [if_neg h1, if_pos h2]
    · right
      by_cases h3 : r3.1 < 0
      · left
        refine ⟨not_lt.mp h1, not_lt.mp h2, h3, ?_⟩
        simp only [r, generate_app_module_files]
        rw [if_neg h1, if_neg h2, if_pos h3]
      · right
        refine ⟨not_lt.mp h1, not_lt.mp h2, not_lt.mp h3, ?_⟩
        simp only [r, generate_app_module_files]
        rw [if_neg h1, if_neg h2, if_neg h3]

theorem generate_app_module_files_nfail_mono (env : Env) (cfg : Config) (m : selinux_module_t)
    (sa : secure_app_t) (tbl : label_table) (w : World) :
    (failed_removals w.trace).length
      ≤ (failed_removals (generate_app_module_files env cfg m sa tbl w).2.trace).length := by
  have a := process_template_failed_removals env m.selinux_te_template_file m.selinux_te_file
    sa w
  have b := process_template_failed_removals env m.selinux_if_template_file m.selinux_if_file
    sa (process_template env m.selinux_te_template_file m.selinux_te_file sa w).2
  have c := (generate_app_module_fc_frame env cfg m.selinux_fc_file sa tbl
    (process_template env m.selinux_if_template_file m.selinux_if_file sa
      (process_template env m.selinux_te_template_file m.selinux_te_file sa w).2).2).2.2.2.1
  rcases generate_app_module_files_cases env cfg m sa tbl w with
    ⟨_, e⟩ | ⟨_, _, e⟩ | ⟨_, _, _, e⟩ | ⟨_, _, _, e⟩
  · rw [e, a]
  · rw [e]
    have d := remove_file_nfail_mono env m.selinux_te_file
      (process_template env m.selinux_if_template_file m.selinux_if_file sa
        (process_template env m.selinux_te_template_file m.selinux_te_file sa w).2).2
    rw [b, a] at d
    exact d
  · rw [e]
    have d := remove_file_nfail_mono env m.selinux_if_file
      (generate_app_module_fc env cfg m.selinux_fc_file sa tbl
        (process_template env m.selinux_if_template_file m.selinux_if_file sa
          (process_template env m.selinux_te_template_file m.selinux_te_file sa w).2).2).2
    have f := remove_file_nfail_mono env m.selinux_te_file
      (remove_file env m.selinux_if_file
        (generate_app_module_fc env cfg m.selinux_fc_file sa tbl
          (process_template env m.selinux_if_template_file m.selinux_if_file sa
            (process_template env m.selinux_te_template_file m.selinux_te_file sa
              w).2).2).2).2
    rw [c, b, a] at d
    omega
  · rw [e, c, b, a]

theorem generate_app_module_files_failed_clean (env : Env) (cfg : Config)
    (m : selinux_module_t) (sa : secure_app_t) (tbl : label_table) (w : World)
    (hneg : (generate_app_module_files env cfg m sa tbl w).1 < 0)
    (hputs : ∀ k, 0 ≤ (env.fputs k).ret)
    (hn : (failed_removals (generate_app_module_files env cfg m sa tbl w).2.trace).length
      ≤ (failed_removals w.trace).length)
    (hte : w.files m.selinux_te_file = none) (hif : w.files m.selinux_if_file = none)
    (hfc : w.files m.selinux_fc_file = none) :
    (generate_app_module_files env cfg m sa tbl w).2.files m.selinux_te_file = none ∧
    (generate_app_module_files env cfg m sa tbl w).2.files m.selinux_if_file = none ∧
    (generate_app_module_files env cfg m sa tbl w).2.files m.selinux_fc_file = none := by
  have a := process_template_failed_removals env m.selinux_te_template_file m.selinux_te_file
    sa w
  have b := process_template_failed_removals env m.selinux_if_template_file m.selinux_if_file
    sa (process_template env m.selinux_te_template_file m.selinux_te_file sa w).2
  have c := (generate_app_module_fc_frame env cfg m.selinux_fc_file sa tbl
    (process_template env m.selinux_if_template_file m.selinux_if_file sa
      (process_template env m.selinux_te_template_file m.selinux_te_file sa w).2).2).2.2.2.1
  rcases generate_app_module_files_cases env cfg m sa tbl w with
    ⟨h1, e⟩ | ⟨h1, h2, e⟩ | ⟨h1, h2, h3, e⟩ | ⟨h1, h2, h3, e⟩
  · -- the te expansion failed
    rw [process_template_fst] at h1
    rw [e]
    exact ⟨process_template_files_failed env _ _ sa w _ h1 hte,
      process_template_files_failed env _ _ sa w _ h1 hif,
      process_template_files_failed env _ _ sa w _ h1 hfc⟩
  · -- the if expansion failed, the te file is removed
    rw [process_template_fst] at h2
    rw [e] at hn ⊢
    have hrc := remove_file_ok_of_nfail env m.selinux_te_file _ (by rw [b, a]; exact hn)
    have kte := remove_file_files_removed env m.selinux_te_file _ hrc
    refine ⟨kte, ?_, ?_⟩
    · apply remove_file_files_mono
      rw [process_template_files, if_pos rfl, if_pos h2]
    · by_cases q : m.selinux_fc_file = m.selinux_te_file
      · exact (congrArg _ q).trans kte
      · apply remove_file_files_mono
        apply process_template_files_failed env _ _ sa _ _ h2
        exact process_template_files_other env _ _ sa w _ q hfc
  · -- the fc file could not be opened, the if and te files are removed
    rw [e] at hn ⊢
    have hopen := generate_app_module_fc_failed_open env cfg m.selinux_fc_file sa tbl _ hputs h3
    have m1 := remove_file_nfail_mono env m.selinux_if_file
      (generate_app_module_fc env cfg m.selinux_fc_file sa tbl
        (process_template env m.selinux_if_template_file m.selinux_if_file sa
          (process_template env m.selinux_te_template_file m.selinux_te_file sa w).2).2).2
    rw [c, b, a] at m1
    have hrc1 := remove_file_ok_of_nfail env m.selinux_if_file
      (generate_app_module_fc env cfg m.selinux_fc_file sa tbl
        (process_template env m.selinux_if_template_file m.selinux_if_file sa
          (process_template env m.selinux_te_template_file m.selinux_te_file sa w).2).2).2
      (by
        have m2 := remove_file_nfail_mono env m.selinux_te_file
          (remove_file env m.selinux_if_file
            (generate_app_module_fc env cfg m.selinux_fc_file sa tbl
              (process_template env m.selinux_if_template_file m.selinux_if_file sa
                (process_template env m.selinux_te_template_file m.selinux_te_file sa
                  w).2).2).2).2
        rw [c, b, a]
        omega)
    have hrc2 := remove_file_ok_of_nfail env m.selinux_te_file
      (remove_file env m.selinux_if_file
        (generate_app_module_fc env cfg m.selinux_fc_file sa tbl
          (process_template env m.selinux_if_template_file m.selinux_if_file sa
            (process_template env m.selinux_te_template_file m.selinux_te_file sa
              w).2).2).2).2
      (by omega)
    have kte := remove_file_files_removed env m.selinux_te_file _ hrc2
    have kif := remove_file_files_mono env m.selinux_te_file _ _
      (remove_file_files_removed env m.selinux_if_file _ hrc1)
    refine ⟨kte, kif, ?_⟩
    by_cases q1 : m.selinux_fc_file = m.selinux_te_file
    · exact (congrArg _ q1).trans kte
    · by_cases q2 : m.selinux_fc_file = m.selinux_if_file
      · exact (congrArg _ q2).trans kif
      · apply remove_file_files_mono
        apply remove_file_files_mono
        rw [hopen]
        apply process_template_files_other env _ _ sa _ _ q2
        exact process_template_files_other env _ _ sa w _ q1 hfc
  · -- no step failed
    rw [e] at hneg
    exact absurd hneg (not_lt.mpr h3)

theorem launch_compile_failed_removals (env : Env) (pp id : CStr) (w : World) :
    failed_removals (launch_compile env pp id w).2.trace = failed_removals w.trace := by
  simp [launch_compile_trace, failed_removals_append, failed_removals]

theorem launch_compile_files_none (env : Env) (pp id : CStr) (w : World) (p : CStr)
    (hp : env.launch_compile id < 0 ∨ p ≠ pp) (h : w.files p = none) :
    (launch_compile env pp id w).2.files p = none := by
  rw [launch_compile_files]
  split
  · rename_i hc
    rcases hp with hp | hp
    · exact absurd hp (not_lt.mpr hc.1)
    · exact absurd hc.2 hp
  · exact h

theorem install_module_some (env : Env) (pp : CStr) (w : World) (i : Int × World)
    (h : install_module env pp w = some i) :
    i.2.files = w.files ∧ failed_removals i.2.trace = failed_removals w.trace ∧
    (i.1 < 0 → i.2.modules = w.modules) := by
  unfold install_module at h
  cases hs : semanage_module_install_file env pp w with
  | none => simp [hs] at h
  | some f =>
    have e1 : f.2.files = w.files ∧ f.2.modules = w.modules ∧
        failed_removals f.2.trace = failed_removals w.trace := by
      unfold semanage_module_install_file at hs
      split at hs
      · simp at hs
      · split at hs
        · simp only [Option.some.injEq] at hs
          subst hs
          simp [failed_removals_append, failed_removals]
        · simp only at hs
          split at hs <;>
            · simp only [Option.some.injEq] at hs
              subst hs
              simp [failed_removals_append, failed_removals]
    simp only [hs] at h
    split at h
    · simp only [Option.some.injEq] at h
      subst h
      exact ⟨e1.1, e1.2.2, fun _ => e1.2.1⟩
    · cases hc : semanage_commit env f.2 with
      | none => simp [hc] at h
      | some c =>
        simp only [hc] at h
        unfold semanage_commit at hc
        split at hc
        · simp at hc
        · simp only at hc
          split at hc
          · simp only [Option.some.injEq] at hc
            subst hc
            simp only at h
            split at h <;>
              · simp only [Option.some.injEq] at h
                subst h
                simp [failed_removals_append, failed_removals, e1]
          · rename_i hok
            simp only [Option.some.injEq] at hc
            subst hc
            simp only at h
            rw [if_neg hok] at h
            simp only [Option.some.injEq] at h
            subst h
            refine ⟨by simp [e1], by simp [failed_removals_append, failed_removals, e1], ?_⟩
            intro hneg
            exact absurd hneg hok

theorem file_exists_false_iff (w : World) (p : CStr) :
    w.file_exists p = false ↔ w.files p = none := by
  unfold World.file_exists
  cases w.files p <;> simp

theorem create_selinux_rules_steps_clean (env : Env) (cfg : Config) (m : selinux_module_t)
    (sa : secure_app_t) (tbl : label_table) (w : World) (rc : Int) (w2 : World)
    (hte : w.files m.selinux_te_file = none) (hif : w.files m.selinux_if_file = none)
    (hfc : w.files m.selinux_fc_file = none) (hpp : w.files m.selinux_pp_file = none)
    (hputs : ∀ k, 0 ≤ (env.fputs k).ret)
    (hrun : create_selinux_rules_steps env cfg m sa tbl w = some (rc, w2))
    (hfail : rc < 0)
    (hn : (failed_removals w2.trace).length ≤ (failed_removals w.trace).length) :
    w2.files m.selinux_te_file = none ∧ w2.files m.selinux_if_file = none ∧
    w2.files m.selinux_fc_file = none ∧ w2.files m.selinux_pp_file = none ∧
    w2.modules = w.modules := by
  have ng := generate_app_module_files_nfail_mono env cfg m sa tbl w
  have nc := launch_compile_failed_removals env m.selinux_pp_file sa.id
    (generate_app_module_files env cfg m sa tbl w).2
  have mg := generate_app_module_files_modules env cfg m sa tbl w
  have mc := launch_compile_modules env m.selinux_pp_file sa.id
    (generate_app_module_files env cfg m sa tbl w).2
  -- the pp file is not there after the generation unless it is one of the sources
  have gpp : m.selinux_pp_file ≠ m.selinux_te_file → m.selinux_pp_file ≠ m.selinux_if_file →
      m.selinux_pp_file ≠ m.selinux_fc_file →
      (generate_app_module_files env cfg m sa tbl w).2.files m.selinux_pp_file = none :=
    fun a b c => generate_app_module_files_other env cfg m sa tbl w _ a b c hpp
  unfold create_selinux_rules_steps at hrun
  simp only at hrun
  by_cases hg : (generate_app_module_files env cfg m sa tbl w).1 < 0
  · -- generation failed
    rw [if_pos hg] at hrun
    obtain ⟨_, f1, f2, f3⟩ := create_selinux_rules_end2_some env _ _ _ hrun
    simp only at f1 f2 f3
    rw [f3] at hn
    obtain ⟨k1, k2, k3⟩ := generate_app_module_files_failed_clean env cfg m sa tbl w hg hputs hn
      hte hif hfc
    rw [f1, f2, mg]
    refine ⟨k1, k2, k3, ?_, rfl⟩
    by_cases q1 : m.selinux_pp_file = m.selinux_te_file
    · exact (congrArg _ q1).trans k1
    · by_cases q2 : m.selinux_pp_file = m.selinux_if_file
      · exact (congrArg _ q2).trans k2
      · by_cases q3 : m.selinux_pp_file = m.selinux_fc_file
        · exact (congrArg _ q3).trans k3
        · exact gpp q1 q2 q3
  · rw [if_neg hg] at hrun
    by_cases hc : (launch_compile env m.selinux_pp_file sa.id
        (generate_app_module_files env cfg m sa tbl w).2).1 < 0
    · -- compilation failed
      rw [if_pos hc] at hrun
      obtain ⟨_, f1, f2, f3⟩ := create_selinux_rules_end2_some env _ _ _ hrun
      simp only at f1 f2 f3
      rw [f3] at hn
      have nr := remove_app_module_files_nfail_mono env m
        (launch_compile env m.selinux_pp_file sa.id
          (generate_app_module_files env cfg m sa tbl w).2).2
      obtain ⟨k1, k2, k3⟩ := remove_app_module_files_removed env m
        (launch_compile env m.selinux_pp_file sa.id
          (generate_app_module_files env cfg m sa tbl w).2).2 (by rw [nc] at nr ⊢; omega)
      rw [f1, f2, remove_app_module_files_modules, mc, mg]
      refine ⟨k1, k2, k3, ?_, rfl⟩
      by_cases q1 : m.selinux_pp_file = m.selinux_te_file
      · exact (congrArg _ q1).trans k1
      · by_cases q2 : m.selinux_pp_file = m.selinux_if_file
        · exact (congrArg _ q2).trans k2
        · by_cases q3 : m.selinux_pp_file = m.selinux_fc_file
          · exact (congrArg _ q3).trans k3
          · apply remove_app_module_files_files_mono
            rw [launch_compile_fst] at hc
            exact launch_compile_files_none env _ _ _ _ (Or.inl hc) (gpp q1 q2 q3)
    · rw [if_neg hc] at hrun
      cases hi : install_module env m.selinux_pp_file
          (launch_compile env m.selinux_pp_file sa.id
            (generate_app_module_files env cfg m sa tbl w).2).2 with
      | none => simp [hi] at hrun
      | some i =>
        simp only [hi] at hrun
        obtain ⟨i1, i2, i3⟩ := install_module_some env _ _ i hi
        by_cases hneg : i.1 < 0
        · -- the store install failed
          rw [if_pos hneg] at hrun
          obtain ⟨_, f1, f2, f3⟩ := create_selinux_rules_end2_some env _ _ _ hrun
          simp only at f1 f2 f3
          rw [f3] at hn
          have np := remove_file_nfail_mono env m.selinux_pp_file i.2
          have nr := remove_app_module_files_nfail_mono env m
            (remove_pp_file env m i.2).2
          have np2 : (failed_removals i.2.trace).length
              ≤ (failed_removals (remove_pp_file env m i.2).2.trace).length := np
          rw [i2, nc] at np2
          have hrcpp : 0 ≤ (remove_file env m.selinux_pp_file i.2).1 :=
            remove_file_ok_of_nfail env _ _ (by
              have np3 : (failed_removals (remove_file env m.selinux_pp_file i.2).2.trace).length
                  = (failed_removals (remove_pp_file env m i.2).2.trace).length := rfl
              rw [np3, i2, nc]
              omega)
          obtain ⟨k1, k2, k3⟩ := remove_app_module_files_removed env m
            (remove_pp_file env m i.2).2 (by omega)
          rw [f1, f2, remove_app_module_files_modules, remove_pp_file_modules, i3 hneg, mc, mg]
          refine ⟨k1, k2, k3, ?_, rfl⟩
          apply remove_app_module_files_files_mono
          exact remove_file_files_removed env _ _ hrcpp
        · rw [if_neg hneg] at hrun
          obtain ⟨f0, _⟩ := create_selinux_rules_end2_some env _ _ _ hrun
          simp only at f0
          rw [f0] at hfail
          exact absurd hfail hneg

/-! ## C10: what a failed install leaves behind -/

/-- C10 as stated fails: from the state left by an earlier install of `demo`, an
install in which `semanage_connect` fails returns `-EACCES`, attempts no
removal, and on return the te file still exists and the module is still
loaded. -/
theorem create_selinux_rules_failure_keeps_existing :
    (create_selinux_rules connect_fails sample_cfg demo_app demo_table installed_world).map
      (fun r => (r.1, removals r.2.trace, r.2.file_exists demo_module.selinux_te_file,
        r.2.file_exists demo_module.selinux_pp_file, r.2.modules))
      = some (-13, [], true, true, ["demo".toList]) := by
  decide

theorem create_selinux_rules_fputs_failure_leaves_fc :
    (create_selinux_rules second_fputs_fails sample_cfg demo_app demo_table empty_world).map
      (fun r => (r.1, removals r.2.trace, failed_removals r.2.trace,
        r.2.file_exists demo_module.selinux_fc_file))
      = some (-28, [demo_module.selinux_if_file, demo_module.selinux_te_file], [], true) := by
  decide

/-- C10, amended. From a state in which none of the four artefacts of the
application exists and its module is not loaded, and when no `fputs` fails while
the fc file is written: if `create_selinux_rules` returns a negative value
(handle creation, template expansion, opening of the fc file, compilation or
store install failed) and no `remove_file` call of the run failed, then on
return none of the te, if, fc and pp files exists and the module is not
loaded. -/
theorem create_selinux_rules_rollback_complete (env : Env) (cfg : Config)
    (sa : secure_app_t) (tbl : label_table) (w : World) (m : selinux_module_t) (rc : Int)
    (w2 : World)
    (hm : init_selinux_module cfg sa = some m)
    (hte : w.file_exists m.selinux_te_file = false)
    (hif : w.file_exists m.selinux_if_file = false)
    (hfc : w.file_exists m.selinux_fc_file = false)
    (hpp : w.file_exists m.selinux_pp_file = false)
    (hmod : sa.id ∉ w.modules)
    (hputs : ∀ k, 0 ≤ (env.fputs k).ret)
    (hrun : create_selinux_rules env cfg sa tbl w = some (rc, w2))
    (hfail : rc < 0)
    (hremovals : failed_removals w2.trace = failed_removals w.trace) :
    w2.file_exists m.selinux_te_file = false ∧ w2.file_exists m.selinux_if_file = false ∧
    w2.file_exists m.selinux_fc_file = false ∧ w2.file_exists m.selinux_pp_file = false ∧
    sa.id ∉ w2.modules := by
  rw [file_exists_false_iff] at hte hif hfc hpp
  simp only [file_exists_false_iff]
  unfold create_selinux_rules at hrun
  simp only [hm] at hrun
  unfold create_selinux_rules_with at hrun
  cases hh : create_semanage_handle env w with
  | none => simp [hh] at hrun
  | some h =>
    simp only [hh] at hrun
    obtain ⟨c1, c2, c3⟩ := create_semanage_handle_some env w h hh
    by_cases hneg : h.1 < 0
    · rw [if_pos hneg] at hrun
      simp only [Option.some.injEq] at hrun
      have e : w2 = h.2 := by rw [hrun]
      rw [e, c1, c2]
      exact ⟨hte, hif, hfc, hpp, hmod⟩
    · rw [if_neg hneg] at hrun
      obtain ⟨k1, k2, k3, k4, k5⟩ := create_selinux_rules_steps_clean env cfg m sa tbl h.2 rc w2
        (by rw [c1]; exact hte) (by rw [c1]; exact hif) (by rw [c1]; exact hfc)
        (by rw [c1]; exact hpp) hputs hrun hfail (by rw [hremovals, c3])
      rw [k5, c2]
      exact ⟨k1, k2, k3, k4, hmod⟩

/-- C10 amended, at an install of `demo` from an empty state in which the compiler
fails: the three sources are removed again and nothing is left. -/
theorem create_selinux_rules_rollback_complete_witness :
    ∃ w2, create_selinux_rules compile_fails sample_cfg demo_app demo_table empty_world
        = some (-1, w2) ∧
      w2.file_exists demo_module.selinux_te_file = false ∧
      w2.file_exists demo_module.selinux_if_file = false ∧
      w2.file_exists demo_module.selinux_fc_file = false ∧
      w2.file_exists demo_module.selinux_pp_file = false ∧
      demo_app.id ∉ w2.modules := by
  have hfacts : (create_selinux_rules compile_fails sample_cfg demo_app demo_table
      empty_world).map (fun r => (r.1, failed_removals r.2.trace)) = some (-1, []) := by
    decide
  cases hrun : create_selinux_rules compile_fails sample_cfg demo_app demo_table
      empty_world with
  | none =>
    rw [hrun] at hfacts
    simp at hfacts
  | some r =>
    rw [hrun] at hfacts
    simp only [Option.map_some', Option.some.injEq, Prod.mk.injEq] at hfacts
    obtain ⟨h1, h2⟩ := hfacts
    have hr : some r = some ((-1 : Int), r.2) := by rw [← h1]
    exact ⟨r.2, hr, create_selinux_rules_rollback_complete compile_fails sample_cfg demo_app
      demo_table empty_world demo_module (-1) r.2 (by decide) (by decide) (by decide)
      (by decide) (by decide) (by decide) (fun _ => Int.le_of_lt Int.one_pos) (hrun.trans hr)
      (by decide) h2⟩

/-! ## C8: what the return value of the install reports -/

theorem install_module_ok_only_if (env : Env) (pp : CStr) (w : World) (i : Int × World)
    (h : install_module env pp w = some i)
    (herr1 : 0 < (env.semanage_module_install_file pp).errno)
    (herr2 : 0 < env.semanage_commit.errno)
    (hok : 0 ≤ i.1) :
    (w.files pp).isSome = true ∧ 0 ≤ (env.semanage_module_install_file pp).ret ∧
    0 ≤ env.semanage_commit.ret := by
  unfold install_module at h
  cases hs : semanage_module_install_file env pp w with
  | none => simp [hs] at h
  | some f =>
    simp only [hs] at h
    unfold semanage_module_install_file at hs
    split at hs
    · simp at hs
    · split at hs
      · simp only [Option.some.injEq] at hs
        subst hs
        simp only [ENOENT] at h
        rw [if_pos (by decide)] at h
        simp only [Option.some.injEq] at h
        subst h
        simp at hok
      · rename_i hfile
        simp only at hs
        by_cases hret : (env.semanage_module_install_file pp).ret < 0
        · rw [if_pos hret] at hs
          simp only [Option.some.injEq] at hs
          subst hs
          rw [if_pos hret] at h
          simp only [Option.some.injEq] at h
          subst h
          simp only at hok
          omega
        · rw [if_neg hret] at hs
          simp only [Option.some.injEq] at hs
          subst hs
          rw [if_neg hret] at h
          simp only at h
          unfold semanage_commit at h
          simp only at h
          by_cases hcom : env.semanage_commit.ret < 0
          · simp only [if_pos hcom] at h
            simp only [Option.some.injEq] at h
            subst h
            simp only at hok
            omega
          · exact ⟨by rw [hfile]; rfl, not_lt.mp hret, not_lt.mp hcom⟩

/-- C8 fails on the code. With `semanage_module_install_file` failing (it returns
-1) while `errno` is 0, and likewise with `semanage_commit` failing while `errno`
is 0, `install_module` computes `rc = -errno = 0`; `create_selinux_rules` then
returns 0 although the module was not installed: no module is loaded on
return. -/
theorem create_selinux_rules_zero_on_failed_install :
    (install_errno_zero.semanage_module_install_file demo_module.selinux_pp_file).ret < 0 ∧
    (create_selinux_rules install_errno_zero sample_cfg demo_app demo_table empty_world).map
      (fun r => (r.1, r.2.modules)) = some (0, []) ∧
    commit_errno_zero.semanage_commit.ret < 0 ∧
    (create_selinux_rules commit_errno_zero sample_cfg demo_app demo_table empty_world).map
      (fun r => (r.1, r.2.modules)) = some (0, []) := by
  decide

/-! ## C17: distinct labels -/

theorem init_path_type_definitions_formatted (cfg : Config) (tbl : label_table) (id : CStr)
    (hfit : ∀ s ∈ formatted_labels id, s.length + 1 ≤ cfg.SEC_LSM_MANAGER_MAX_SIZE_LABEL)
    (t : path_type) :
    (init_path_type_definitions cfg tbl id t).label = formatted_label id t := by
  have h1 := hfit (format_label id suffix_conf) (by simp [formatted_labels])
  have h2 := hfit (format_label id suffix_data) (by simp [formatted_labels])
  have h3 := hfit (format_label id suffix_exec) (by simp [formatted_labels])
  have h4 := hfit (format_label id suffix_http) (by simp [formatted_labels])
  have h5 := hfit (format_label id suffix_icon) (by simp [formatted_labels])
  have h6 := hfit (format_label id suffix_id) (by simp [formatted_labels])
  have h7 := hfit (format_label id suffix_lib) (by simp [formatted_labels])
  have h8 := hfit format_public_label (by simp [formatted_labels])
  cases t <;>
    simp [init_path_type_definitions, set_label, formatted_label, snprintf_fits _ _ _ h1,
      snprintf_fits _ _ _ h2, snprintf_fits _ _ _ h3, snprintf_fits _ _ _ h4,
      snprintf_fits _ _ _ h5, snprintf_fits _ _ _ h6, snprintf_fits _ _ _ h7,
      snprintf_fits _ _ _ h8]

theorem format_label_inj (id s1 s2 : CStr) :
    format_label id s1 = format_label id s2 ↔ s1 = s2 := by
  simp [format_label]

theorem format_label_eq_public (id s : CStr) :
    format_label id s = format_public_label ↔ id ++ s = public_app := by
  simp [format_label, format_public_label, List.append_assoc]

theorem format_label_ne_public (id s a b : CStr) (hab : public_app = a ++ b)
    (hl : s.length = b.length) (hne : s ≠ b) : format_label id s ≠ format_public_label := by
  rw [Ne, format_label_eq_public, hab]
  intro h
  exact hne (List.append_inj' h hl).2

theorem format_label_id_eq_public (id : CStr) :
    format_label id suffix_id = format_public_label ↔ id = "redpesk_public".toList := by
  rw [format_label_eq_public]
  have h : public_app = "redpesk_public".toList ++ suffix_id := by decide
  rw [h]
  exact List.append_left_inj _

theorem formatted_label_eq_iff (id : CStr) (t u : path_type) (htu : t ≠ u) :
    formatted_label id t = formatted_label id u ↔
      (id = "redpesk_public".toList ∧
        ((t = .type_id ∧ u = .type_public) ∨ (t = .type_public ∧ u = .type_id))) := by
  have p7 : ∀ s : CStr, s.length = 7 → s ≠ "ublic_t".toList →
      format_label id s ≠ format_public_label :=
    fun s hl hne => format_label_ne_public id s "redpesk_p".toList "ublic_t".toList
      (by decide) hl hne
  have p6 : ∀ s : CStr, s.length = 6 → s ≠ "blic_t".toList →
      format_label id s ≠ format_public_label :=
    fun s hl hne => format_label_ne_public id s "redpesk_pu".toList "blic_t".toList
      (by decide) hl hne
  cases t <;> cases u <;>
    first
    | exact absurd rfl htu
    | (simp only [formatted_label, format_label_inj, reduceCtorEq,
        and_false, false_and, or_false, false_or, and_true, iff_false]
       decide)
    | (simp only [formatted_label, format_label_id_eq_public, reduceCtorEq,
        and_false, false_and, or_false, false_or, and_true, true_and, and_self,
        eq_comm (a := format_public_label)]
       done)
    | (simp only [formatted_label, reduceCtorEq,
        and_false, false_and, or_false, false_or, and_true,
        eq_comm (a := format_public_label)]
       first
       | exact iff_false_intro (p7 _ (by decide) (by decide))
       | exact iff_false_intro (p6 _ (by decide) (by decide)))

/-- C17. When no label is truncated, the labels `init_path_type_definitions` leaves
in the slots of two distinct path types are equal exactly when the identifier
is `redpesk_public` and the two types are `id` and `public`; in particular the
labels of two distinct types among conf, data, exec, http, icon, id and lib
are different. -/
theorem init_path_type_definitions_distinct (cfg : Config) (tbl : label_table) (id : CStr)
    (hfit : ∀ s ∈ formatted_labels id, s.length + 1 ≤ cfg.SEC_LSM_MANAGER_MAX_SIZE_LABEL)
    (t u : path_type) (htu : t ≠ u) :
    ((init_path_type_definitions cfg tbl id t).label
        = (init_path_type_definitions cfg tbl id u).label ↔
      (id = "redpesk_public".toList ∧
        ((t = .type_id ∧ u = .type_public) ∨ (t = .type_public ∧ u = .type_id)))) ∧
    (t ≠ .type_public → u ≠ .type_public →
      (init_path_type_definitions cfg tbl id t).label
        ≠ (init_path_type_definitions cfg tbl id u).label) := by
  rw [init_path_type_definitions_formatted cfg tbl id hfit t,
    init_path_type_definitions_formatted cfg tbl id hfit u]
  have h := formatted_label_eq_iff id t u htu
  refine ⟨h, ?_⟩
  intro ht hu heq
  rcases (h.mp heq).2 with ⟨_, hu2⟩ | ⟨ht2, _⟩
  · exact hu hu2
  · exact ht ht2

/-- C17, at the one coincidence and at two id-derived labels: for the identifier
`redpesk_public` the labels of `id` and `public` are the same string, and those
of `lib` and `conf` differ. -/
theorem init_path_type_definitions_distinct_witness :
    (∀ s ∈ formatted_labels "redpesk_public".toList,
        s.length + 1 ≤ sample_cfg.SEC_LSM_MANAGER_MAX_SIZE_LABEL) ∧
    (init_path_type_definitions sample_cfg empty_table "redpesk_public".toList .type_id).label
      = (init_path_type_definitions sample_cfg empty_table "redpesk_public".toList
          .type_public).label ∧
    (init_path_type_definitions sample_cfg empty_table "redpesk_public".toList .type_lib).label
      ≠ (init_path_type_definitions sample_cfg empty_table "redpesk_public".toList
          .type_conf).label :=
  ⟨by decide,
   (init_path_type_definitions_distinct sample_cfg empty_table "redpesk_public".toList
      (by decide) .type_id .type_public (by decide)).1.mpr ⟨rfl, Or.inl ⟨rfl, rfl⟩⟩,
   (init_path_type_definitions_distinct sample_cfg empty_table "redpesk_public".toList
      (by decide) .type_lib .type_conf (by decide)).2 (by decide) (by decide)⟩

/-! ## C14: presence of the module in the store -/

theorem check_module_loop_fst (env : Env) (id : CStr) (names : List CStr) :
    ∀ (i : Nat) (w : World),
      (∀ k, k < names.length → 0 ≤ (env.semanage_module_info_get_name (i + k)).ret) →
      (check_module_loop env id i names w).1 = decide (id ∈ names) := by
  induction names with
  | nil => intro i w _; simp [check_module_loop]
  | cons name rest ih =>
    intro i w hk
    have h0 : ¬ (env.semanage_module_info_get_name i).ret < 0 := by
      have := hk 0 (by simp)
      simpa using this
    simp only [check_module_loop, if_neg h0]
    by_cases hn : name = id
    · simp [hn]
    · rw [if_neg hn]
      rw [ih (i + 1) _ (fun k hk2 => by
        have := hk (k + 1) (by simp; omega)
        rwa [show i + (k + 1) = i + 1 + k by omega] at this)]
      have hn2 : ¬ id = name := fun e => hn e.symm
      simp [hn2]

/-- C14. On a valid handle: when the enumeration and every name lookup succeed,
`check_module` returns true if and only if some listed module has a name equal to
`id`; when the enumeration fails it returns false. -/
theorem check_module_iff (env : Env) (id : CStr) (w : World) (h : semanage_handle_t)
    (hh : w.handle = some h) :
    (0 ≤ env.semanage_module_list.ret →
      (∀ i, i < w.modules.length → 0 ≤ (env.semanage_module_info_get_name i).ret) →
      ∃ b w2, check_module env id w = some (b, w2) ∧
        (b = true ↔ ∃ name ∈ w.modules, name = id)) ∧
    (env.semanage_module_list.ret < 0 →
      ∃ w2, check_module env id w = some (false, w2)) := by
  constructor
  · intro hlist hnames
    have hl : ¬ env.semanage_module_list.ret < 0 := not_lt.mpr hlist
    refine ⟨_, _, by
      simp only [check_module, semanage_module_list, hh, if_neg hl]
      rfl, ?_⟩
    rw [check_module_loop_fst env id w.modules 0 _ (fun k hk => by simpa using hnames k hk)]
    simp
  · intro hfail
    exact ⟨_, by
      simp only [check_module, semanage_module_list, hh, if_pos hfail]
      rfl⟩

/-- C14, on a store holding `base`, `demo` and `demo2`: `demo` is found, `dem` is
not, and a failing enumeration answers false. -/
theorem check_module_iff_witness :
    (check_module all_ok "demo".toList connected_world).map Prod.fst = some true ∧
    (check_module all_ok "dem".toList connected_world).map Prod.fst = some false ∧
    (∃ w2, check_module { all_ok with semanage_module_list := { ret := -1, errno := 5 } }
      "demo".toList connected_world = some (false, w2)) := by
  refine ⟨by decide, by decide, ?_⟩
  exact (check_module_iff { all_ok with semanage_module_list := { ret := -1, errno := 5 } }
    "demo".toList connected_world _ rfl).2 (by decide)

/-! ## C12: uninstall of an application that is not installed -/

/-- C12 as stated fails: uninstalling `demo` when none of its artefacts exists
returns `-ENOENT` right after the failed removal of the te file; the only call
made is that `remove_file`: no other removal, no handle, no module removal. -/
theorem remove_selinux_rules_stops_at_first_failure :
    (remove_selinux_rules all_ok sample_cfg demo_app empty_world).map
      (fun r => (r.1, r.2.trace))
      = some (-2, [Event.remove_file demo_module.selinux_te_file (-2)]) := by
  decide

/-- C12, amended. When the te file of the application is absent,
`remove_selinux_rules` returns the negative error `-ENOENT` of that first failing
removal and attempts no further step: the state it leaves differs from the
initial one by the record of that single `remove_file` call. -/
theorem remove_selinux_rules_absent (env : Env) (cfg : Config) (sa : secure_app_t) (w : World)
    (m : selinux_module_t) (hm : init_selinux_module cfg sa = some m)
    (hte : w.file_exists m.selinux_te_file = false) :
    remove_selinux_rules env cfg sa w
      = some (-ENOENT, w.log (.remove_file m.selinux_te_file (-ENOENT))) ∧
    -ENOENT < 0 := by
  have h1 : (remove_file env m.selinux_te_file w).1 = -ENOENT := by
    rw [remove_file_fst]
    simp [hte]
  have hneg : -ENOENT < 0 := by decide
  have h2 : (remove_file env m.selinux_te_file w).2
      = w.log (.remove_file m.selinux_te_file (-ENOENT)) := by
    rw [remove_file_snd, h1, if_pos hneg]
  have h3 : remove_app_module_files env m w = (-ENOENT, w.log (.remove_file m.selinux_te_file
      (-ENOENT))) := by
    unfold remove_app_module_files
    simp only [h1, if_pos hneg]
    exact Prod.ext h1 h2
  refine ⟨?_, hneg⟩
  simp only [remove_selinux_rules, hm, remove_selinux_rules_with, h3, if_pos hneg]

/-- C12 amended, at `demo` when only its te file is missing: the uninstall returns
-2, and the if, fc and pp files and the module are left as they were. -/
theorem remove_selinux_rules_absent_witness :
    init_selinux_module sample_cfg demo_app = some demo_module ∧
    probe_world.file_exists demo_module.selinux_te_file = false ∧
    (remove_selinux_rules all_ok sample_cfg demo_app probe_world).map
      (fun r => (r.1, r.2.trace, r.2.modules))
      = some (-2, [Event.remove_file demo_module.selinux_te_file (-2)], ["demo".toList]) ∧
    (remove_selinux_rules all_ok sample_cfg demo_app probe_world).map
      (fun r => (r.2.file_exists demo_module.selinux_if_file,
        r.2.file_exists demo_module.selinux_fc_file,
        r.2.file_exists demo_module.selinux_pp_file))
      = some (true, true, true) := by
  have hm : init_selinux_module sample_cfg demo_app = some demo_module := by decide
  have hte : probe_world.file_exists demo_module.selinux_te_file = false := by decide
  refine ⟨hm, hte, ?_, ?_⟩ <;>
    rw [(remove_selinux_rules_absent all_ok sample_cfg demo_app probe_world demo_module hm
      hte).1] <;>
    decide

/-! ## C13: the error flag -/

theorem process_template_error_flag (env : Env) (t d : CStr) (sa : secure_app_t) (flag : Bool)
    (w : World)
    (hexp : ∀ t, env.expansion t { sa with error_flag := flag } = env.expansion t sa) :
    process_template env t d { sa with error_flag := flag } w = process_template env t d sa w := by
  unfold process_template
  rw [hexp]

theorem generate_app_module_files_error_flag (env : Env) (cfg : Config) (m : selinux_module_t)
    (sa : secure_app_t) (flag : Bool) (tbl : label_table) (w : World)
    (hexp : ∀ t, env.expansion t { sa with error_flag := flag } = env.expansion t sa) :
    generate_app_module_files env cfg m { sa with error_flag := flag } tbl w
      = generate_app_module_files env cfg m sa tbl w := by
  unfold generate_app_module_files
  simp only [process_template_error_flag env _ _ sa flag _ hexp]
  rfl

/-- C13 as stated fails: `demo` with its error flag set, in an environment in which
every call succeeds, is installed: the call returns the value of the commit (1),
the four artefacts are on disk and the module is in the store. -/
theorem create_selinux_rules_installs_flagged :
    flagged_app.error_flag = true ∧
    (create_selinux_rules all_ok sample_cfg flagged_app demo_table empty_world).map
      (fun r => (r.1, r.2.modules)) = some (1, ["demo".toList]) ∧
    (create_selinux_rules all_ok sample_cfg flagged_app demo_table empty_world).map
      (fun r => (r.2.file_exists demo_module.selinux_te_file,
        r.2.file_exists demo_module.selinux_if_file,
        r.2.file_exists demo_module.selinux_fc_file,
        r.2.file_exists demo_module.selinux_pp_file))
      = some (true, true, true, true) := by
  decide

/-- C13, amended. `create_selinux_rules` does not consult the error flag: with a
template expansion that does not depend on the flag, the call on an application
with the flag set to any value returns the same value and leaves the same state
(artefacts, module store, handle, calls made) as the call on the same
application with its own flag. -/
theorem create_selinux_rules_error_flag (env : Env) (cfg : Config) (sa : secure_app_t)
    (flag : Bool) (tbl : label_table) (w : World)
    (hexp : ∀ t, env.expansion t { sa with error_flag := flag } = env.expansion t sa) :
    create_selinux_rules env cfg { sa with error_flag := flag } tbl w
      = create_selinux_rules env cfg sa tbl w := by
  have hinit : init_selinux_module cfg { sa with error_flag := flag }
      = init_selinux_module cfg sa := rfl
  unfold create_selinux_rules
  rw [hinit]
  cases init_selinux_module cfg sa with
  | none => rfl
  | some m =>
    simp only
    unfold create_selinux_rules_with
    cases create_semanage_handle env w with
    | none => rfl
    | some h =>
      simp only
      split
      · rfl
      · unfold create_selinux_rules_steps
        simp only [generate_app_module_files_error_flag env cfg m sa flag tbl _ hexp]

/-- C13 amended, at `demo`: with the flag set the install gives the same result as
with the flag clear, a loaded module. -/
theorem create_selinux_rules_error_flag_witness :
    (create_selinux_rules all_ok sample_cfg { demo_app with error_flag := true } demo_table
        empty_world).map (fun r => (r.1, r.2.modules)) = some (1, ["demo".toList]) := by
  rw [create_selinux_rules_error_flag all_ok sample_cfg demo_app true demo_table empty_world
    (fun _ => rfl)]
  decide

/-! ## C15: creation of the handle -/

theorem create_semanage_handle_of_null (env : Env) (w : World)
    (h : env.semanage_handle_create = false) : create_semanage_handle env w = none := by
  simp [create_semanage_handle, semanage_handle_create, semanage_set_create_store, h]

/-- C15 fails on the code. When `semanage_handle_create` returns NULL the test
`semanage_handle == NULL` does not see it: `semanage_set_create_store` is called
on the NULL handle and `create_semanage_handle` returns no negative error (it
has no result). When `semanage_connect` fails with `errno` at 0, the handle is
destroyed and 0 is returned. -/
theorem create_semanage_handle_null :
    (semanage_handle_create null_handle empty_world).handle = none ∧
    (semanage_set_create_store 1 (semanage_handle_create null_handle empty_world)).isNone
      = true ∧
    (create_semanage_handle null_handle empty_world).map Prod.fst = none ∧
    (create_semanage_handle connect_errno_zero empty_world).map (fun r => (r.1, r.2.handle))
      = some (0, none) := by
  decide

/-! ## C11: one handle, destroyed once -/

/-- C11 fails on the code. With `semanage_connect` failing while `errno` is 0,
`create_semanage_handle` destroys the handle it created and returns 0; its
callers take this for a success and go on with the destroyed handle: after a
failed generation `create_selinux_rules` reaches `destroy_semanage_handle` a
second time, `remove_selinux_rules` and `check_module_in_policy` hand the
destroyed handle to the store. None of the three runs has a result. -/
theorem destroyed_handle_used_again :
    (create_semanage_handle connect_errno_zero_template_fails empty_world).map
      (fun r => (r.1, r.2.handle, handle_events r.2.trace)) = some (0, none, [true, false]) ∧
    ((create_semanage_handle connect_errno_zero_template_fails empty_world).bind
      (fun h => destroy_semanage_handle connect_errno_zero_template_fails
        (generate_app_module_files connect_errno_zero_template_fails sample_cfg demo_module
          demo_app demo_table h.2).2)).isNone = true ∧
    (create_selinux_rules connect_errno_zero_template_fails sample_cfg demo_app demo_table
      empty_world).isNone = true ∧
    (remove_selinux_rules connect_errno_zero sample_cfg demo_app installed_world).isNone
      = true ∧
    (check_module_in_policy connect_errno_zero demo_app installed_world).isNone = true := by
  decide

/-! ## C16: install, then uninstall -/

/-- C16 fails on the code. From the state left by an install of `demo`, with
`semanage_module_remove` failing while `errno` is 0, `remove_module` computes
`rc = -errno = 0`: `remove_selinux_rules` returns 0, the four files are gone, and
the module `demo` is still in the store. -/
theorem remove_selinux_rules_zero_module_left :
    (module_remove_errno_zero.semanage_module_remove demo_app.id).ret < 0 ∧
    (remove_selinux_rules module_remove_errno_zero sample_cfg demo_app installed_world).map
      (fun r => (r.1, r.2.modules, removals r.2.trace))
      = some (0, ["demo".toList], [demo_module.selinux_te_file, demo_module.selinux_if_file,
          demo_module.selinux_fc_file, demo_module.selinux_pp_file]) ∧
    (remove_selinux_rules module_remove_errno_zero sample_cfg demo_app installed_world).map
      (fun r => (r.2.file_exists demo_module.selinux_te_file,
        r.2.file_exists demo_module.selinux_if_file,
        r.2.file_exists demo_module.selinux_fc_file,
        r.2.file_exists demo_module.selinux_pp_file))
      = some (false, false, false, false) := by
  decide

/-! ## Creations and destructions of the handle along a run -/

theorem handle_events_append (a b : List Event) :
    handle_events (a ++ b) = handle_events a ++ handle_events b := by
  induction a with
  | nil => rfl
  | cons e es ih =>
    cases e <;> simp [handle_events, ih]
    split <;> simp

theorem handle_events_log (w : World) (e : Event) :
    handle_events (w.log e).trace = handle_events w.trace ++ handle_events [e] := by
  rw [log_trace, handle_events_append]

theorem process_template_handle_events (env : Env) (t d : CStr) (sa : secure_app_t)
    (w : World) :
    handle_events (process_template env t d sa w).2.trace = handle_events w.trace := by
  simp [process_template_trace, handle_events_append, handle_events]

theorem remove_file_handle_events (env : Env) (q : CStr) (w : World) :
    handle_events (remove_file env q w).2.trace = handle_events w.trace := by
  simp [remove_file_trace, handle_events_append, handle_events]

theorem launch_compile_handle_events (env : Env) (pp id : CStr) (w : World) :
    handle_events (launch_compile env pp id w).2.trace = handle_events w.trace := by
  simp [launch_compile_trace, handle_events_append, handle_events]

theorem remove_app_module_files_handle_events (env : Env) (m : selinux_module_t) (w : World) :
    handle_events (remove_app_module_files env m w).2.trace = handle_events w.trace := by
  unfold remove_app_module_files
  simp only
  split
  · simp [remove_file_handle_events]
  · split <;> simp [remove_file_handle_events]

theorem remove_pp_file_handle_events (env : Env) (m : selinux_module_t) (w : World) :
    handle_events (remove_pp_file env m w).2.trace = handle_events w.trace :=
  remove_file_handle_events env _ w

theorem generate_app_module_fc_loop_handle_events (env : Env) (cfg : Config)
    (tbl : label_table) (paths : List path_t) :
    ∀ (i : Nat) (stream : CStr) (w : World),
      handle_events (generate_app_module_fc_loop env cfg tbl i paths stream w).2.2.trace
        = handle_events w.trace := by
  induction paths with
  | nil => intro i stream w; rfl
  | cons q rest ih =>
    intro i stream w
    simp only [generate_app_module_fc_loop]
    split
    · simp [handle_events_append, handle_events]
    · rw [ih]
      simp [handle_events_append, handle_events]

theorem generate_app_module_fc_handle_events (env : Env) (cfg : Config) (fc : CStr)
    (sa : secure_app_t) (tbl : label_table) (w : World) :
    handle_events (generate_app_module_fc env cfg fc sa tbl w).2.trace
      = handle_events w.trace := by
  unfold generate_app_module_fc
  split
  · simp [handle_events_append, handle_events]
  · simp [fclose_trace, handle_events_append, handle_events,
      generate_app_module_fc_loop_handle_events]

theorem generate_app_module_files_handle_events (env : Env) (cfg : Config)
    (m : selinux_module_t) (sa : secure_app_t) (tbl : label_table) (w : World) :
    handle_events (generate_app_module_files env cfg m sa tbl w).2.trace
      = handle_events w.trace := by
  rcases generate_app_module_files_cases env cfg m sa tbl w with
    ⟨_, e⟩ | ⟨_, _, e⟩ | ⟨_, _, _, e⟩ | ⟨_, _, _, e⟩ <;>
    simp [e, remove_file_handle_events, generate_app_module_fc_handle_events,
      process_template_handle_events]

theorem destroy_semanage_handle_handle_events (env : Env) (w : World) (r : Int × World)
    (h : destroy_semanage_handle env w = some r) :
    handle_events r.2.trace = handle_events w.trace ++ [false] := by
  unfold destroy_semanage_handle at h
  cases hh : w.handle with
  | none => simp [hh] at h
  | some hd =>
    simp only [hh] at h
    split at h
    · simp only [Option.some.injEq] at h
      subst h
      simp only [semanage_disconnect, semanage_handle_destroy]
      split <;> simp [handle_events_append, handle_events]
    · simp only [Option.some.injEq] at h
      subst h
      simp [semanage_handle_destroy, handle_events_append, handle_events]

theorem install_module_handle_events (env : Env) (pp : CStr) (w : World) (i : Int × World)
    (h : install_module env pp w = some i) :
    handle_events i.2.trace = handle_events w.trace := by
  unfold install_module at h
  cases hs : semanage_module_install_file env pp w with
  | none => simp [hs] at h
  | some f =>
    have e1 : handle_events f.2.trace = handle_events w.trace := by
      unfold semanage_module_install_file at hs
      split at hs
      · simp at hs
      · split at hs
        · simp only [Option.some.injEq] at hs
          subst hs
          simp [handle_events_append, handle_events]
        · simp only at hs
          split at hs <;>
            · simp only [Option.some.injEq] at hs
              subst hs
              simp [handle_events_append, handle_events]
    simp only [hs] at h
    split at h
    · simp only [Option.some.injEq] at h
      subst h
      exact e1
    · cases hc : semanage_commit env f.2 with
      | none => simp [hc] at h
      | some c =>
        have e2 : handle_events c.2.trace = handle_events f.2.trace := by
          unfold semanage_commit at hc
          split at hc
          · simp at hc
          · simp only at hc
            split at hc <;>
              · simp only [Option.some.injEq] at hc
                subst hc
                simp [handle_events_append, handle_events]
        simp only [hc] at h
        split at h <;>
          · simp only [Option.some.injEq] at h
            subst h
            simp only [e2, e1]

theorem create_semanage_handle_error_handle_events (env : Env) (rc : Int) (w : World)
    (r : Int × World) (h : create_semanage_handle_error env rc w = some r) :
    handle_events r.2.trace = handle_events w.trace ++ [false] := by
  unfold create_semanage_handle_error at h
  cases hd : destroy_semanage_handle env w with
  | none => simp [hd] at h
  | some d =>
    simp only [hd, Option.some.injEq] at h
    subst h
    exact destroy_semanage_handle_handle_events env w d hd

theorem create_semanage_handle_cases (env : Env) (w : World) (r : Int × World)
    (h : create_semanage_handle env w = some r) :
    env.semanage_handle_create = true ∧
    ((0 ≤ env.semanage_connect.ret ∧ env.semanage_set_default_priority.ret = 0 ∧ r.1 = 0 ∧
        r.2.handle = some { create_store := true, is_connected := true,
                            default_priority := some 400, pending := [] } ∧
        handle_events r.2.trace = handle_events w.trace ++ [true]) ∨
     (env.semanage_connect.ret < 0 ∧ r.1 = -env.semanage_connect.errno ∧ r.2.handle = none ∧
        handle_events r.2.trace = handle_events w.trace ++ [true, false]) ∨
     (0 ≤ env.semanage_connect.ret ∧ env.semanage_set_default_priority.ret ≠ 0 ∧
        r.1 = -env.semanage_set_default_priority.errno ∧ r.2.handle = none ∧
        handle_events r.2.trace = handle_events w.trace ++ [true, false])) := by
  by_cases hc : env.semanage_handle_create = true
  · refine ⟨hc, ?_⟩
    simp only [create_semanage_handle, semanage_handle_create, hc, if_true,
      semanage_set_create_store, log_handle, semanage_connect] at h
    by_cases hcon : env.semanage_connect.ret < 0
    · right; left
      simp only [if_pos hcon] at h
      obtain ⟨e1, _, _, e4, _⟩ := create_semanage_handle_error_some env _ _ _ h
      have e5 := create_semanage_handle_error_handle_events env _ _ _ h
      refine ⟨hcon, e1, e4, ?_⟩
      rw [e5]
      simp [handle_events_append, handle_events]
    · simp only [if_neg hcon, semanage_set_default_priority, log_handle] at h
      by_cases hpr : env.semanage_set_default_priority.ret ≠ 0
      · right; right
        simp only [if_pos hpr] at h
        obtain ⟨e1, _, _, e4, _⟩ := create_semanage_handle_error_some env _ _ _ h
        have e5 := create_semanage_handle_error_handle_events env _ _ _ h
        refine ⟨not_lt.mp hcon, hpr, e1, e4, ?_⟩
        rw [e5]
        simp [handle_events_append, handle_events]
      · left
        simp only [if_neg hpr, Option.some.injEq] at h
        subst h
        have hz : env.semanage_set_default_priority.ret = 0 := not_not.mp hpr
        refine ⟨not_lt.mp hcon, hz, hz, ?_, ?_⟩
        · simp
        · simp [handle_events_append, handle_events]
  · have hf : env.semanage_handle_create = false := by
      cases hb : env.semanage_handle_create
      · rfl
      · exact absurd hb hc
    rw [create_semanage_handle_of_null env w hf] at h
    simp at h

theorem create_selinux_rules_end2_handle_events (env : Env) (rc : Int) (w : World)
    (r : Int × World) (h : create_selinux_rules_end2 env rc w = some r) :
    handle_events r.2.trace = handle_events w.trace ++ [false] := by
  unfold create_selinux_rules_end2 at h
  cases hd : destroy_semanage_handle env w with
  | none => simp [hd] at h
  | some d =>
    simp only [hd, Option.some.injEq] at h
    subst h
    exact destroy_semanage_handle_handle_events env w d hd

theorem create_selinux_rules_steps_handle_events (env : Env) (cfg : Config)
    (m : selinux_module_t) (sa : secure_app_t) (tbl : label_table) (w : World)
    (r : Int × World) (h : create_selinux_rules_steps env cfg m sa tbl w = some r) :
    handle_events r.2.trace = handle_events w.trace ++ [false] := by
  have hg := generate_app_module_files_handle_events env cfg m sa tbl w
  have hc := launch_compile_handle_events env m.selinux_pp_file sa.id
    (generate_app_module_files env cfg m sa tbl w).2
  unfold create_selinux_rules_steps at h
  simp only at h
  split at h
  · rw [create_selinux_rules_end2_handle_events env _ _ _ h, hg]
  · split at h
    · rw [create_selinux_rules_end2_handle_events env _ _ _ h,
        remove_app_module_files_handle_events, hc, hg]
    · cases hi : install_module env m.selinux_pp_file
          (launch_compile env m.selinux_pp_file sa.id
            (generate_app_module_files env cfg m sa tbl w).2).2 with
      | none => simp [hi] at h
      | some i =>
        have e := install_module_handle_events env _ _ i hi
        simp only [hi] at h
        split at h
        · rw [create_selinux_rules_end2_handle_events env _ _ _ h,
            remove_app_module_files_handle_events, remove_pp_file_handle_events, e, hc, hg]
        · rw [create_selinux_rules_end2_handle_events env _ _ _ h, e, hc, hg]

theorem create_selinux_rules_handle_events (env : Env) (cfg : Config) (sa : secure_app_t)
    (tbl : label_table) (w : World) (r : Int × World)
    (h : create_selinux_rules env cfg sa tbl w = some r) :
    handle_events r.2.trace = handle_events w.trace ++ [true, false] := by
  unfold create_selinux_rules at h
  cases hm : init_selinux_module cfg sa with
  | none => simp [hm] at h
  | some m =>
    simp only [hm] at h
    unfold create_selinux_rules_with at h
    cases hh : create_semanage_handle env w with
    | none => simp [hh] at h
    | some c =>
      simp only [hh] at h
      obtain ⟨_, hcase⟩ := create_semanage_handle_cases env w c hh
      by_cases hneg : c.1 < 0
      · rw [if_pos hneg, Option.some.injEq] at h
        subst h
        rcases hcase with ⟨_, _, hz, _, _⟩ | ⟨_, _, _, e⟩ | ⟨_, _, _, _, e⟩
        · rw [hz] at hneg
          exact absurd hneg (by decide)
        · exact e
        · exact e
      · rw [if_neg hneg] at h
        rcases hcase with ⟨_, _, _, _, e⟩ | ⟨_, _, e, _⟩ | ⟨_, _, _, e, _⟩
        · rw [create_selinux_rules_steps_handle_events env cfg m sa tbl c.2 r h, e]
          simp
        · rw [create_selinux_rules_steps_none env cfg m sa tbl c.2 e] at h
          simp at h
        · rw [create_selinux_rules_steps_none env cfg m sa tbl c.2 e] at h
          simp at h

theorem remove_module_none (env : Env) (name : CStr) (w : World) (hs : env.strdupa = true)
    (h : w.handle = none) : remove_module env name w = none := by
  simp [remove_module, hs, semanage_module_remove, h]

theorem remove_module_some (env : Env) (name : CStr) (w : World) (r : Int × World)
    (h : remove_module env name w = some r) :
    handle_events r.2.trace = handle_events w.trace ∧ r.2.files = w.files ∧
    removals r.2.trace = removals w.trace ∧
    (w.handle = none → r.2.handle = none) := by
  unfold remove_module at h
  split at h
  · simp only [Option.some.injEq] at h
    subst h
    exact ⟨rfl, rfl, rfl, fun e => e⟩
  · cases hs : semanage_module_remove env name w with
    | none => simp [hs] at h
    | some f =>
      have hw : w.handle ≠ none := by
        intro e
        simp [semanage_module_remove, e] at hs
      have e1 : handle_events f.2.trace = handle_events w.trace ∧ f.2.files = w.files ∧
          removals f.2.trace = removals w.trace := by
        unfold semanage_module_remove at hs
        cases hh : w.handle with
        | none => exact absurd hh hw
        | some hd =>
          simp only [hh] at hs
          generalize (if name ∈ w.modules then env.semanage_module_remove name
            else ({ ret := -1, errno := ENOENT } : Outcome)) = o at hs
          by_cases ho : o.ret < 0
          · rw [if_pos ho, Option.some.injEq] at hs
            subst hs
            simp [World.log, handle_events_append, handle_events, removals_append, removals]
          · rw [if_neg ho, Option.some.injEq] at hs
            subst hs
            simp [World.log, handle_events_append, handle_events, removals_append, removals]
      simp only [hs] at h
      split at h
      · simp only [Option.some.injEq] at h
        subst h
        exact ⟨e1.1, e1.2.1, e1.2.2, fun e => absurd e hw⟩
      · cases hc : semanage_commit env f.2 with
        | none => simp [hc] at h
        | some c =>
          have e2 : handle_events c.2.trace = handle_events f.2.trace ∧ c.2.files = f.2.files ∧
              removals c.2.trace = removals f.2.trace := by
            unfold semanage_commit at hc
            cases hh : f.2.handle with
            | none => simp [hh] at hc
            | some hd =>
              simp only [hh] at hc
              by_cases ho : env.semanage_commit.ret < 0
              · rw [if_pos ho, Option.some.injEq] at hc
                subst hc
                simp [World.log, handle_events_append, handle_events, removals_append,
                  removals]
              · rw [if_neg ho, Option.some.injEq] at hc
                subst hc
                simp [World.log, handle_events_append, handle_events, removals_append,
                  removals]
          simp only [hc] at h
          split at h <;>
            · simp only [Option.some.injEq] at h
              subst h
              exact ⟨e2.1.trans e1.1, e2.2.1.trans e1.2.1, e2.2.2.trans e1.2.2,
                fun e => absurd e hw⟩

theorem remove_selinux_rules_policy_handle_events (env : Env) (sa : secure_app_t) (w : World)
    (r : Int × World) (h : remove_selinux_rules_policy env sa w = some r) :
    handle_events r.2.trace = handle_events w.trace ++ [true, false] := by
  unfold remove_selinux_rules_policy at h
  cases hh : create_semanage_handle env w with
  | none => simp [hh] at h
  | some c =>
    simp only [hh] at h
    obtain ⟨_, hcase⟩ := create_semanage_handle_cases env w c hh
    by_cases hneg : c.1 < 0
    · rw [if_pos hneg, Option.some.injEq] at h
      subst h
      rcases hcase with ⟨_, _, hz, _, _⟩ | ⟨_, _, _, e⟩ | ⟨_, _, _, _, e⟩
      · rw [hz] at hneg
        exact absurd hneg (by decide)
      · exact e
      · exact e
    · rw [if_neg hneg] at h
      cases hr : remove_module env sa.id c.2 with
      | none => simp [hr] at h
      | some rm =>
        simp only [hr] at h
        obtain ⟨e1, _, _, e4⟩ := remove_module_some env sa.id c.2 rm hr
        cases hd : destroy_semanage_handle env rm.2 with
        | none => simp [hd] at h
        | some d =>
          simp only [hd, Option.some.injEq] at h
          subst h
          have e5 := destroy_semanage_handle_handle_events env rm.2 d hd
          rcases hcase with ⟨_, _, _, _, e⟩ | ⟨_, _, e, _⟩ | ⟨_, _, _, e, _⟩
          · simp only [e5, e1, e]
            simp
          · rw [destroy_semanage_handle_none env rm.2 (e4 e)] at hd
            simp at hd
          · rw [destroy_semanage_handle_none env rm.2 (e4 e)] at hd
            simp at hd

theorem remove_selinux_rules_handle_events (env : Env) (cfg : Config) (sa : secure_app_t)
    (w : World) (r : Int × World) (h : remove_selinux_rules env cfg sa w = some r) :
    handle_events r.2.trace = handle_events w.trace ∨
    handle_events r.2.trace = handle_events w.trace ++ [true, false] := by
  unfold remove_selinux_rules at h
  cases hm : init_selinux_module cfg sa with
  | none => simp [hm] at h
  | some m =>
    simp only [hm] at h
    unfold remove_selinux_rules_with at h
    simp only at h
    split at h
    · left
      simp only [Option.some.injEq] at h
      subst h
      exact remove_app_module_files_handle_events env m w
    · split at h
      · left
        simp only [Option.some.injEq] at h
        subst h
        rw [remove_pp_file_handle_events, remove_app_module_files_handle_events]
      · right
        rw [remove_selinux_rules_policy_handle_events env sa _ r h,
          remove_pp_file_handle_events, remove_app_module_files_handle_events]

theorem free_module_info_list_loop_handle_events (n : Nat) :
    ∀ (i : Nat) (w : World),
      handle_events (free_module_info_list_loop i n w).trace = handle_events w.trace ∧
      (free_module_info_list_loop i n w).handle = w.handle := by
  induction n with
  | zero =>
    intro i w
    exact ⟨rfl, rfl⟩
  | succ n ih =>
    intro i w
    show handle_events (free_module_info_list_loop (i + 1) n _).trace = _ ∧
      (free_module_info_list_loop (i + 1) n _).handle = _
    obtain ⟨a, b⟩ := ih (i + 1) (w.log (.semanage_module_info_destroy i))
    rw [a, b]
    simp [World.log, handle_events_append, handle_events]

theorem free_module_info_list_handle_events (n : Nat) (w : World) :
    handle_events (free_module_info_list n w).trace = handle_events w.trace ∧
    (free_module_info_list n w).handle = w.handle := by
  obtain ⟨a, b⟩ := free_module_info_list_loop_handle_events n 0 w
  unfold free_module_info_list
  constructor
  · rw [← a]
    simp [World.log, handle_events_append, handle_events]
  · rw [← b]
    rfl

theorem check_module_loop_handle_events (env : Env) (id : CStr) (l : List CStr) :
    ∀ (i : Nat) (w : World),
      handle_events (check_module_loop env id i l w).2.trace = handle_events w.trace ∧
      (check_module_loop env id i l w).2.handle = w.handle := by
  induction l with
  | nil =>
    intro i w
    exact ⟨rfl, rfl⟩
  | cons m rest ih =>
    intro i w
    unfold check_module_loop
    simp only
    split
    · simp [World.log, handle_events_append, handle_events]
    · split
      · simp [World.log, handle_events_append, handle_events]
      · obtain ⟨a, b⟩ := ih (i + 1)
          (w.log (.semanage_module_info_get_name i (env.semanage_module_info_get_name i).ret))
        rw [a, b]
        simp [World.log, handle_events_append, handle_events]

theorem check_module_handle_events (env : Env) (id : CStr) (w : World) (r : Bool × World)
    (h : check_module env id w = some r) :
    handle_events r.2.trace = handle_events w.trace ∧ r.2.handle = w.handle := by
  unfold check_module at h
  cases hl : semanage_module_list env w with
  | none => simp [hl] at h
  | some l =>
    have e : handle_events l.2.2.trace = handle_events w.trace ∧ l.2.2.handle = w.handle := by
      unfold semanage_module_list at hl
      cases hh : w.handle with
      | none => simp [hh] at hl
      | some hd =>
        simp only [hh] at hl
        by_cases ho : env.semanage_module_list.ret < 0
        · rw [if_pos ho, Option.some.injEq] at hl
          subst hl
          simp [World.log, handle_events_append, handle_events, hh]
        · rw [if_neg ho, Option.some.injEq] at hl
          subst hl
          simp [World.log, handle_events_append, handle_events, hh]
    simp only [hl] at h
    split at h
    · simp only [Option.some.injEq] at h
      subst h
      obtain ⟨a, b⟩ := free_module_info_list_handle_events l.2.1.length l.2.2
      exact ⟨a.trans e.1, b.trans e.2⟩
    · simp only [Option.some.injEq] at h
      subst h
      obtain ⟨a, b⟩ := free_module_info_list_handle_events l.2.1.length
        (check_module_loop env id 0 l.2.1 l.2.2).2
      obtain ⟨c, d⟩ := check_module_loop_handle_events env id l.2.1 0 l.2.2
      exact ⟨a.trans (c.trans e.1), b.trans (d.trans e.2)⟩

theorem check_module_in_policy_handle_events (env : Env) (sa : secure_app_t) (w : World)
    (r : Bool × World) (h : check_module_in_policy env sa w = some r) :
    handle_events r.2.trace = handle_events w.trace ++ [true, false] := by
  unfold check_module_in_policy at h
  cases hh : create_semanage_handle env w with
  | none => simp [hh] at h
  | some c =>
    simp only [hh] at h
    obtain ⟨_, hcase⟩ := create_semanage_handle_cases env w c hh
    by_cases hneg : c.1 < 0
    · rw [if_pos hneg, Option.some.injEq] at h
      subst h
      rcases hcase with ⟨_, _, hz, _, _⟩ | ⟨_, _, _, e⟩ | ⟨_, _, _, _, e⟩
      · rw [hz] at hneg
        exact absurd hneg (by decide)
      · exact e
      · exact e
    · rw [if_neg hneg] at h
      cases hr : check_module env sa.id c.2 with
      | none => simp [hr] at h
      | some cm =>
        simp only [hr] at h
        obtain ⟨e1, e4⟩ := check_module_handle_events env sa.id c.2 cm hr
        cases hd : destroy_semanage_handle env cm.2 with
        | none => simp [hd] at h
        | some d =>
          simp only [hd, Option.some.injEq] at h
          subst h
          have e5 := destroy_semanage_handle_handle_events env cm.2 d hd
          rcases hcase with ⟨_, _, _, _, e⟩ | ⟨_, _, e, _⟩ | ⟨_, _, _, e, _⟩
          · simp only [e5, e1, e]
            simp
          · rw [destroy_semanage_handle_none env cm.2 (e4.trans e)] at hd
            simp at hd
          · rw [destroy_semanage_handle_none env cm.2 (e4.trans e)] at hd
            simp at hd

/-! ## Uninstall that returns 0 -/

theorem create_semanage_handle_success (env : Env) (w : World)
    (hcr : env.semanage_handle_create = true) (hco : 0 ≤ env.semanage_connect.ret)
    (hp : env.semanage_set_default_priority.ret = 0) :
    create_semanage_handle env w = some (0,
      { files := w.files, modules := w.modules,
        handle := some { create_store := true, is_connected := true,
                         default_priority := some 400, pending := [] },
        trace := w.trace ++ [.semanage_handle_create true, .semanage_set_create_store 1,
          .semanage_connect env.semanage_connect.ret,
          .semanage_set_default_priority 400 0] }) := by
  simp [create_semanage_handle, semanage_handle_create, semanage_set_create_store,
    semanage_connect, semanage_set_default_priority, World.log, hcr, not_lt.mpr hco, hp]

theorem remove_selinux_rules_policy_zero (env : Env) (sa : secure_app_t) (w w2 : World)
    (hr : (env.semanage_module_remove sa.id).ret < 0 →
      (env.semanage_module_remove sa.id).errno ≠ 0)
    (hc : env.semanage_commit.ret < 0 → env.semanage_commit.errno ≠ 0)
    (h : remove_selinux_rules_policy env sa w = some (0, w2)) :
    sa.id ∈ w.modules ∧ w2.files = w.files ∧
    w2.modules = w.modules.filter (fun m => m ≠ sa.id) ∧ w2.handle = none ∧
    w2.trace = w.trace ++ [.semanage_handle_create true, .semanage_set_create_store 1,
      .semanage_connect env.semanage_connect.ret, .semanage_set_default_priority 400 0,
      .semanage_module_remove sa.id (env.semanage_module_remove sa.id).ret,
      .semanage_commit 0, .semanage_disconnect env.semanage_disconnect.ret,
      .semanage_handle_destroy] := by
  unfold remove_selinux_rules_policy at h
  cases hh : create_semanage_handle env w with
  | none => simp [hh] at h
  | some c =>
    obtain ⟨hcr, hcase⟩ := create_semanage_handle_cases env w c hh
    have hbad : c.2.handle = none → False := by
      intro e
      simp only [hh] at h
      split at h
      · rename_i hneg
        simp only [Option.some.injEq] at h
        rw [h] at hneg
        exact lt_irrefl (0 : Int) hneg
      · cases hrm : remove_module env sa.id c.2 with
        | none => simp [hrm] at h
        | some rm =>
          simp only [hrm] at h
          obtain ⟨_, _, _, e4⟩ := remove_module_some env sa.id c.2 rm hrm
          rw [destroy_semanage_handle_none env rm.2 (e4 e)] at h
          simp at h
    rcases hcase with ⟨hco, hp, _, _, _⟩ | ⟨_, _, e, _⟩ | ⟨_, _, _, e, _⟩
    · rw [create_semanage_handle_success env w hcr hco hp] at h
      simp only [lt_irrefl, if_false] at h
      by_cases hs : env.strdupa = false
      · simp [remove_module, hs, destroy_semanage_handle, semanage_disconnect,
          semanage_handle_destroy, ENOMEM] at h
      · by_cases hin : sa.id ∈ w.modules
        · by_cases hneg : (env.semanage_module_remove sa.id).ret < 0
          · have := hr hneg
            simp [remove_module, hs, semanage_module_remove, hin, hneg, World.log,
              destroy_semanage_handle, semanage_disconnect, semanage_handle_destroy] at h
            split at h <;> simp at h <;> omega
          · by_cases hcn : env.semanage_commit.ret < 0
            · have := hc hcn
              simp [remove_module, hs, semanage_module_remove, hin, hneg, World.log,
                semanage_commit, hcn,
                destroy_semanage_handle, semanage_disconnect, semanage_handle_destroy] at h
              split at h <;> simp at h <;> omega
            · simp [remove_module, hs, semanage_module_remove, hin, hneg, World.log,
                semanage_commit, hcn,
                destroy_semanage_handle, semanage_disconnect, semanage_handle_destroy] at h
              obtain ⟨hz, hw⟩ := h
              subst hw
              refine ⟨hin, ?_⟩
              by_cases hd : env.semanage_disconnect.ret < 0
              · simp [hd, hz, apply_store_op]
              · simp [hd, hz, apply_store_op]
        · simp [remove_module, hs, semanage_module_remove, hin, World.log, ENOENT,
            destroy_semanage_handle, semanage_disconnect, semanage_handle_destroy] at h
    · exact (hbad e).elim
    · exact (hbad e).elim

theorem remove_file_ok (env : Env) (q : CStr) (w : World)
    (h : ¬ (remove_file env q w).1 < 0) :
    (remove_file env q w).2.trace = w.trace ++ [Event.remove_file q (env.remove_file q)] ∧
    (remove_file env q w).2.files q = none := by
  have h1 : (remove_file env q w).1 = env.remove_file q := by
    have e := remove_file_fst env q w
    by_cases hx : w.file_exists q = true
    · rw [if_pos hx] at e
      exact e
    · rw [if_neg hx] at e
      rw [e] at h
      exact absurd (by decide) h
  constructor
  · rw [remove_file_trace, h1]
  · exact remove_file_files_removed env q w (not_lt.mp h)

theorem remove_app_module_files_ok (env : Env) (m : selinux_module_t) (w : World)
    (h : ¬ (remove_app_module_files env m w).1 < 0) :
    (remove_app_module_files env m w).2.trace = w.trace ++
      [Event.remove_file m.selinux_te_file (env.remove_file m.selinux_te_file),
       Event.remove_file m.selinux_if_file (env.remove_file m.selinux_if_file),
       Event.remove_file m.selinux_fc_file (env.remove_file m.selinux_fc_file)] ∧
    (remove_app_module_files env m w).2.files m.selinux_te_file = none ∧
    (remove_app_module_files env m w).2.files m.selinux_if_file = none ∧
    (remove_app_module_files env m w).2.files m.selinux_fc_file = none := by
  unfold remove_app_module_files at h ⊢
  simp only at h ⊢
  by_cases h1 : (remove_file env m.selinux_te_file w).1 < 0
  · rw [if_pos h1] at h
    exact absurd h1 h
  · rw [if_neg h1] at h ⊢
    by_cases h2 : (remove_file env m.selinux_if_file (remove_file env m.selinux_te_file w).2).1 < 0
    · rw [if_pos h2] at h
      exact absurd h2 h
    · rw [if_neg h2] at h ⊢
      obtain ⟨t1, f1⟩ := remove_file_ok env _ _ h1
      obtain ⟨t2, f2⟩ := remove_file_ok env _ _ h2
      obtain ⟨t3, f3⟩ := remove_file_ok env _ _ h
      refine ⟨?_, ?_, ?_, f3⟩
      · rw [t3, t2, t1]
        simp
      · exact remove_file_files_mono env _ _ _ (remove_file_files_mono env _ _ _ f1)
      · exact remove_file_files_mono env _ _ _ f2

/-- An uninstall that returns 0, when a failing `semanage_module_remove` or
`semanage_commit` leaves a nonzero `errno`: the te, if and fc files were removed
in this order, then the pp file, then the module was removed through a handle
created and destroyed once; none of the four files is left and the module is
not in the store. -/
theorem remove_selinux_rules_zero_sound (env : Env) (cfg : Config) (sa : secure_app_t)
    (w w2 : World) (m : selinux_module_t) (hm : init_selinux_module cfg sa = some m)
    (hr : (env.semanage_module_remove sa.id).ret < 0 →
      (env.semanage_module_remove sa.id).errno ≠ 0)
    (hc : env.semanage_commit.ret < 0 → env.semanage_commit.errno ≠ 0)
    (h : remove_selinux_rules env cfg sa w = some (0, w2)) :
    w2.file_exists m.selinux_te_file = false ∧ w2.file_exists m.selinux_if_file = false ∧
    w2.file_exists m.selinux_fc_file = false ∧ w2.file_exists m.selinux_pp_file = false ∧
    sa.id ∉ w2.modules ∧
    w2.trace = w.trace ++
      [.remove_file m.selinux_te_file (env.remove_file m.selinux_te_file),
       .remove_file m.selinux_if_file (env.remove_file m.selinux_if_file),
       .remove_file m.selinux_fc_file (env.remove_file m.selinux_fc_file),
       .remove_file m.selinux_pp_file (env.remove_file m.selinux_pp_file),
       .semanage_handle_create true, .semanage_set_create_store 1,
       .semanage_connect env.semanage_connect.ret, .semanage_set_default_priority 400 0,
       .semanage_module_remove sa.id (env.semanage_module_remove sa.id).ret,
       .semanage_commit 0, .semanage_disconnect env.semanage_disconnect.ret,
       .semanage_handle_destroy] := by
  unfold remove_selinux_rules at h
  simp only [hm] at h
  unfold remove_selinux_rules_with at h
  simp only at h
  by_cases h1 : (remove_app_module_files env m w).1 < 0
  · rw [if_pos h1, Option.some.injEq] at h
    rw [h] at h1
    exact absurd h1 (lt_irrefl (0 : Int))
  · rw [if_neg h1] at h
    by_cases h2 : (remove_pp_file env m (remove_app_module_files env m w).2).1 < 0
    · rw [if_pos h2, Option.some.injEq] at h
      rw [h] at h2
      exact absurd h2 (lt_irrefl (0 : Int))
    · rw [if_neg h2] at h
      obtain ⟨t1, fte, fif, ffc⟩ := remove_app_module_files_ok env m w h1
      obtain ⟨t2, fpp⟩ := remove_file_ok env m.selinux_pp_file _ h2
      obtain ⟨_, hf, hmod, _, ht⟩ := remove_selinux_rules_policy_zero env sa _ w2 hr hc h
      have gte := remove_file_files_mono env m.selinux_pp_file _ _ fte
      have gif := remove_file_files_mono env m.selinux_pp_file _ _ fif
      have gfc := remove_file_files_mono env m.selinux_pp_file _ _ ffc
      refine ⟨?_, ?_, ?_, ?_, ?_, ?_⟩
      · simp only [World.file_exists, hf]
        rw [show (remove_pp_file env m (remove_app_module_files env m w).2).2.files
          m.selinux_te_file = none from gte]
        rfl
      · simp only [World.file_exists, hf]
        rw [show (remove_pp_file env m (remove_app_module_files env m w).2).2.files
          m.selinux_if_file = none from gif]
        rfl
      · simp only [World.file_exists, hf]
        rw [show (remove_pp_file env m (remove_app_module_files env m w).2).2.files
          m.selinux_fc_file = none from gfc]
        rfl
      · simp only [World.file_exists, hf]
        rw [show (remove_pp_file env m (remove_app_module_files env m w).2).2.files
          m.selinux_pp_file = none from fpp]
        rfl
      · rw [hmod]
        simp
      · rw [ht]
        rw [show (remove_pp_file env m (remove_app_module_files env m w).2).2.trace
          = (remove_app_module_files env m w).2.trace
            ++ [Event.remove_file m.selinux_pp_file (env.remove_file m.selinux_pp_file)]
          from t2, t1]
        simp

/-- The theorem above at `demo`, from the state left by its install, with a commit
that returns 0. -/
theorem remove_selinux_rules_zero_sound_sample :
    (remove_selinux_rules { all_ok with semanage_commit := { ret := 0, errno := 0 } }
      sample_cfg demo_app installed_world).map (fun r => (r.1, r.2.modules))
      = some (0, []) := by
  decide

end SecLsmManager
